import Mathlib

/-!
# libsqaod containers: a shallow embedding of `common/Matrix.h` and `tests/utils.h`

The C++ containers `MatrixType<V>` and `VectorType<V>` hold a raw pointer to a
buffer obtained from `malloc` (owning mode) or borrowed from elsewhere (view
mode, `mapped = true`).  The embedding keeps this structure:

* an object is a record of its fields (`rows`, `cols`, `data`, `mapped`);
* a program state holds the objects (by identity), and a heap of blocks;
* a pointer is `none` (the null pointer) or `some a`, the base of block `a`;
* every member function is a function from states to outcomes, an outcome
  being a normal return, a thrown `std::runtime_error`, a failed `assert`,
  or undefined behaviour (an invalid memory access).

Machine integers: `int` is 32 bits, `size_t` is 64 bits, `SizeType` is
`unsigned int` (32 bits).  Signed overflow, undefined in C++, is modelled as
two's complement wrap-around.
-/

namespace sqaod

/-! ## Machine integers -/

/-- Largest value of the C++ type int. -/
def INT_MAX : Int := 2147483647

/-- Value of an int expression: the mathematical result reduced to the
two's complement range from -2^31 to 2^31 - 1. -/
def wrapInt (x : Int) : Int := (x + 2147483648) % 4294967296 - 2147483648

/-- Conversion of an int to size_t (reduction modulo 2^64). -/
def toSizeT (x : Int) : Nat := (x % 18446744073709551616).toNat

/-- Conversion of an int to SizeType, that is unsigned int (reduction modulo 2^32). -/
def toSizeType (x : Int) : Nat := (x % 4294967296).toNat

/-- Product of two size_t values. -/
def mulSizeT (a b : Nat) : Nat := a * b % 18446744073709551616

/-- Largest request malloc serves; a larger one returns the null pointer. -/
def PTRDIFF_MAX : Nat := 9223372036854775807

/-! ## Outcomes -/

/-- Result of running a member function. -/
inductive Outcome (σ : Type) where
  /-- normal return, in the given state -/
  | ok (s : σ)
  /-- a std::runtime_error with the given message was thrown, in the given state -/
  | thrown (msg : String) (s : σ)
  /-- an assert failed: the process aborts -/
  | aborted
  /-- undefined behaviour: an access outside a live block, or an invalid free -/
  | undefined

/-- Sequencing: the continuation runs after a normal return only. -/
def Outcome.andThen {σ : Type} (o : Outcome σ) (f : σ → Outcome σ) : Outcome σ :=
  match o with
  | .ok s => f s
  | .thrown msg s => .thrown msg s
  | .aborted => .aborted
  | .undefined => .undefined

/-! ## Objects and states -/

/-- The struct Dim. -/
structure Dim where
  rows : Int
  cols : Int

/-- Fields of a MatrixType object; data is none for the null pointer. -/
structure MatrixType where
  rows : Int
  cols : Int
  data : Option Nat
  mapped : Bool
deriving DecidableEq

/-- Fields of a VectorType object; data is none for the null pointer. -/
structure VectorType where
  size : Int
  data : Option Nat
  mapped : Bool
deriving DecidableEq

/-- A program state: the matrix objects and vector objects by identity, the
heap (a live block is the list of its cells, a cell being none while it is
uninitialised), and the address the next allocation gets. -/
structure State (V : Type) where
  mats : Nat → MatrixType
  vecs : Nat → VectorType
  heap : Nat → Option (List (Option V))
  brk : Nat

/-- Overwrite the fields of matrix object this. -/
def State.setMat {V : Type} (s : State V) (this : Nat) (m : MatrixType) : State V :=
  { s with mats := Function.update s.mats this m }

/-- Overwrite the fields of vector object this. -/
def State.setVec {V : Type} (s : State V) (this : Nat) (v : VectorType) : State V :=
  { s with vecs := Function.update s.vecs this v }

/-! ## The C library: malloc, free, memcpy -/

/-- The call malloc(nbytes) for cells of sz bytes: a request above PTRDIFF_MAX
returns the null pointer, any other one a fresh block of nbytes / sz
uninitialised cells (also when nbytes is 0). -/
def State.malloc {V : Type} (s : State V) (sz nbytes : Nat) : State V × Option Nat :=
  if nbytes ≤ PTRDIFF_MAX then
    ({ s with
        heap := Function.update s.heap s.brk (some (List.replicate (nbytes / sz) none)),
        brk := s.brk + 1 }, some s.brk)
  else (s, none)

/-- The call ::free(p): nothing for the null pointer, releases a live block,
undefined on a block that is not live. -/
def State.cfree {V : Type} (s : State V) (p : Option Nat) : Outcome (State V) :=
  match p with
  | none => .ok s
  | some a =>
    match s.heap a with
    | some _ => .ok { s with heap := Function.update s.heap a none }
    | none => .undefined

/-- The call memcpy(dst, src, nbytes) for cells of sz bytes.  Copying no byte
does nothing; otherwise both blocks must be live, distinct and hold nbytes. -/
def State.memcpy {V : Type} (s : State V) (sz : Nat) (dst src : Option Nat) (nbytes : Nat) :
    Outcome (State V) :=
  if nbytes = 0 then .ok s
  else
    match dst, src with
    | some d, some a =>
      match s.heap d, s.heap a with
      | some dc, some sc =>
        if d ≠ a ∧ nbytes ≤ sz * dc.length ∧ nbytes ≤ sz * sc.length then
          .ok { s with
                heap := Function.update s.heap d
                  (some (sc.take (nbytes / sz) ++ dc.drop (nbytes / sz))) }
        else .undefined
      | _, _ => .undefined
    | _, _ => .undefined

/-- Reading p[off]: none when the access is invalid (null pointer, block not
live, offset outside the block), otherwise the cell (none while uninitialised). -/
def State.load {V : Type} (s : State V) (p : Option Nat) (off : Int) : Option (Option V) :=
  match p with
  | none => none
  | some a =>
    match s.heap a with
    | none => none
    | some cells => if 0 ≤ off then cells[off.toNat]? else none

/-- Writing p[off] = v; undefined when the access is invalid. -/
def State.store {V : Type} (s : State V) (p : Option Nat) (off : Int) (v : V) :
    Outcome (State V) :=
  match p with
  | none => .undefined
  | some a =>
    match s.heap a with
    | none => .undefined
    | some cells =>
      if 0 ≤ off ∧ off < cells.length then
        .ok { s with heap := Function.update s.heap a (some (cells.set off.toNat (some v))) }
      else .undefined

/-! ## MatrixType -/

/-- The member resetState. -/
def MatrixType.resetState {V : Type} (this : Nat) (s : State V) : State V :=
  s.setMat this { rows := -1, cols := -1, data := none, mapped := false }

/-- The member allocate: asserts not mapped, sets the shape, and takes a
buffer of rows * cols * sizeof(V) bytes, the product rows * cols being an int. -/
def MatrixType.allocate {V : Type} (sz : Nat) (this : Nat) (_rows _cols : Int) (s : State V) :
    Outcome (State V) :=
  if (s.mats this).mapped then .aborted
  else
    let r := s.malloc sz (mulSizeT (toSizeT (wrapInt (_rows * _cols))) sz)
    .ok (r.1.setMat this
      { rows := _rows, cols := _cols, data := r.2, mapped := (s.mats this).mapped })

/-- The member free: asserts not mapped, resets the shape, releases the
buffer when there is one and clears the pointer. -/
def MatrixType.free {V : Type} (this : Nat) (s : State V) : Outcome (State V) :=
  if (s.mats this).mapped then .aborted
  else
    (s.cfree (s.mats this).data).andThen fun s1 =>
      .ok (s1.setMat this
        { rows := -1, cols := -1, data := none, mapped := (s.mats this).mapped })

/-- The member copyFrom.  The byte count of the memcpy is
sizeof(V) * rows * cols, computed in size_t from left to right. -/
def MatrixType.copyFrom {V : Type} (sz : Nat) (this src : Nat) (s : State V) :
    Outcome (State V) :=
  if this = src then .ok s
  else
    (if (s.mats this).rows ≠ (s.mats src).rows ∨ (s.mats this).cols ≠ (s.mats src).cols then
      if (s.mats this).mapped then .thrown "Unable to resize mapped matrix." s
      else MatrixType.free this s
    else .ok s).andThen fun s1 =>
    (if (s1.mats this).data = none then
      MatrixType.allocate sz this (s1.mats src).rows (s1.mats src).cols s1
    else .ok s1).andThen fun s2 =>
    s2.memcpy sz (s2.mats this).data (s2.mats src).data
      (mulSizeT (mulSizeT sz (toSizeT (s2.mats this).rows)) (toSizeT (s2.mats this).cols))

/-- The member moveFrom. -/
def MatrixType.moveFrom {V : Type} (sz : Nat) (this src : Nat) (s : State V) :
    Outcome (State V) :=
  if this = src then .ok s
  else if (s.mats src).mapped then MatrixType.copyFrom sz this src s
  else
    (if (s.mats this).data ≠ none then MatrixType.free this s else .ok s).andThen fun s1 =>
      let s2 := s1.setMat this
        { rows := (s1.mats src).rows, cols := (s1.mats src).cols,
          data := (s1.mats src).data, mapped := true }
      .ok (s2.setMat src
        { rows := -1, cols := -1, data := none, mapped := (s2.mats src).mapped })

/-- The member resize: the old buffer is released when the shape differs, and
allocate is called in either case. -/
def MatrixType.resize {V : Type} (sz : Nat) (this : Nat) (_rows _cols : Int) (s : State V) :
    Outcome (State V) :=
  if (s.mats this).mapped then .aborted
  else
    (if _rows ≠ (s.mats this).rows ∨ _cols ≠ (s.mats this).cols then
      s.cfree (s.mats this).data
    else .ok s).andThen fun s1 =>
    MatrixType.allocate sz this _rows _cols s1

/-- The member set: adopt an external buffer as a view. -/
def MatrixType.set {V : Type} (this : Nat) (_data : Option Nat) (_rows _cols : Int)
    (s : State V) : Outcome (State V) :=
  (if (s.mats this).mapped then .ok s else MatrixType.free this s).andThen fun s1 =>
    .ok (s1.setMat this { rows := _rows, cols := _cols, data := _data, mapped := true })

/-- The offset operator() computes, r * cols + c in int arithmetic. -/
def MatrixType.index (m : MatrixType) (r c : Int) : Int :=
  wrapInt (wrapInt (r * m.cols) + c)

/-- Reading through operator(): the cell data[r * cols + c]. -/
def MatrixType.get {V : Type} (s : State V) (this : Nat) (r c : Int) : Option (Option V) :=
  s.load (s.mats this).data ((s.mats this).index r c)

/-- Writing through the reference operator() returns. -/
def MatrixType.put {V : Type} (this : Nat) (r c : Int) (v : V) (s : State V) :
    Outcome (State V) :=
  s.store (s.mats this).data ((s.mats this).index r c) v

/-- The constructor without arguments. -/
def MatrixType.ctor {V : Type} (this : Nat) (s : State V) : Outcome (State V) :=
  .ok (MatrixType.resetState this s)

/-- The constructor from a row count and a column count. -/
def MatrixType.ctorShape {V : Type} (sz : Nat) (this : Nat) (_rows _cols : Int) (s : State V) :
    Outcome (State V) :=
  MatrixType.allocate sz this _rows _cols (MatrixType.resetState this s)

/-- The constructor from a Dim. -/
def MatrixType.ctorDim {V : Type} (sz : Nat) (this : Nat) (dim : Dim) (s : State V) :
    Outcome (State V) :=
  MatrixType.allocate sz this dim.rows dim.cols (MatrixType.resetState this s)

/-- The copy constructor. -/
def MatrixType.ctorCopy {V : Type} (sz : Nat) (this mat : Nat) (s : State V) :
    Outcome (State V) :=
  MatrixType.copyFrom sz this mat (MatrixType.resetState this s)

/-- The move constructor. -/
def MatrixType.ctorMove {V : Type} (sz : Nat) (this mat : Nat) (s : State V) :
    Outcome (State V) :=
  MatrixType.moveFrom sz this mat (MatrixType.resetState this s)

/-! ## VectorType -/

/-- The member resetState. -/
def VectorType.resetState {V : Type} (this : Nat) (s : State V) : State V :=
  s.setVec this { size := -1, data := none, mapped := false }

/-- The member allocate: asserts not mapped, sets the size, and takes a buffer
of size * sizeof(V) bytes, the int size being converted to size_t. -/
def VectorType.allocate {V : Type} (sz : Nat) (this : Nat) (_size : Int) (s : State V) :
    Outcome (State V) :=
  if (s.vecs this).mapped then .aborted
  else
    let r := s.malloc sz (mulSizeT (toSizeT _size) sz)
    .ok (r.1.setVec this { size := _size, data := r.2, mapped := (s.vecs this).mapped })

/-- The member free. -/
def VectorType.free {V : Type} (this : Nat) (s : State V) : Outcome (State V) :=
  if (s.vecs this).mapped then .aborted
  else
    (s.cfree (s.vecs this).data).andThen fun s1 =>
      .ok (s1.setVec this { size := -1, data := none, mapped := (s.vecs this).mapped })

/-- The member copyFrom; the memcpy copies sizeof(V) * size bytes. -/
def VectorType.copyFrom {V : Type} (sz : Nat) (this src : Nat) (s : State V) :
    Outcome (State V) :=
  if this = src then .ok s
  else
    (if (s.vecs this).size ≠ (s.vecs src).size then
      if (s.vecs this).mapped then .thrown "Unable to resize mapped vector." s
      else VectorType.free this s
    else .ok s).andThen fun s1 =>
    (if (s1.vecs this).data = none then
      VectorType.allocate sz this (s1.vecs src).size s1
    else .ok s1).andThen fun s2 =>
    s2.memcpy sz (s2.vecs this).data (s2.vecs src).data
      (mulSizeT sz (toSizeT (s2.vecs this).size))

/-- The member moveFrom. -/
def VectorType.moveFrom {V : Type} (sz : Nat) (this src : Nat) (s : State V) :
    Outcome (State V) :=
  if this = src then .ok s
  else if (s.vecs src).mapped then VectorType.copyFrom sz this src s
  else
    (if (s.vecs this).data ≠ none then VectorType.free this s else .ok s).andThen fun s1 =>
      let s2 := s1.setVec this
        { size := (s1.vecs src).size, data := (s1.vecs src).data, mapped := false }
      .ok (s2.setVec src { size := -1, data := none, mapped := (s2.vecs src).mapped })

/-- The member resize. -/
def VectorType.resize {V : Type} (sz : Nat) (this : Nat) (_size : Int) (s : State V) :
    Outcome (State V) :=
  if (s.vecs this).mapped then .aborted
  else
    (if _size ≠ (s.vecs this).size then s.cfree (s.vecs this).data else .ok s).andThen fun s1 =>
    VectorType.allocate sz this _size s1

/-- The member set. -/
def VectorType.set {V : Type} (this : Nat) (_data : Option Nat) (_size : Int)
    (s : State V) : Outcome (State V) :=
  (if (s.vecs this).mapped then .ok s else VectorType.free this s).andThen fun s1 =>
    .ok (s1.setVec this { size := _size, data := _data, mapped := true })

/-- Reading through operator(): the cell data[idx]. -/
def VectorType.get {V : Type} (s : State V) (this : Nat) (idx : Int) : Option (Option V) :=
  s.load (s.vecs this).data idx

/-- Writing through the reference operator() returns. -/
def VectorType.put {V : Type} (this : Nat) (idx : Int) (v : V) (s : State V) :
    Outcome (State V) :=
  s.store (s.vecs this).data idx v

/-- The constructor without arguments. -/
def VectorType.ctor {V : Type} (this : Nat) (s : State V) : Outcome (State V) :=
  .ok (VectorType.resetState this s)

/-- The constructor from a size. -/
def VectorType.ctorSize {V : Type} (sz : Nat) (this : Nat) (_size : Int) (s : State V) :
    Outcome (State V) :=
  VectorType.allocate sz this _size (VectorType.resetState this s)

/-- The copy constructor. -/
def VectorType.ctorCopy {V : Type} (sz : Nat) (this vec : Nat) (s : State V) :
    Outcome (State V) :=
  VectorType.copyFrom sz this vec (VectorType.resetState this s)

/-- The move constructor. -/
def VectorType.ctorMove {V : Type} (sz : Nat) (this vec : Nat) (s : State V) :
    Outcome (State V) :=
  VectorType.moveFrom sz this vec (VectorType.resetState this s)

/-! ## Preconditions of the member functions -/

/-- An outcome that is not a thrown exception. -/
def Outcome.NoThrow {σ : Type} (o : Outcome σ) : Prop :=
  ∀ msg s, o ≠ .thrown msg s

/-- Pointer p is the base of a live block of at least n cells, allocated before the break. -/
def State.HoldsCells {V : Type} (s : State V) (p : Option Nat) (n : Int) : Prop :=
  match p with
  | none => False
  | some a =>
    a < s.brk ∧
    match s.heap a with
    | none => False
    | some cells => n ≤ cells.length

/-- Matrix object src holds a buffer for its shape: the row and column counts
are non-negative, their product fits an int, and data is the base of a live
block of at least rows * cols cells. -/
def MatrixType.Allocated {V : Type} (s : State V) (src : Nat) : Prop :=
  0 ≤ (s.mats src).rows ∧ 0 ≤ (s.mats src).cols ∧
  (s.mats src).rows * (s.mats src).cols ≤ INT_MAX ∧
  s.HoldsCells (s.mats src).data ((s.mats src).rows * (s.mats src).cols)

/-- The destinations copyFrom accepts from source src.  Without a buffer the
destination is not mapped (an empty container).  With a buffer, the buffer is
not the source's, and either the destination has the source's shape and its
live block covers that shape (owning or a view), or it has another shape, is
not mapped, and its block is live (owning). -/
def MatrixType.CopyDest {V : Type} (s : State V) (this src : Nat) : Prop :=
  match (s.mats this).data with
  | none => (s.mats this).mapped = false
  | some d =>
    (s.mats src).data ≠ some d ∧
    if (s.mats this).rows = (s.mats src).rows ∧ (s.mats this).cols = (s.mats src).cols then
      s.HoldsCells (some d) ((s.mats src).rows * (s.mats src).cols)
    else (s.mats this).mapped = false ∧ (s.heap d).isSome = true

/-- Vector object src holds a buffer for its size: the size is non-negative
(and an int), and data is the base of a live block of at least size cells. -/
def VectorType.Allocated {V : Type} (s : State V) (src : Nat) : Prop :=
  0 ≤ (s.vecs src).size ∧ (s.vecs src).size ≤ INT_MAX ∧
  s.HoldsCells (s.vecs src).data (s.vecs src).size

/-- The destinations copyFrom accepts from source src, as for matrices. -/
def VectorType.CopyDest {V : Type} (s : State V) (this src : Nat) : Prop :=
  match (s.vecs this).data with
  | none => (s.vecs this).mapped = false
  | some d =>
    (s.vecs src).data ≠ some d ∧
    if (s.vecs this).size = (s.vecs src).size then
      s.HoldsCells (some d) (s.vecs src).size
    else (s.vecs this).mapped = false ∧ (s.heap d).isSome = true

/-- The destinations moveFrom accepts: without a buffer any, with a buffer one
that is not mapped and whose live block is not the source's. -/
def MatrixType.MoveDest {V : Type} (s : State V) (this src : Nat) : Prop :=
  match (s.mats this).data with
  | none => True
  | some d =>
    (s.mats this).mapped = false ∧ (s.heap d).isSome = true ∧ (s.mats src).data ≠ some d

/-- The destinations moveFrom accepts, as for matrices. -/
def VectorType.MoveDest {V : Type} (s : State V) (this src : Nat) : Prop :=
  match (s.vecs this).data with
  | none => True
  | some d =>
    (s.vecs this).mapped = false ∧ (s.heap d).isSome = true ∧ (s.vecs src).data ≠ some d

/-! ## Example states -/

/-- An example state over int cells.  Matrix 1 owns a 2 x 3 buffer (block 0),
matrix 2 is a 1 x 2 view of block 1, every other matrix is empty.  Vector 1
owns a buffer of size 3 (block 2), vector 2 is a view of size 2 of block 3,
every other vector is empty. -/
def demo : State Int where
  mats := fun k =>
    match k with
    | 1 => { rows := 2, cols := 3, data := some 0, mapped := false }
    | 2 => { rows := 1, cols := 2, data := some 1, mapped := true }
    | _ => { rows := -1, cols := -1, data := none, mapped := false }
  vecs := fun k =>
    match k with
    | 1 => { size := 3, data := some 2, mapped := false }
    | 2 => { size := 2, data := some 3, mapped := true }
    | _ => { size := -1, data := none, mapped := false }
  heap := fun a =>
    match a with
    | 0 => some [some 0, some 1, some 2, some 10, some 11, some 12]
    | 1 => some [some 7, some 8]
    | 2 => some [some 0, some 3, some 6]
    | 3 => some [some 5, some 9]
    | _ => none
  brk := 4

/-- An example state with a large view, used with cells of one byte (sz = 1):
matrix 1 is a 65536 x 65536 view of block 0, which holds 2^32 cells; every
other matrix, and every vector, is empty. -/
def demoHuge : State Int where
  mats := fun k =>
    match k with
    | 1 => { rows := 65536, cols := 65536, data := some 0, mapped := true }
    | _ => { rows := -1, cols := -1, data := none, mapped := false }
  vecs := fun _ => { size := -1, data := none, mapped := false }
  heap := fun a =>
    match a with
    | 0 => some (List.replicate 4294967296 (some 0))
    | _ => none
  brk := 1

/-! ## Test fixtures (tests/utils.h) -/

/-- The loop for (SizeType i = 0; i < n; ++i) body(i), for a bound n that the
body leaves unchanged. -/
def forRange {σ : Type} (n : Nat) (body : Nat → σ → Outcome σ) (s : σ) : Outcome σ :=
  (List.range n).foldl (fun o i => o.andThen (body i)) (.ok s)

/-- The fixture testMat of tests/utils.h, built in the matrix object hmat (the
returned object).  The parameter cast is the conversion real(...) of the cell
value iRow * 10 + iCol, an unsigned int; the loop bounds are dim.rows and
dim.cols converted to unsigned int, and the arguments of operator() are the
loop counters converted to int. -/
def testMat {V : Type} (cast : Nat → V) (sz : Nat) (hmat : Nat) (dim : Dim) (s : State V) :
    Outcome (State V) :=
  (MatrixType.ctorDim sz hmat dim s).andThen
    (forRange (toSizeType dim.rows) fun iRow =>
      forRange (toSizeType dim.cols) fun iCol =>
        MatrixType.put hmat (wrapInt iRow) (wrapInt iCol)
          (cast ((iRow * 10 + iCol) % 4294967296)))

/-- The fixture testVec of tests/utils.h, built in the vector object hvec (the
returned object), for a size that is an unsigned int.  The constructor takes
the size converted to int; the cell value (idx * 3) % 17 is computed in
unsigned int and converted by cast. -/
def testVec {V : Type} (cast : Nat → V) (sz : Nat) (hvec : Nat) (size : Nat) (s : State V) :
    Outcome (State V) :=
  (VectorType.ctorSize sz hvec (wrapInt size) s).andThen
    (forRange size fun idx =>
      VectorType.put hvec (wrapInt idx) (cast ((idx * 3) % 4294967296 % 17)))

/-- An example state with a view of more than 2^32 cells, used with cells of
one byte: matrix 1 is a 65537 x 65536 view of block 0, which holds
65537 * 65536 cells; every other matrix, and every vector, is empty. -/
def demoWide : State Int where
  mats := fun k =>
    match k with
    | 1 => { rows := 65537, cols := 65536, data := some 0, mapped := true }
    | _ => { rows := -1, cols := -1, data := none, mapped := false }
  vecs := fun _ => { size := -1, data := none, mapped := false }
  heap := fun a =>
    match a with
    | 0 => some (List.replicate 4295032832 (some 0))
    | _ => none
  brk := 1

/-- Modelled from the spec: an object of the dense row-major matrix type of
the external algebra library (EigenMatrixType of Matrix.h; the library is not
part of the repository).  The constructors of VectorType use its rows(),
cols() and data(); its buffer, owned by the library, holds rows * cols
elements. -/
structure EigenMatrix where
  rows : Int
  cols : Int
  data : Option Nat

/-- The constructor VectorType(EigenMatrix &matrix), a view: asserts a row or
column shape, and takes std::max(matrix.rows(), matrix.cols()), converted to
int, as size. -/
def VectorType.ctorEigen {V : Type} (this : Nat) (matrix : EigenMatrix) (s : State V) :
    Outcome (State V) :=
  if matrix.rows = 1 ∨ matrix.cols = 1 then
    .ok (s.setVec this
      { size := wrapInt (max matrix.rows matrix.cols), data := matrix.data, mapped := true })
  else .aborted

/-- The constructor VectorType(const EigenMatrix &matrix), a deep copy: asserts
a row or column shape, allocates std::max(matrix.rows(), matrix.cols())
elements and copies sizeof(V) * size bytes from matrix.data(). -/
def VectorType.ctorEigenConst {V : Type} (sz : Nat) (this : Nat) (matrix : EigenMatrix)
    (s : State V) : Outcome (State V) :=
  if matrix.rows = 1 ∨ matrix.cols = 1 then
    (VectorType.allocate sz this (wrapInt (max matrix.rows matrix.cols))
      (VectorType.resetState this s)).andThen fun s1 =>
    s1.memcpy sz (s1.vecs this).data matrix.data (mulSizeT sz (toSizeT (s1.vecs this).size))
  else .aborted

/-- Attach the value of a local variable to the state of an outcome. -/
def Outcome.withLocal {σ τ : Type} (o : Outcome σ) (x : τ) : Outcome (σ × τ) :=
  match o with
  | .ok s => .ok (s, x)
  | .thrown msg s => .thrown msg (s, x)
  | .aborted => .aborted
  | .undefined => .undefined

/-- Forget the local variable at the return statement. -/
def Outcome.dropLocal {σ τ : Type} (o : Outcome (σ × τ)) : Outcome σ :=
  match o with
  | .ok s => .ok s.1
  | .thrown msg s => .thrown msg s.1
  | .aborted => .aborted
  | .undefined => .undefined

/-- The loop for (SizeType i = lo; i < hi; ++i) body(i), for bounds that the
body leaves unchanged. -/
def forFromTo {σ : Type} (lo hi : Nat) (body : Nat → σ → Outcome σ) (s : σ) : Outcome σ :=
  forRange (hi - lo) (fun k => body (lo + k)) s

/-- The statement if (++v == 3) v = -2; on the int v: the new value of v. -/
def balancedNext (v : Int) : Int :=
  if wrapInt (v + 1) = 3 then -2 else wrapInt (v + 1)

/-- Modelled from the spec: the seedable generator of the external
pseudo-random module (cpu/CPURandom.h, not part of the repository), over
generator states G: seed(value) sets the state, a function of the seed alone;
random<real>() and randInt(limit) return a draw and advance the state. -/
structure CPURandom (G V : Type) where
  seed : Nat → G
  random : G → V × G
  randInt : G → Int → Int × G

/-- The body of testVecBalanced of tests/utils.h up to the return statement,
built in the vector object hvec, with the final value of the local v.  The
parameter cast is the conversion (real)v. -/
def testVecBalancedRun {V : Type} (cast : Int → V) (sz : Nat) (hvec : Nat) (size : Nat)
    (s : State V) : Outcome (State V × Int) :=
  ((VectorType.ctorSize sz hvec (wrapInt size) s).withLocal (-2 : Int)).andThen
    (forRange size fun idx st =>
      (VectorType.put hvec (wrapInt idx) (cast st.2) st.1).withLocal (balancedNext st.2))

/-- The fixture testVecBalanced: the vector object hvec is returned. -/
def testVecBalanced {V : Type} (cast : Int → V) (sz : Nat) (hvec : Nat) (size : Nat)
    (s : State V) : Outcome (State V) :=
  (testVecBalancedRun cast sz hvec size s).dropLocal

/-- The body of testMatBalanced of tests/utils.h up to the return statement,
built in the matrix object hmat, with the final value of the local v. -/
def testMatBalancedRun {V : Type} (cast : Int → V) (sz : Nat) (hmat : Nat) (dim : Dim)
    (s : State V) : Outcome (State V × Int) :=
  ((MatrixType.ctorDim sz hmat dim s).withLocal (-2 : Int)).andThen
    (forRange (toSizeType dim.rows) fun iRow =>
      forRange (toSizeType dim.cols) fun iCol st =>
        (MatrixType.put hmat (wrapInt iRow) (wrapInt iCol) (cast st.2) st.1).withLocal
          (balancedNext st.2))

/-- The fixture testMatBalanced: the matrix object hmat is returned. -/
def testMatBalanced {V : Type} (cast : Int → V) (sz : Nat) (hmat : Nat) (dim : Dim)
    (s : State V) : Outcome (State V) :=
  (testMatBalancedRun cast sz hmat dim s).dropLocal

/-- Position of cell (i, j), for i ≤ j, in the upper-triangular traversal of an
n x n matrix: rows i ascending, then j from i to n - 1. -/
def triIndex (n i j : Nat) : Nat := i * n - i * (i - 1) / 2 + (j - i)

/-- The body of testMatSymmetric of tests/utils.h up to the return statement,
built in the matrix object mat, with the final value of the local v.  The
chained assignment mat(icol, irow) = mat(irow, icol) = (real)v writes cell
(irow, icol) first, then gives cell (icol, irow) the same value. -/
def testMatSymmetricRun {V : Type} (cast : Int → V) (sz : Nat) (mat : Nat) (dim : Nat)
    (s : State V) : Outcome (State V × Int) :=
  ((MatrixType.ctorShape sz mat (wrapInt dim) (wrapInt dim) s).withLocal (-2 : Int)).andThen
    (forRange dim fun irow =>
      forFromTo irow dim fun icol st =>
        ((MatrixType.put mat (wrapInt irow) (wrapInt icol) (cast st.2) st.1).andThen
          (MatrixType.put mat (wrapInt icol) (wrapInt irow) (cast st.2))).withLocal
            (balancedNext st.2))

/-- The fixture testMatSymmetric: the matrix object mat is returned. -/
def testMatSymmetric {V : Type} (cast : Int → V) (sz : Nat) (mat : Nat) (dim : Nat)
    (s : State V) : Outcome (State V) :=
  (testMatSymmetricRun cast sz mat dim s).dropLocal

/-- The body of createRandomSymmetricMatrix of tests/utils.h up to the return
statement, built in the matrix object mat, with the final state of the local
generator random, seeded with 1. -/
def createRandomSymmetricMatrixRun {G V : Type} (random : CPURandom G V) (sz : Nat)
    (mat : Nat) (dim : Nat) (s : State V) : Outcome (State V × G) :=
  ((MatrixType.ctorShape sz mat (wrapInt dim) (wrapInt dim) s).withLocal
      (random.seed 1)).andThen
    (forRange dim fun irow =>
      forFromTo irow dim fun icol st =>
        ((MatrixType.put mat (wrapInt irow) (wrapInt icol) (random.random st.2).1 st.1).andThen
          (MatrixType.put mat (wrapInt icol) (wrapInt irow) (random.random st.2).1)).withLocal
            (random.random st.2).2)

/-- The fixture createRandomSymmetricMatrix: the matrix object mat is
returned. -/
def createRandomSymmetricMatrix {G V : Type} (random : CPURandom G V) (sz : Nat)
    (mat : Nat) (dim : Nat) (s : State V) : Outcome (State V) :=
  (createRandomSymmetricMatrixRun random sz mat dim s).dropLocal

/-- The body of randomizeBits(size) of tests/utils.h up to the return
statement, built in the vector object vec, with the final state of the local
generator random, seeded with 2. -/
def randomizeBitsRun {G V : Type} (random : CPURandom G V) (cast : Int → V) (sz : Nat)
    (vec : Nat) (size : Nat) (s : State V) : Outcome (State V × G) :=
  ((VectorType.ctorSize sz vec (wrapInt size) s).withLocal (random.seed 2)).andThen
    (forRange size fun idx st =>
      (VectorType.put vec (wrapInt idx) (cast (random.randInt st.2 2).1) st.1).withLocal
        (random.randInt st.2 2).2)

/-- The fixture randomizeBits(size): the vector object vec is returned. -/
def randomizeBits {G V : Type} (random : CPURandom G V) (cast : Int → V) (sz : Nat)
    (vec : Nat) (size : Nat) (s : State V) : Outcome (State V) :=
  (randomizeBitsRun random cast sz vec size s).dropLocal

/-- The body of randomizeBits(dim) of tests/utils.h up to the return statement,
built in the matrix object mat, with the final state of the local generator
random, seeded with 2. -/
def randomizeBitsDimRun {G V : Type} (random : CPURandom G V) (cast : Int → V) (sz : Nat)
    (mat : Nat) (dim : Dim) (s : State V) : Outcome (State V × G) :=
  ((MatrixType.ctorDim sz mat dim s).withLocal (random.seed 2)).andThen
    (forRange (toSizeType dim.rows) fun irow =>
      forRange (toSizeType dim.cols) fun icol st =>
        (MatrixType.put mat (wrapInt irow) (wrapInt icol) (cast (random.randInt st.2 2).1)
          st.1).withLocal (random.randInt st.2 2).2)

/-- The fixture randomizeBits(dim): the matrix object mat is returned. -/
def randomizeBitsDim {G V : Type} (random : CPURandom G V) (cast : Int → V) (sz : Nat)
    (mat : Nat) (dim : Dim) (s : State V) : Outcome (State V) :=
  (randomizeBitsDimRun random cast sz mat dim s).dropLocal

/-- An example generator for the evaluations below: the state counts from the
seed, random<real>() returns the count and randInt(limit) the count modulo
limit. -/
def demoRandom : CPURandom Nat Int where
  seed := fun v => v
  random := fun g => ((g : Int), g + 1)
  randInt := fun g limit => ((g : Int) % limit, g + 1)

/-! # Theorems -/

/-! ## Outcomes, copyFrom of MatrixType -/

@[simp] theorem Outcome.andThen_ok {σ : Type} (s : σ) (f : σ → Outcome σ) :
    (Outcome.ok s).andThen f = f s := rfl

@[simp] theorem Outcome.andThen_thrown {σ : Type} (msg : String) (s : σ) (f : σ → Outcome σ) :
    (Outcome.thrown msg s).andThen f = .thrown msg s := rfl

@[simp] theorem Outcome.andThen_aborted {σ : Type} (f : σ → Outcome σ) :
    (Outcome.aborted).andThen f = .aborted := rfl

@[simp] theorem Outcome.andThen_undefined {σ : Type} (f : σ → Outcome σ) :
    (Outcome.undefined).andThen f = .undefined := rfl

theorem Outcome.NoThrow.andThen {σ : Type} {o : Outcome σ} {f : σ → Outcome σ}
    (ho : o.NoThrow) (hf : ∀ s, (f s).NoThrow) : (o.andThen f).NoThrow := by
  cases o with
  | ok s => exact hf s
  | thrown msg s => exact absurd rfl (ho msg s)
  | aborted => intro m t h; cases h
  | undefined => intro m t h; cases h

theorem State.cfree_noThrow {V : Type} (s : State V) (p : Option Nat) : (s.cfree p).NoThrow := by
  intro m t h
  unfold State.cfree at h
  split at h
  · cases h
  · split at h <;> cases h

theorem State.memcpy_noThrow {V : Type} (s : State V) (sz : Nat) (d a : Option Nat) (n : Nat) :
    (s.memcpy sz d a n).NoThrow := by
  intro m t h
  unfold State.memcpy at h
  repeat (first | cases h | split at h)

theorem MatrixType.allocate_noThrow {V : Type} (sz this : Nat) (r c : Int) (s : State V) :
    (MatrixType.allocate sz this r c s).NoThrow := by
  intro m t h
  unfold MatrixType.allocate at h
  split at h <;> cases h

theorem MatrixType.free_noThrow {V : Type} (this : Nat) (s : State V) :
    (MatrixType.free this s).NoThrow := by
  unfold MatrixType.free
  split
  · intro m t h; cases h
  · exact (State.cfree_noThrow _ _).andThen (fun _ _ _ h => by cases h)

theorem MatrixType.copyFrom_throws {V : Type} (sz this src : Nat) (s : State V)
    (hts : this ≠ src) (hm : (s.mats this).mapped = true)
    (hshape : (s.mats this).rows ≠ (s.mats src).rows ∨ (s.mats this).cols ≠ (s.mats src).cols) :
    MatrixType.copyFrom sz this src s = .thrown "Unable to resize mapped matrix." s := by
  unfold MatrixType.copyFrom
  rw [if_neg hts, if_pos hshape, if_pos hm]
  rfl

theorem MatrixType.copyFrom_thrown_only {V : Type} (sz this src : Nat) (s : State V)
    (msg : String) (s' : State V) (h : MatrixType.copyFrom sz this src s = .thrown msg s') :
    this ≠ src ∧ (s.mats this).mapped = true ∧
      ((s.mats this).rows ≠ (s.mats src).rows ∨ (s.mats this).cols ≠ (s.mats src).cols) ∧
      msg = "Unable to resize mapped matrix." ∧ s' = s := by
  have tail : ∀ s1 : State V, (((if (s1.mats this).data = none then
      MatrixType.allocate sz this (s1.mats src).rows (s1.mats src).cols s1
      else .ok s1).andThen fun s2 =>
      s2.memcpy sz (s2.mats this).data (s2.mats src).data
        (mulSizeT (mulSizeT sz (toSizeT (s2.mats this).rows)) (toSizeT (s2.mats this).cols)))).NoThrow := by
    intro s1
    refine Outcome.NoThrow.andThen ?_ (fun s2 => State.memcpy_noThrow _ _ _ _ _)
    split
    · exact MatrixType.allocate_noThrow _ _ _ _ _
    · intro m t h; cases h
  unfold MatrixType.copyFrom at h
  by_cases hts : this = src
  · rw [if_pos hts] at h; cases h
  · rw [if_neg hts] at h
    by_cases hshape : (s.mats this).rows ≠ (s.mats src).rows ∨ (s.mats this).cols ≠ (s.mats src).cols
    · rw [if_pos hshape] at h
      by_cases hm : (s.mats this).mapped = true
      · rw [if_pos hm] at h
        cases h
        exact ⟨hts, hm, hshape, rfl, rfl⟩
      · rw [if_neg hm] at h
        exact absurd h (Outcome.NoThrow.andThen (MatrixType.free_noThrow this s) tail msg s')
    · rw [if_neg hshape] at h
      exact absurd h (tail s msg s')

@[simp] theorem State.setMat_mats_same {V : Type} (s : State V) (t : Nat) (m : MatrixType) :
    (s.setMat t m).mats t = m := by
  simp [State.setMat]

theorem State.setMat_mats_other {V : Type} (s : State V) (t u : Nat) (m : MatrixType)
    (h : u ≠ t) : (s.setMat t m).mats u = s.mats u := by
  simp [State.setMat, Function.update_noteq h]

@[simp] theorem State.setMat_heap {V : Type} (s : State V) (t : Nat) (m : MatrixType) :
    (s.setMat t m).heap = s.heap := rfl

@[simp] theorem State.setMat_vecs {V : Type} (s : State V) (t : Nat) (m : MatrixType) :
    (s.setMat t m).vecs = s.vecs := rfl

@[simp] theorem State.setMat_brk {V : Type} (s : State V) (t : Nat) (m : MatrixType) :
    (s.setMat t m).brk = s.brk := rfl

theorem mulSizeT_shape (sz R C : Nat) (hsz : sz ≤ 4294967296) (h : R * C ≤ 2147483647) :
    mulSizeT (mulSizeT sz R) C = sz * (R * C) := by
  unfold mulSizeT
  rcases Nat.eq_zero_or_pos C with hC | hC
  · subst hC; simp
  · have hR : R ≤ R * C := Nat.le_mul_of_pos_right R hC
    have h1 : sz * R ≤ 4294967296 * 2147483647 := Nat.mul_le_mul hsz (le_trans hR h)
    have h2 : sz * (R * C) ≤ 4294967296 * 2147483647 := Nat.mul_le_mul hsz h
    have e1 : sz * R % 18446744073709551616 = sz * R := Nat.mod_eq_of_lt (by omega)
    rw [e1, Nat.mul_assoc]
    exact Nat.mod_eq_of_lt (by omega)

theorem toSizeT_of_nonneg (x : Int) (h0 : 0 ≤ x) (h1 : x ≤ 2147483647) : toSizeT x = x.toNat := by
  unfold toSizeT; omega

theorem wrapInt_of_range (x : Int) (h0 : -2147483648 ≤ x) (h1 : x ≤ 2147483647) : wrapInt x = x := by
  unfold wrapInt; omega

theorem allocBytes_shape (sz : Nat) (r c : Int) (hsz : sz ≤ 4294967296) (hr : 0 ≤ r) (hc : 0 ≤ c)
    (h : r * c ≤ 2147483647) :
    mulSizeT (toSizeT (wrapInt (r * c))) sz = sz * (r * c).toNat ∧
      sz * (r * c).toNat ≤ PTRDIFF_MAX := by
  have h0 : 0 ≤ r * c := Int.mul_nonneg hr hc
  rw [wrapInt_of_range _ (by omega) h, toSizeT_of_nonneg _ h0 h]
  have hk : (r * c).toNat ≤ 2147483647 := by omega
  have h2 : sz * (r * c).toNat ≤ 4294967296 * 2147483647 := Nat.mul_le_mul hsz hk
  unfold mulSizeT PTRDIFF_MAX
  rw [Nat.mul_comm, Nat.mod_eq_of_lt (by omega)]
  exact ⟨rfl, by omega⟩

theorem copyBytes_shape (sz : Nat) (r c : Int) (hsz : sz ≤ 4294967296) (hr : 0 ≤ r) (hc : 0 ≤ c)
    (h : r * c ≤ 2147483647) :
    mulSizeT (mulSizeT sz (toSizeT r)) (toSizeT c) = sz * (r * c).toNat := by
  obtain ⟨R, rfl⟩ := Int.eq_ofNat_of_zero_le hr
  obtain ⟨C, rfl⟩ := Int.eq_ofNat_of_zero_le hc
  have hRC : R * C ≤ 2147483647 := by exact_mod_cast h
  have e : ((R : Int) * (C : Int)).toNat = R * C := by
    rw [← Int.natCast_mul]; exact Int.toNat_natCast _
  rw [e, ← mulSizeT_shape sz R C hsz hRC]
  rcases Nat.eq_zero_or_pos R with hR0 | hRpos
  · subst hR0; simp [mulSizeT, toSizeT]
  rcases Nat.eq_zero_or_pos C with hC0 | hCpos
  · subst hC0; simp [mulSizeT, toSizeT]
  have hR : R ≤ R * C := Nat.le_mul_of_pos_right R hCpos
  have hC : C ≤ R * C := Nat.le_mul_of_pos_left C hRpos
  have e1 : toSizeT (R : Int) = R := by unfold toSizeT; omega
  have e2 : toSizeT (C : Int) = C := by unfold toSizeT; omega
  rw [e1, e2]

theorem State.HoldsCells.elim {V : Type} {s : State V} {p : Option Nat} {n : Int}
    (h : s.HoldsCells p n) :
    ∃ a cells, p = some a ∧ a < s.brk ∧ s.heap a = some cells ∧ n ≤ cells.length := by
  unfold State.HoldsCells at h
  cases p with
  | none => exact h.elim
  | some a =>
    obtain ⟨h1, h2⟩ := h
    cases hc : s.heap a with
    | none => rw [hc] at h2; exact h2.elim
    | some cells => rw [hc] at h2; exact ⟨a, cells, rfl, h1, hc, h2⟩

theorem State.memcpy_spec {V : Type} (s : State V) (sz d a : Nat) (dc sc : List (Option V))
    (k : Nat) (hsz : 0 < sz) (hd : s.heap d = some dc) (ha : s.heap a = some sc) (hda : d ≠ a)
    (hkd : k ≤ dc.length) (hks : k ≤ sc.length) :
    ∃ s', s.memcpy sz (some d) (some a) (sz * k) = .ok s' ∧
      s'.mats = s.mats ∧ s'.vecs = s.vecs ∧ s'.brk = s.brk ∧
      (∀ b, b ≠ d → s'.heap b = s.heap b) ∧
      ∃ dc', s'.heap d = some dc' ∧ dc'.length = dc.length ∧
        ∀ idx, idx < k → dc'[idx]? = sc[idx]? := by
  unfold State.memcpy
  by_cases hk : sz * k = 0
  · have hk0 : k = 0 := by
      rcases Nat.mul_eq_zero.mp hk with h | h
      · omega
      · exact h
    rw [if_pos hk]
    exact ⟨s, rfl, rfl, rfl, rfl, fun _ _ => rfl, dc, hd, rfl, fun idx h => by omega⟩
  · rw [if_neg hk]
    simp only [hd, ha]
    have c1 : d ≠ a ∧ sz * k ≤ sz * dc.length ∧ sz * k ≤ sz * sc.length :=
      ⟨hda, Nat.mul_le_mul_left sz hkd, Nat.mul_le_mul_left sz hks⟩
    rw [if_pos c1, Nat.mul_div_cancel_left k hsz]
    refine ⟨_, rfl, rfl, rfl, rfl, ?_, ?_⟩
    · intro b hb
      simp [Function.update_noteq hb]
    · refine ⟨sc.take k ++ dc.drop k, by simp, ?_, ?_⟩
      · simp; omega
      · intro idx hidx
        rw [List.getElem?_append_left (by simp; omega)]
        rw [List.getElem?_take_of_lt hidx]

theorem State.cfree_spec {V : Type} (s : State V) (p : Option Nat)
    (hlive : ∀ d, p = some d → (s.heap d).isSome = true) :
    ∃ s', s.cfree p = .ok s' ∧ s'.mats = s.mats ∧ s'.vecs = s.vecs ∧ s'.brk = s.brk ∧
      (∀ b, p ≠ some b → s'.heap b = s.heap b) ∧ (∀ d, p = some d → s'.heap d = none) := by
  unfold State.cfree
  cases p with
  | none => exact ⟨s, rfl, rfl, rfl, rfl, fun _ _ => rfl, fun d h => by cases h⟩
  | some d =>
    have h := hlive d rfl
    cases hd : s.heap d with
    | none => rw [hd] at h; cases h
    | some dc =>
      refine ⟨{ s with heap := Function.update s.heap d none }, by simp [hd], rfl, rfl, rfl, ?_, ?_⟩
      · intro b hb
        have : b ≠ d := fun e => hb (by rw [e])
        simp [Function.update_noteq this]
      · intro d' hd'
        cases hd'
        simp

theorem MatrixType.free_spec {V : Type} (this : Nat) (s : State V)
    (hm : (s.mats this).mapped = false)
    (hlive : ∀ d, (s.mats this).data = some d → (s.heap d).isSome = true) :
    ∃ s', MatrixType.free this s = .ok s' ∧
      s'.mats this = { rows := -1, cols := -1, data := none, mapped := false } ∧
      (∀ u, u ≠ this → s'.mats u = s.mats u) ∧ s'.vecs = s.vecs ∧ s'.brk = s.brk ∧
      (∀ b, (s.mats this).data ≠ some b → s'.heap b = s.heap b) ∧
      (∀ d, (s.mats this).data = some d → s'.heap d = none) := by
  obtain ⟨s1, h1, hmats, hvecs, hbrk, hheap, hfreed⟩ := State.cfree_spec s (s.mats this).data hlive
  unfold MatrixType.free
  rw [hm, h1]
  refine ⟨_, rfl, ?_, ?_, ?_, ?_, ?_, ?_⟩
  · simp
  · intro u hu; rw [State.setMat_mats_other _ _ _ _ hu, hmats]
  · simpa using hvecs
  · simpa using hbrk
  · simpa using hheap
  · simpa using hfreed

theorem MatrixType.allocate_spec {V : Type} (sz this : Nat) (r c : Int) (s : State V)
    (hsz : 0 < sz) (hsz' : sz ≤ 4294967296) (hm : (s.mats this).mapped = false)
    (hr : 0 ≤ r) (hc : 0 ≤ c) (hrc : r * c ≤ INT_MAX) :
    ∃ s', MatrixType.allocate sz this r c s = .ok s' ∧
      s'.mats this = { rows := r, cols := c, data := some s.brk, mapped := false } ∧
      (∀ u, u ≠ this → s'.mats u = s.mats u) ∧ s'.vecs = s.vecs ∧ s'.brk = s.brk + 1 ∧
      (∀ b, b ≠ s.brk → s'.heap b = s.heap b) ∧
      s'.heap s.brk = some (List.replicate (r * c).toNat none) := by
  obtain ⟨e1, e2⟩ := allocBytes_shape sz r c hsz' hr hc hrc
  unfold MatrixType.allocate State.malloc
  rw [hm, e1]
  simp only [Bool.false_eq_true, if_false, if_pos e2, Nat.mul_div_cancel_left _ hsz]
  refine ⟨_, rfl, ?_, ?_, rfl, rfl, ?_, ?_⟩
  · simp
  · intro u hu; rw [State.setMat_mats_other _ _ _ _ hu]
  · intro b hb; simp [Function.update_noteq hb]
  · simp

theorem index_in_range (r c i j : Int) (hi : 0 ≤ i) (hi' : i < r) (hj : 0 ≤ j) (hj' : j < c) :
    0 ≤ i * c ∧ 0 ≤ i * c + j ∧ i * c + j < r * c := by
  have hc : 0 ≤ c := by omega
  have h1 : 0 ≤ i * c := Int.mul_nonneg hi hc
  have h2 : (i + 1) * c ≤ r * c := Int.mul_le_mul_of_nonneg_right (by omega) hc
  have h3 : (i + 1) * c = i * c + c := by ring
  omega

theorem MatrixType.index_eq (m : MatrixType) (i j : Int) (hi : 0 ≤ i) (hi' : i < m.rows)
    (hj : 0 ≤ j) (hj' : j < m.cols) (h : m.rows * m.cols ≤ INT_MAX) :
    m.index i j = i * m.cols + j := by
  obtain ⟨h1, h2, h3⟩ := index_in_range m.rows m.cols i j hi hi' hj hj'
  unfold INT_MAX at h
  unfold MatrixType.index
  rw [wrapInt_of_range (i * m.cols) (by omega) (by omega)]
  exact wrapInt_of_range _ (by omega) (by omega)

/-- Final part of copyFrom: once this holds a buffer of the source's shape, the memcpy. -/
theorem MatrixType.copy_tail {V : Type} (sz this src : Nat) (s0 s : State V) (d a : Nat)
    (dc sc : List (Option V))
    (hsz : 0 < sz) (hsz' : sz ≤ 4294967296)
    (hr : 0 ≤ (s.mats src).rows) (hc : 0 ≤ (s.mats src).cols)
    (hrc : (s.mats src).rows * (s.mats src).cols ≤ INT_MAX)
    (hsrc : s.mats src = s0.mats src)
    (hrows : (s.mats this).rows = (s.mats src).rows)
    (hcols : (s.mats this).cols = (s.mats src).cols)
    (hthis : (s.mats this).data = some d) (hdata : (s.mats src).data = some a)
    (hd : s.heap d = some dc) (ha : s.heap a = some sc) (ha0 : s0.heap a = some sc) (hda : d ≠ a)
    (hkd : (s.mats src).rows * (s.mats src).cols ≤ dc.length)
    (hks : (s.mats src).rows * (s.mats src).cols ≤ sc.length) :
    ∃ s', s.memcpy sz (s.mats this).data (s.mats src).data
        (mulSizeT (mulSizeT sz (toSizeT (s.mats this).rows)) (toSizeT (s.mats this).cols))
        = .ok s' ∧
      (s'.mats this).rows = (s0.mats src).rows ∧ (s'.mats this).cols = (s0.mats src).cols ∧
      (∀ i j, 0 ≤ i → i < (s0.mats src).rows → 0 ≤ j → j < (s0.mats src).cols →
        (MatrixType.get s' this i j).isSome = true ∧
        MatrixType.get s' this i j = MatrixType.get s0 src i j) ∧
      s'.mats src = s0.mats src ∧ s'.heap a = s0.heap a ∧
      (s'.mats this).data ≠ (s0.mats src).data := by
  have hk0 : 0 ≤ (s.mats src).rows * (s.mats src).cols := Int.mul_nonneg hr hc
  obtain ⟨s', h1, hmats, -, -, hheap, dc', hd', -, hcells⟩ :=
    State.memcpy_spec s sz d a dc sc ((s.mats src).rows * (s.mats src).cols).toNat hsz hd ha hda
      (by omega) (by omega)
  unfold INT_MAX at hrc
  refine ⟨s', ?_, ?_, ?_, ?_, ?_, ?_, ?_⟩
  · rw [hthis, hdata, hrows, hcols, copyBytes_shape sz _ _ hsz' hr hc hrc]
    exact h1
  · rw [hmats, hrows, hsrc]
  · rw [hmats, hcols, hsrc]
  · intro i j hi hi' hj hj'
    rw [← hsrc] at hi' hj'
    have hidx := index_in_range _ _ i j hi hi' hj hj'
    have e1 : (s'.mats this).index i j = i * (s.mats src).cols + j := by
      have := MatrixType.index_eq (s.mats this) i j hi (by rw [hrows]; exact hi') hj
        (by rw [hcols]; exact hj') (by rw [hrows, hcols]; exact hrc)
      rw [hmats, this, hcols]
    have e2 : (s0.mats src).index i j = i * (s.mats src).cols + j := by
      rw [← hsrc]
      exact MatrixType.index_eq (s.mats src) i j hi hi' hj hj' hrc
    have hlt : (i * (s.mats src).cols + j).toNat < sc.length := by omega
    unfold MatrixType.get State.load
    rw [e1, e2, hmats, hthis, ← hsrc, hdata]
    simp only [hd', ha0, if_pos hidx.2.1]
    rw [hcells _ (by omega)]
    exact ⟨by rw [List.getElem?_eq_getElem hlt]; rfl, rfl⟩
  · rw [hmats, hsrc]
  · rw [hheap a (Ne.symm hda), ha, ha0]
  · rw [hmats, hthis, ← hsrc, hdata]
    intro e; cases e; exact hda rfl

/-- Final part of copyFrom on a destination without buffer: allocate, then the memcpy. -/
theorem MatrixType.copy_alloc_tail {V : Type} (sz this src : Nat) (s0 s : State V) (a : Nat)
    (sc : List (Option V))
    (hsz : 0 < sz) (hsz' : sz ≤ 4294967296) (hne : this ≠ src)
    (hr : 0 ≤ (s0.mats src).rows) (hc : 0 ≤ (s0.mats src).cols)
    (hrc : (s0.mats src).rows * (s0.mats src).cols ≤ INT_MAX)
    (hsrc : s.mats src = s0.mats src)
    (hm : (s.mats this).mapped = false)
    (hdata : (s0.mats src).data = some a)
    (ha : s.heap a = some sc) (ha0 : s0.heap a = some sc) (habrk : a < s.brk)
    (hks : (s0.mats src).rows * (s0.mats src).cols ≤ sc.length) :
    ∃ s', ((MatrixType.allocate sz this (s.mats src).rows (s.mats src).cols s).andThen fun s2 =>
        s2.memcpy sz (s2.mats this).data (s2.mats src).data
          (mulSizeT (mulSizeT sz (toSizeT (s2.mats this).rows)) (toSizeT (s2.mats this).cols)))
        = .ok s' ∧
      (s'.mats this).rows = (s0.mats src).rows ∧ (s'.mats this).cols = (s0.mats src).cols ∧
      (∀ i j, 0 ≤ i → i < (s0.mats src).rows → 0 ≤ j → j < (s0.mats src).cols →
        (MatrixType.get s' this i j).isSome = true ∧
        MatrixType.get s' this i j = MatrixType.get s0 src i j) ∧
      s'.mats src = s0.mats src ∧ s'.heap a = s0.heap a ∧
      (s'.mats this).data ≠ (s0.mats src).data := by
  rw [hsrc]
  obtain ⟨s2, h2, hthis2, hoth2, -, -, hheap2, hnew2⟩ :=
    MatrixType.allocate_spec sz this (s0.mats src).rows (s0.mats src).cols s hsz hsz' hm hr hc hrc
  have hsrc2 : s2.mats src = s0.mats src := by rw [hoth2 src (Ne.symm hne), hsrc]
  have hk0 : 0 ≤ (s0.mats src).rows * (s0.mats src).cols := Int.mul_nonneg hr hc
  rw [h2, Outcome.andThen_ok]
  refine MatrixType.copy_tail sz this src s0 s2 s.brk a _ sc hsz hsz'
    (by rw [hsrc2]; exact hr) (by rw [hsrc2]; exact hc) (by rw [hsrc2]; exact hrc) hsrc2
    (by rw [hthis2, hsrc2]) (by rw [hthis2, hsrc2]) (by rw [hthis2]) (by rw [hsrc2]; exact hdata)
    hnew2 (by rw [hheap2 a (by omega)]; exact ha) ha0 (by omega) ?_ (by rw [hsrc2]; exact hks)
  rw [hsrc2, List.length_replicate]
  omega

theorem MatrixType.CopyDest.of_none {V : Type} {s : State V} {this src : Nat}
    (h : MatrixType.CopyDest s this src) (hthis : (s.mats this).data = none) :
    (s.mats this).mapped = false := by
  unfold MatrixType.CopyDest at h
  rw [hthis] at h
  exact h

theorem MatrixType.CopyDest.of_some {V : Type} {s : State V} {this src : Nat}
    (h : MatrixType.CopyDest s this src) {d : Nat} (hthis : (s.mats this).data = some d) :
    (s.mats src).data ≠ some d ∧
    if (s.mats this).rows = (s.mats src).rows ∧ (s.mats this).cols = (s.mats src).cols then
      s.HoldsCells (some d) ((s.mats src).rows * (s.mats src).cols)
    else (s.mats this).mapped = false ∧ (s.heap d).isSome = true := by
  unfold MatrixType.CopyDest at h
  rw [hthis] at h
  exact h

theorem MatrixType.copyFrom_spec {V : Type} (sz this src : Nat) (s : State V)
    (hsz : 0 < sz) (hsz' : sz ≤ 4294967296) (hne : this ≠ src)
    (hsrc : MatrixType.Allocated s src) (hdst : MatrixType.CopyDest s this src) :
    ∃ s', MatrixType.copyFrom sz this src s = .ok s' ∧
      (s'.mats this).rows = (s.mats src).rows ∧ (s'.mats this).cols = (s.mats src).cols ∧
      (∀ i j, 0 ≤ i → i < (s.mats src).rows → 0 ≤ j → j < (s.mats src).cols →
        (MatrixType.get s' this i j).isSome = true ∧
        MatrixType.get s' this i j = MatrixType.get s src i j) ∧
      s'.mats src = s.mats src ∧
      (∀ a, (s.mats src).data = some a → s'.heap a = s.heap a) ∧
      (s'.mats this).data ≠ (s.mats src).data := by
  obtain ⟨hr, hc, hrc, hh⟩ := hsrc
  obtain ⟨a, sc, hdata, habrk, ha, hks⟩ := hh.elim
  have wrap : ∀ s' : State V, s'.heap a = s.heap a →
      ∀ b, (s.mats src).data = some b → s'.heap b = s.heap b := by
    intro s' h b hb
    rw [hdata] at hb; cases hb; exact h
  unfold MatrixType.copyFrom
  rw [if_neg hne]
  by_cases hshape : (s.mats this).rows ≠ (s.mats src).rows ∨ (s.mats this).cols ≠ (s.mats src).cols
  · -- the shapes differ: release, allocate, copy
    have hm : (s.mats this).mapped = false := by
      cases hthis : (s.mats this).data with
      | none => exact hdst.of_none hthis
      | some d =>
        have hdst := hdst.of_some hthis
        have hns : ¬((s.mats this).rows = (s.mats src).rows ∧
            (s.mats this).cols = (s.mats src).cols) := by
          intro h; rcases hshape with h' | h'
          · exact h' h.1
          · exact h' h.2
        rw [if_neg hns] at hdst
        exact hdst.2.1
    have hlive : ∀ d, (s.mats this).data = some d → (s.heap d).isSome = true ∧ d ≠ a := by
      intro d hthis
      have hdst := hdst.of_some hthis
      have hns : ¬((s.mats this).rows = (s.mats src).rows ∧
          (s.mats this).cols = (s.mats src).cols) := by
        intro h; rcases hshape with h' | h'
        · exact h' h.1
        · exact h' h.2
      rw [if_neg hns] at hdst
      refine ⟨hdst.2.2, ?_⟩
      intro e; subst e; exact hdst.1 hdata
    obtain ⟨s1, h1, hthis1, hoth1, -, hbrk1, hheap1, -⟩ :=
      MatrixType.free_spec this s hm (fun d hd => (hlive d hd).1)
    have ha1 : s1.heap a = some sc := by
      rw [hheap1 a (fun e => (hlive a e).2 rfl)]; exact ha
    rw [if_pos hshape, hm]
    simp only [Bool.false_eq_true, if_false, h1, Outcome.andThen_ok, hthis1, if_true]
    obtain ⟨s', h', p1, p2, p3, p4, p5, p6⟩ :=
      MatrixType.copy_alloc_tail sz this src s s1 a sc hsz hsz' hne hr hc hrc
        (hoth1 src (Ne.symm hne)) (by rw [hthis1]) hdata ha1 ha (by omega) hks
    exact ⟨s', h', p1, p2, p3, p4, wrap s' p5, p6⟩
  · -- same shape
    rw [if_neg hshape, Outcome.andThen_ok]
    have hsame : (s.mats this).rows = (s.mats src).rows ∧
        (s.mats this).cols = (s.mats src).cols := by
      constructor
      · by_contra h; exact hshape (Or.inl h)
      · by_contra h; exact hshape (Or.inr h)
    cases hthis : (s.mats this).data with
    | none =>
      have hdst := hdst.of_none hthis
      simp only [if_true]
      obtain ⟨s', h', p1, p2, p3, p4, p5, p6⟩ :=
        MatrixType.copy_alloc_tail sz this src s s a sc hsz hsz' hne hr hc hrc
          rfl hdst hdata ha ha habrk hks
      exact ⟨s', h', p1, p2, p3, p4, wrap s' p5, p6⟩
    | some d =>
      have hdst := hdst.of_some hthis
      rw [if_pos hsame] at hdst
      obtain ⟨hda, hh⟩ := hdst
      obtain ⟨d', dc, hd', -, hd, hkd⟩ := hh.elim
      cases hd'
      have hda' : d ≠ a := by intro e; subst e; exact hda hdata
      simp only [reduceCtorEq, if_false, Outcome.andThen_ok]
      obtain ⟨s', h', p1, p2, p3, p4, p5, p6⟩ :=
        MatrixType.copy_tail sz this src s s d a dc sc hsz hsz' hr hc hrc rfl hsame.1 hsame.2
          hthis hdata hd ha ha hda' hkd hks
      exact ⟨s', h', p1, p2, p3, p4, wrap s' p5, p6⟩

/-! ## VectorType: copyFrom -/

@[simp] theorem State.setVec_vecs_same {V : Type} (s : State V) (t : Nat) (m : VectorType) :
    (s.setVec t m).vecs t = m := by
  simp [State.setVec]

theorem State.setVec_vecs_other {V : Type} (s : State V) (t u : Nat) (m : VectorType)
    (h : u ≠ t) : (s.setVec t m).vecs u = s.vecs u := by
  simp [State.setVec, Function.update_noteq h]

@[simp] theorem State.setVec_heap {V : Type} (s : State V) (t : Nat) (m : VectorType) :
    (s.setVec t m).heap = s.heap := rfl

@[simp] theorem State.setVec_mats {V : Type} (s : State V) (t : Nat) (m : VectorType) :
    (s.setVec t m).mats = s.mats := rfl

@[simp] theorem State.setVec_brk {V : Type} (s : State V) (t : Nat) (m : VectorType) :
    (s.setVec t m).brk = s.brk := rfl

theorem VectorType.allocate_noThrow_vec {V : Type} (sz this : Nat) (n : Int) (s : State V) :
    (VectorType.allocate sz this n s).NoThrow := by
  intro m t h
  unfold VectorType.allocate at h
  split at h <;> cases h

theorem VectorType.free_noThrow_vec {V : Type} (this : Nat) (s : State V) :
    (VectorType.free this s).NoThrow := by
  unfold VectorType.free
  split
  · intro m t h; cases h
  · exact (State.cfree_noThrow _ _).andThen (fun _ _ _ h => by cases h)

theorem VectorType.copyFrom_throws_vec {V : Type} (sz this src : Nat) (s : State V)
    (hts : this ≠ src) (hm : (s.vecs this).mapped = true)
    (hsize : (s.vecs this).size ≠ (s.vecs src).size) :
    VectorType.copyFrom sz this src s = .thrown "Unable to resize mapped vector." s := by
  unfold VectorType.copyFrom
  rw [if_neg hts, if_pos hsize, if_pos hm]
  rfl

theorem VectorType.copyFrom_thrown_only_vec {V : Type} (sz this src : Nat) (s : State V)
    (msg : String) (s' : State V) (h : VectorType.copyFrom sz this src s = .thrown msg s') :
    this ≠ src ∧ (s.vecs this).mapped = true ∧ (s.vecs this).size ≠ (s.vecs src).size ∧
      msg = "Unable to resize mapped vector." ∧ s' = s := by
  have tail : ∀ s1 : State V, (((if (s1.vecs this).data = none then
      VectorType.allocate sz this (s1.vecs src).size s1
      else .ok s1).andThen fun s2 =>
      s2.memcpy sz (s2.vecs this).data (s2.vecs src).data
        (mulSizeT sz (toSizeT (s2.vecs this).size)))).NoThrow := by
    intro s1
    refine Outcome.NoThrow.andThen ?_ (fun s2 => State.memcpy_noThrow _ _ _ _ _)
    split
    · exact VectorType.allocate_noThrow_vec _ _ _ _
    · intro m t h; cases h
  unfold VectorType.copyFrom at h
  by_cases hts : this = src
  · rw [if_pos hts] at h; cases h
  · rw [if_neg hts] at h
    by_cases hsize : (s.vecs this).size ≠ (s.vecs src).size
    · rw [if_pos hsize] at h
      by_cases hm : (s.vecs this).mapped = true
      · rw [if_pos hm] at h
        cases h
        exact ⟨hts, hm, hsize, rfl, rfl⟩
      · rw [if_neg hm] at h
        exact absurd h (Outcome.NoThrow.andThen (VectorType.free_noThrow_vec this s) tail msg s')
    · rw [if_neg hsize] at h
      exact absurd h (tail s msg s')

theorem vecBytes_size (sz : Nat) (n : Int) (hsz : sz ≤ 4294967296) (h0 : 0 ≤ n)
    (h1 : n ≤ 2147483647) :
    mulSizeT (toSizeT n) sz = sz * n.toNat ∧ mulSizeT sz (toSizeT n) = sz * n.toNat ∧
      sz * n.toNat ≤ PTRDIFF_MAX := by
  rw [toSizeT_of_nonneg n h0 h1]
  have hk : n.toNat ≤ 2147483647 := by omega
  have h2 : sz * n.toNat ≤ 4294967296 * 2147483647 := Nat.mul_le_mul hsz hk
  unfold mulSizeT PTRDIFF_MAX
  rw [Nat.mul_comm n.toNat sz, Nat.mod_eq_of_lt (by omega)]
  exact ⟨rfl, rfl, by omega⟩

theorem VectorType.free_spec_vec {V : Type} (this : Nat) (s : State V)
    (hm : (s.vecs this).mapped = false)
    (hlive : ∀ d, (s.vecs this).data = some d → (s.heap d).isSome = true) :
    ∃ s', VectorType.free this s = .ok s' ∧
      s'.vecs this = { size := -1, data := none, mapped := false } ∧
      (∀ u, u ≠ this → s'.vecs u = s.vecs u) ∧ s'.mats = s.mats ∧ s'.brk = s.brk ∧
      (∀ b, (s.vecs this).data ≠ some b → s'.heap b = s.heap b) ∧
      (∀ d, (s.vecs this).data = some d → s'.heap d = none) := by
  obtain ⟨s1, h1, hmats, hvecs, hbrk, hheap, hfreed⟩ := State.cfree_spec s (s.vecs this).data hlive
  unfold VectorType.free
  rw [hm, h1]
  refine ⟨_, rfl, ?_, ?_, ?_, ?_, ?_, ?_⟩
  · simp
  · intro u hu; rw [State.setVec_vecs_other _ _ _ _ hu, hvecs]
  · simpa using hmats
  · simpa using hbrk
  · simpa using hheap
  · simpa using hfreed

theorem VectorType.allocate_spec_vec {V : Type} (sz this : Nat) (n : Int) (s : State V)
    (hsz : 0 < sz) (hsz' : sz ≤ 4294967296) (hm : (s.vecs this).mapped = false)
    (h0 : 0 ≤ n) (h1 : n ≤ INT_MAX) :
    ∃ s', VectorType.allocate sz this n s = .ok s' ∧
      s'.vecs this = { size := n, data := some s.brk, mapped := false } ∧
      (∀ u, u ≠ this → s'.vecs u = s.vecs u) ∧ s'.mats = s.mats ∧ s'.brk = s.brk + 1 ∧
      (∀ b, b ≠ s.brk → s'.heap b = s.heap b) ∧
      s'.heap s.brk = some (List.replicate n.toNat none) := by
  obtain ⟨e1, -, e2⟩ := vecBytes_size sz n hsz' h0 h1
  unfold VectorType.allocate State.malloc
  rw [hm, e1]
  simp only [Bool.false_eq_true, if_false, if_pos e2, Nat.mul_div_cancel_left _ hsz]
  refine ⟨_, rfl, ?_, ?_, rfl, rfl, ?_, ?_⟩
  · simp
  · intro u hu; rw [State.setVec_vecs_other _ _ _ _ hu]
  · intro b hb; simp [Function.update_noteq hb]
  · simp

/-- Final part of copyFrom: once this holds a buffer of the source's size, the memcpy. -/
theorem VectorType.copy_tail_vec {V : Type} (sz this src : Nat) (s0 s : State V) (d a : Nat)
    (dc sc : List (Option V))
    (hsz : 0 < sz) (hsz' : sz ≤ 4294967296)
    (h0 : 0 ≤ (s.vecs src).size) (h1 : (s.vecs src).size ≤ INT_MAX)
    (hsrc : s.vecs src = s0.vecs src)
    (hsize : (s.vecs this).size = (s.vecs src).size)
    (hthis : (s.vecs this).data = some d) (hdata : (s.vecs src).data = some a)
    (hd : s.heap d = some dc) (ha : s.heap a = some sc) (ha0 : s0.heap a = some sc) (hda : d ≠ a)
    (hkd : (s.vecs src).size ≤ dc.length) (hks : (s.vecs src).size ≤ sc.length) :
    ∃ s', s.memcpy sz (s.vecs this).data (s.vecs src).data
        (mulSizeT sz (toSizeT (s.vecs this).size)) = .ok s' ∧
      (s'.vecs this).size = (s0.vecs src).size ∧
      (∀ idx, 0 ≤ idx → idx < (s0.vecs src).size →
        (VectorType.get s' this idx).isSome = true ∧
        VectorType.get s' this idx = VectorType.get s0 src idx) ∧
      s'.vecs src = s0.vecs src ∧ s'.heap a = s0.heap a ∧
      (s'.vecs this).data ≠ (s0.vecs src).data := by
  obtain ⟨s', h', hmats, hvecs, -, hheap, dc', hd', -, hcells⟩ :=
    State.memcpy_spec s sz d a dc sc (s.vecs src).size.toNat hsz hd ha hda
      (by omega) (by omega)
  unfold INT_MAX at h1
  refine ⟨s', ?_, ?_, ?_, ?_, ?_, ?_⟩
  · rw [hthis, hdata, hsize, (vecBytes_size sz _ hsz' h0 h1).2.1]
    exact h'
  · rw [hvecs, hsize, hsrc]
  · intro idx hi hi'
    rw [← hsrc] at hi'
    have hlt : idx.toNat < sc.length := by omega
    unfold VectorType.get State.load
    rw [hvecs, hthis, ← hsrc, hdata]
    simp only [hd', ha0, if_pos hi]
    rw [hcells _ (by omega)]
    exact ⟨by rw [List.getElem?_eq_getElem hlt]; rfl, rfl⟩
  · rw [hvecs, hsrc]
  · rw [hheap a (Ne.symm hda), ha, ha0]
  · rw [hvecs, hthis, ← hsrc, hdata]
    intro e; cases e; exact hda rfl

/-- Final part of copyFrom on a destination without buffer: allocate, then the memcpy. -/
theorem VectorType.copy_alloc_tail_vec {V : Type} (sz this src : Nat) (s0 s : State V) (a : Nat)
    (sc : List (Option V))
    (hsz : 0 < sz) (hsz' : sz ≤ 4294967296) (hne : this ≠ src)
    (h0 : 0 ≤ (s0.vecs src).size) (h1 : (s0.vecs src).size ≤ INT_MAX)
    (hsrc : s.vecs src = s0.vecs src)
    (hm : (s.vecs this).mapped = false)
    (hdata : (s0.vecs src).data = some a)
    (ha : s.heap a = some sc) (ha0 : s0.heap a = some sc) (habrk : a < s.brk)
    (hks : (s0.vecs src).size ≤ sc.length) :
    ∃ s', ((VectorType.allocate sz this (s.vecs src).size s).andThen fun s2 =>
        s2.memcpy sz (s2.vecs this).data (s2.vecs src).data
          (mulSizeT sz (toSizeT (s2.vecs this).size))) = .ok s' ∧
      (s'.vecs this).size = (s0.vecs src).size ∧
      (∀ idx, 0 ≤ idx → idx < (s0.vecs src).size →
        (VectorType.get s' this idx).isSome = true ∧
        VectorType.get s' this idx = VectorType.get s0 src idx) ∧
      s'.vecs src = s0.vecs src ∧ s'.heap a = s0.heap a ∧
      (s'.vecs this).data ≠ (s0.vecs src).data := by
  rw [hsrc]
  obtain ⟨s2, h2, hthis2, hoth2, -, -, hheap2, hnew2⟩ :=
    VectorType.allocate_spec_vec sz this (s0.vecs src).size s hsz hsz' hm h0 h1
  have hsrc2 : s2.vecs src = s0.vecs src := by rw [hoth2 src (Ne.symm hne), hsrc]
  rw [h2, Outcome.andThen_ok]
  refine VectorType.copy_tail_vec sz this src s0 s2 s.brk a _ sc hsz hsz'
    (by rw [hsrc2]; exact h0) (by rw [hsrc2]; exact h1) hsrc2
    (by rw [hthis2, hsrc2]) (by rw [hthis2]) (by rw [hsrc2]; exact hdata)
    hnew2 (by rw [hheap2 a (by omega)]; exact ha) ha0 (by omega) ?_ (by rw [hsrc2]; exact hks)
  rw [hsrc2, List.length_replicate]
  omega

theorem VectorType.CopyDest.of_none_vec {V : Type} {s : State V} {this src : Nat}
    (h : VectorType.CopyDest s this src) (hthis : (s.vecs this).data = none) :
    (s.vecs this).mapped = false := by
  unfold VectorType.CopyDest at h
  rw [hthis] at h
  exact h

theorem VectorType.CopyDest.of_some_vec {V : Type} {s : State V} {this src : Nat}
    (h : VectorType.CopyDest s this src) {d : Nat} (hthis : (s.vecs this).data = some d) :
    (s.vecs src).data ≠ some d ∧
    if (s.vecs this).size = (s.vecs src).size then
      s.HoldsCells (some d) (s.vecs src).size
    else (s.vecs this).mapped = false ∧ (s.heap d).isSome = true := by
  unfold VectorType.CopyDest at h
  rw [hthis] at h
  exact h

theorem VectorType.copyFrom_spec_vec {V : Type} (sz this src : Nat) (s : State V)
    (hsz : 0 < sz) (hsz' : sz ≤ 4294967296) (hne : this ≠ src)
    (hsrc : VectorType.Allocated s src) (hdst : VectorType.CopyDest s this src) :
    ∃ s', VectorType.copyFrom sz this src s = .ok s' ∧
      (s'.vecs this).size = (s.vecs src).size ∧
      (∀ idx, 0 ≤ idx → idx < (s.vecs src).size →
        (VectorType.get s' this idx).isSome = true ∧
        VectorType.get s' this idx = VectorType.get s src idx) ∧
      s'.vecs src = s.vecs src ∧
      (∀ a, (s.vecs src).data = some a → s'.heap a = s.heap a) ∧
      (s'.vecs this).data ≠ (s.vecs src).data := by
  obtain ⟨h0, h1, hh⟩ := hsrc
  obtain ⟨a, sc, hdata, habrk, ha, hks⟩ := hh.elim
  have wrap : ∀ s' : State V, s'.heap a = s.heap a →
      ∀ b, (s.vecs src).data = some b → s'.heap b = s.heap b := by
    intro s' h b hb
    rw [hdata] at hb; cases hb; exact h
  unfold VectorType.copyFrom
  rw [if_neg hne]
  by_cases hsize : (s.vecs this).size ≠ (s.vecs src).size
  · -- the sizes differ: release, allocate, copy
    have hm : (s.vecs this).mapped = false := by
      cases hthis : (s.vecs this).data with
      | none => exact hdst.of_none_vec hthis
      | some d =>
        have hdst := hdst.of_some_vec hthis
        rw [if_neg hsize] at hdst
        exact hdst.2.1
    have hlive : ∀ d, (s.vecs this).data = some d → (s.heap d).isSome = true ∧ d ≠ a := by
      intro d hthis
      have hdst := hdst.of_some_vec hthis
      rw [if_neg hsize] at hdst
      refine ⟨hdst.2.2, ?_⟩
      intro e; subst e; exact hdst.1 hdata
    obtain ⟨s1, hf1, hthis1, hoth1, -, hbrk1, hheap1, -⟩ :=
      VectorType.free_spec_vec this s hm (fun d hd => (hlive d hd).1)
    have ha1 : s1.heap a = some sc := by
      rw [hheap1 a (fun e => (hlive a e).2 rfl)]; exact ha
    rw [if_pos hsize, hm]
    simp only [Bool.false_eq_true, if_false, hf1, Outcome.andThen_ok, hthis1, if_true]
    obtain ⟨s', h', p1, p3, p4, p5, p6⟩ :=
      VectorType.copy_alloc_tail_vec sz this src s s1 a sc hsz hsz' hne h0 h1
        (hoth1 src (Ne.symm hne)) (by rw [hthis1]) hdata ha1 ha (by omega) hks
    exact ⟨s', h', p1, p3, p4, wrap s' p5, p6⟩
  · -- same size
    rw [if_neg hsize, Outcome.andThen_ok]
    have hsame : (s.vecs this).size = (s.vecs src).size := by
      by_contra h; exact hsize h
    cases hthis : (s.vecs this).data with
    | none =>
      have hdst := hdst.of_none_vec hthis
      simp only [if_true]
      obtain ⟨s', h', p1, p3, p4, p5, p6⟩ :=
        VectorType.copy_alloc_tail_vec sz this src s s a sc hsz hsz' hne h0 h1
          rfl hdst hdata ha ha habrk hks
      exact ⟨s', h', p1, p3, p4, wrap s' p5, p6⟩
    | some d =>
      have hdst := hdst.of_some_vec hthis
      rw [if_pos hsame] at hdst
      obtain ⟨hda, hh⟩ := hdst
      obtain ⟨d', dc, hd', -, hd, hkd⟩ := hh.elim
      cases hd'
      have hda' : d ≠ a := by intro e; subst e; exact hda hdata
      simp only [reduceCtorEq, if_false, Outcome.andThen_ok]
      obtain ⟨s', h', p1, p3, p4, p5, p6⟩ :=
        VectorType.copy_tail_vec sz this src s s d a dc sc hsz hsz' h0 h1 rfl hsame
          hthis hdata hd ha ha hda' hkd hks
      exact ⟨s', h', p1, p3, p4, wrap s' p5, p6⟩

/-! ## moveFrom -/

theorem Outcome.andThen_eq_ok {σ : Type} {o : Outcome σ} {f : σ → Outcome σ} {s' : σ}
    (h : o.andThen f = .ok s') : ∃ s1, o = .ok s1 ∧ f s1 = .ok s' := by
  cases o with
  | ok s => exact ⟨s, rfl, h⟩
  | thrown msg s => cases h
  | aborted => cases h
  | undefined => cases h

theorem MatrixType.moveFrom_spec {V : Type} (sz this src : Nat) (s : State V)
    (hne : this ≠ src) (hsrc : (s.mats src).mapped = false)
    (hdst : MatrixType.MoveDest s this src) :
    ∃ s', MatrixType.moveFrom sz this src s = .ok s' ∧
      s'.mats this = { rows := (s.mats src).rows, cols := (s.mats src).cols,
                       data := (s.mats src).data, mapped := true } ∧
      s'.mats src = { rows := -1, cols := -1, data := none, mapped := false } ∧
      (∀ a, (s.mats src).data = some a → s'.heap a = s.heap a) ∧
      (∀ i j, MatrixType.get s' this i j = MatrixType.get s src i j) := by
  have key : ∀ s1 : State V, s1.mats src = s.mats src →
      (∀ a, (s.mats src).data = some a → s1.heap a = s.heap a) →
      ∃ s', Outcome.ok ((s1.setMat this
          { rows := (s1.mats src).rows, cols := (s1.mats src).cols,
            data := (s1.mats src).data, mapped := true }).setMat src
          { rows := -1, cols := -1, data := none,
            mapped := ((s1.setMat this
              { rows := (s1.mats src).rows, cols := (s1.mats src).cols,
                data := (s1.mats src).data, mapped := true }).mats src).mapped }) = .ok s' ∧
        s'.mats this = { rows := (s.mats src).rows, cols := (s.mats src).cols,
                         data := (s.mats src).data, mapped := true } ∧
        s'.mats src = { rows := -1, cols := -1, data := none, mapped := false } ∧
        (∀ a, (s.mats src).data = some a → s'.heap a = s.heap a) ∧
        (∀ i j, MatrixType.get s' this i j = MatrixType.get s src i j) := by
    intro s1 h1 hheap
    refine ⟨_, rfl, ?_, ?_, ?_, ?_⟩
    · rw [State.setMat_mats_other _ _ _ _ hne, State.setMat_mats_same, h1]
    · rw [State.setMat_mats_same, State.setMat_mats_other _ _ _ _ (Ne.symm hne), h1, hsrc]
    · intro a ha; simpa using hheap a ha
    · intro i j
      unfold MatrixType.get State.load
      rw [State.setMat_mats_other _ _ _ _ hne, State.setMat_mats_same, h1]
      cases hd : (s.mats src).data with
      | none => rfl
      | some a =>
        have := hheap a hd
        simp only [State.setMat_heap, this]
        rfl
  unfold MatrixType.moveFrom
  rw [if_neg hne, hsrc]
  simp only [Bool.false_eq_true, if_false]
  cases hthis : (s.mats this).data with
  | none =>
    simp only [ne_eq, not_true_eq_false, if_false, Outcome.andThen_ok]
    exact key s rfl (fun _ _ => rfl)
  | some d =>
    unfold MatrixType.MoveDest at hdst
    rw [hthis] at hdst
    obtain ⟨hm, hlive, hda⟩ := hdst
    obtain ⟨s1, h1, -, hoth1, -, -, hheap1, -⟩ :=
      MatrixType.free_spec this s hm (fun d' hd' => by rw [hthis] at hd'; cases hd'; exact hlive)
    simp only [ne_eq, reduceCtorEq, not_false_eq_true, if_true, h1, Outcome.andThen_ok]
    refine key s1 (hoth1 src (Ne.symm hne)) ?_
    intro a ha
    exact hheap1 a (by rw [hthis]; intro e; cases e; exact hda ha)

theorem VectorType.moveFrom_spec_vec {V : Type} (sz this src : Nat) (s : State V)
    (hne : this ≠ src) (hsrc : (s.vecs src).mapped = false)
    (hdst : VectorType.MoveDest s this src) :
    ∃ s', VectorType.moveFrom sz this src s = .ok s' ∧
      s'.vecs this = { size := (s.vecs src).size, data := (s.vecs src).data, mapped := false } ∧
      s'.vecs src = { size := -1, data := none, mapped := false } ∧
      (∀ a, (s.vecs src).data = some a → s'.heap a = s.heap a) ∧
      (∀ idx, VectorType.get s' this idx = VectorType.get s src idx) := by
  have key : ∀ s1 : State V, s1.vecs src = s.vecs src →
      (∀ a, (s.vecs src).data = some a → s1.heap a = s.heap a) →
      ∃ s', Outcome.ok ((s1.setVec this
          { size := (s1.vecs src).size, data := (s1.vecs src).data, mapped := false }).setVec src
          { size := -1, data := none,
            mapped := ((s1.setVec this
              { size := (s1.vecs src).size, data := (s1.vecs src).data,
                mapped := false }).vecs src).mapped }) = .ok s' ∧
        s'.vecs this = { size := (s.vecs src).size, data := (s.vecs src).data,
                         mapped := false } ∧
        s'.vecs src = { size := -1, data := none, mapped := false } ∧
        (∀ a, (s.vecs src).data = some a → s'.heap a = s.heap a) ∧
        (∀ idx, VectorType.get s' this idx = VectorType.get s src idx) := by
    intro s1 h1 hheap
    refine ⟨_, rfl, ?_, ?_, ?_, ?_⟩
    · rw [State.setVec_vecs_other _ _ _ _ hne, State.setVec_vecs_same, h1]
    · rw [State.setVec_vecs_same, State.setVec_vecs_other _ _ _ _ (Ne.symm hne), h1, hsrc]
    · intro a ha; simpa using hheap a ha
    · intro idx
      unfold VectorType.get State.load
      rw [State.setVec_vecs_other _ _ _ _ hne, State.setVec_vecs_same, h1]
      cases hd : (s.vecs src).data with
      | none => rfl
      | some a =>
        have := hheap a hd
        simp only [State.setVec_heap, this]
  unfold VectorType.moveFrom
  rw [if_neg hne, hsrc]
  simp only [Bool.false_eq_true, if_false]
  cases hthis : (s.vecs this).data with
  | none =>
    simp only [ne_eq, not_true_eq_false, if_false, Outcome.andThen_ok]
    exact key s rfl (fun _ _ => rfl)
  | some d =>
    unfold VectorType.MoveDest at hdst
    rw [hthis] at hdst
    obtain ⟨hm, hlive, hda⟩ := hdst
    obtain ⟨s1, h1, -, hoth1, -, -, hheap1, -⟩ :=
      VectorType.free_spec_vec this s hm (fun d' hd' => by rw [hthis] at hd'; cases hd'; exact hlive)
    simp only [ne_eq, reduceCtorEq, not_false_eq_true, if_true, h1, Outcome.andThen_ok]
    refine key s1 (hoth1 src (Ne.symm hne)) ?_
    intro a ha
    exact hheap1 a (by rw [hthis]; intro e; cases e; exact hda ha)

/-! ## Frame conditions -/

theorem State.cfree_frame {V : Type} {s s' : State V} {p : Option Nat}
    (h : s.cfree p = .ok s') : s'.mats = s.mats ∧ s'.vecs = s.vecs := by
  unfold State.cfree at h
  split at h
  · cases h; exact ⟨rfl, rfl⟩
  · split at h
    · cases h; exact ⟨rfl, rfl⟩
    · cases h

theorem State.memcpy_frame {V : Type} {s s' : State V} {sz : Nat} {d a : Option Nat} {n : Nat}
    (h : s.memcpy sz d a n = .ok s') : s'.mats = s.mats ∧ s'.vecs = s.vecs := by
  unfold State.memcpy at h
  split at h
  · cases h; exact ⟨rfl, rfl⟩
  · split at h
    · split at h
      · split at h
        · cases h; exact ⟨rfl, rfl⟩
        · cases h
      · cases h
    · cases h

theorem MatrixType.free_frame {V : Type} {this : Nat} {s s' : State V}
    (h : MatrixType.free this s = .ok s') :
    (∀ u, u ≠ this → s'.mats u = s.mats u) ∧ s'.vecs = s.vecs := by
  unfold MatrixType.free at h
  split at h
  · cases h
  · obtain ⟨s1, h1, h2⟩ := Outcome.andThen_eq_ok h
    obtain ⟨hm, hv⟩ := State.cfree_frame h1
    cases h2
    exact ⟨fun u hu => by rw [State.setMat_mats_other _ _ _ _ hu, hm], by simpa using hv⟩

theorem MatrixType.allocate_frame {V : Type} {sz this : Nat} {r c : Int} {s s' : State V}
    (h : MatrixType.allocate sz this r c s = .ok s') :
    (∀ u, u ≠ this → s'.mats u = s.mats u) ∧ s'.vecs = s.vecs := by
  unfold MatrixType.allocate State.malloc at h
  split at h
  · cases h
  · cases h
    constructor
    · intro u hu
      rw [State.setMat_mats_other _ _ _ _ hu]
      split <;> rfl
    · simp only [State.setMat_vecs]
      split <;> rfl

theorem MatrixType.copyFrom_frame {V : Type} {sz this src : Nat} {s s' : State V}
    (h : MatrixType.copyFrom sz this src s = .ok s') :
    (∀ u, u ≠ this → s'.mats u = s.mats u) ∧ s'.vecs = s.vecs := by
  unfold MatrixType.copyFrom at h
  split at h
  · cases h; exact ⟨fun _ _ => rfl, rfl⟩
  · obtain ⟨s1, h1, h⟩ := Outcome.andThen_eq_ok h
    obtain ⟨s2, h2, h3⟩ := Outcome.andThen_eq_ok h
    have f3 := State.memcpy_frame h3
    have f1 : (∀ u, u ≠ this → s1.mats u = s.mats u) ∧ s1.vecs = s.vecs := by
      split at h1
      · split at h1
        · cases h1
        · exact MatrixType.free_frame h1
      · cases h1; exact ⟨fun _ _ => rfl, rfl⟩
    have f2 : (∀ u, u ≠ this → s2.mats u = s1.mats u) ∧ s2.vecs = s1.vecs := by
      split at h2
      · exact MatrixType.allocate_frame h2
      · cases h2; exact ⟨fun _ _ => rfl, rfl⟩
    exact ⟨fun u hu => by rw [f3.1, f2.1 u hu, f1.1 u hu], by rw [f3.2, f2.2, f1.2]⟩

theorem VectorType.free_frame_vec {V : Type} {this : Nat} {s s' : State V}
    (h : VectorType.free this s = .ok s') :
    (∀ u, u ≠ this → s'.vecs u = s.vecs u) ∧ s'.mats = s.mats := by
  unfold VectorType.free at h
  split at h
  · cases h
  · obtain ⟨s1, h1, h2⟩ := Outcome.andThen_eq_ok h
    obtain ⟨hm, hv⟩ := State.cfree_frame h1
    cases h2
    exact ⟨fun u hu => by rw [State.setVec_vecs_other _ _ _ _ hu, hv], by simpa using hm⟩

theorem VectorType.allocate_frame_vec {V : Type} {sz this : Nat} {n : Int} {s s' : State V}
    (h : VectorType.allocate sz this n s = .ok s') :
    (∀ u, u ≠ this → s'.vecs u = s.vecs u) ∧ s'.mats = s.mats := by
  unfold VectorType.allocate State.malloc at h
  split at h
  · cases h
  · cases h
    constructor
    · intro u hu
      rw [State.setVec_vecs_other _ _ _ _ hu]
      split <;> rfl
    · simp only [State.setVec_mats]
      split <;> rfl

theorem VectorType.copyFrom_frame_vec {V : Type} {sz this src : Nat} {s s' : State V}
    (h : VectorType.copyFrom sz this src s = .ok s') :
    (∀ u, u ≠ this → s'.vecs u = s.vecs u) ∧ s'.mats = s.mats := by
  unfold VectorType.copyFrom at h
  split at h
  · cases h; exact ⟨fun _ _ => rfl, rfl⟩
  · obtain ⟨s1, h1, h⟩ := Outcome.andThen_eq_ok h
    obtain ⟨s2, h2, h3⟩ := Outcome.andThen_eq_ok h
    have f3 := State.memcpy_frame h3
    have f1 : (∀ u, u ≠ this → s1.vecs u = s.vecs u) ∧ s1.mats = s.mats := by
      split at h1
      · split at h1
        · cases h1
        · exact VectorType.free_frame_vec h1
      · cases h1; exact ⟨fun _ _ => rfl, rfl⟩
    have f2 : (∀ u, u ≠ this → s2.vecs u = s1.vecs u) ∧ s2.mats = s1.mats := by
      split at h2
      · exact VectorType.allocate_frame_vec h2
      · cases h2; exact ⟨fun _ _ => rfl, rfl⟩
    exact ⟨fun u hu => by rw [f3.2, f2.1 u hu, f1.1 u hu], by rw [f3.1, f2.2, f1.2]⟩

/-- After a move that returns, the destination matrix is flagged as mapped. -/
theorem MatrixType.moveFrom_flag {V : Type} {sz this src : Nat} {s s' : State V}
    (hne : this ≠ src) (hsrc : (s.mats src).mapped = false)
    (h : MatrixType.moveFrom sz this src s = .ok s') : (s'.mats this).mapped = true := by
  unfold MatrixType.moveFrom at h
  rw [if_neg hne, hsrc] at h
  simp only [Bool.false_eq_true, if_false] at h
  obtain ⟨s1, -, h2⟩ := Outcome.andThen_eq_ok h
  cases h2
  rw [State.setMat_mats_other _ _ _ _ hne, State.setMat_mats_same]

/-- After a move that returns, the destination vector is flagged as not mapped. -/
theorem VectorType.moveFrom_flag_vec {V : Type} {sz this src : Nat} {s s' : State V}
    (hne : this ≠ src) (hsrc : (s.vecs src).mapped = false)
    (h : VectorType.moveFrom sz this src s = .ok s') : (s'.vecs this).mapped = false := by
  unfold VectorType.moveFrom at h
  rw [if_neg hne, hsrc] at h
  simp only [Bool.false_eq_true, if_false] at h
  obtain ⟨s1, -, h2⟩ := Outcome.andThen_eq_ok h
  cases h2
  rw [State.setVec_vecs_other _ _ _ _ hne, State.setVec_vecs_same]

/-! ## Claims C1 and C2 -/

/-- C1 (amended).  copyFrom deep-copies: for every source that holds a buffer
for its shape (non-negative row and column counts whose product fits an int)
and every destination distinct from it that copyFrom accepts (empty, owning
with any shape, or a view of the source's shape; its buffer not the
source's), copyFrom returns; afterwards the destination has the source's
rows and cols, every cell (i, j) with 0 ≤ i < rows and 0 ≤ j < cols is readable
and reads as the source's cell, the source object and its block are
unchanged, and the destination's buffer is not the source's.  The same holds
for VectorType with size in place of rows and cols.  (sz is sizeof(V).) -/
theorem copyFrom_deep_copy {V : Type} (sz this src : Nat) (s : State V)
    (hsz : 0 < sz) (hsz' : sz ≤ 4294967296) (hne : this ≠ src) :
    (MatrixType.Allocated s src → MatrixType.CopyDest s this src →
      ∃ s', MatrixType.copyFrom sz this src s = .ok s' ∧
        (s'.mats this).rows = (s.mats src).rows ∧ (s'.mats this).cols = (s.mats src).cols ∧
        (∀ i j, 0 ≤ i → i < (s.mats src).rows → 0 ≤ j → j < (s.mats src).cols →
          (MatrixType.get s' this i j).isSome = true ∧
          MatrixType.get s' this i j = MatrixType.get s src i j) ∧
        s'.mats src = s.mats src ∧
        (∀ a, (s.mats src).data = some a → s'.heap a = s.heap a) ∧
        (s'.mats this).data ≠ (s.mats src).data) ∧
    (VectorType.Allocated s src → VectorType.CopyDest s this src →
      ∃ s', VectorType.copyFrom sz this src s = .ok s' ∧
        (s'.vecs this).size = (s.vecs src).size ∧
        (∀ idx, 0 ≤ idx → idx < (s.vecs src).size →
          (VectorType.get s' this idx).isSome = true ∧
          VectorType.get s' this idx = VectorType.get s src idx) ∧
        s'.vecs src = s.vecs src ∧
        (∀ a, (s.vecs src).data = some a → s'.heap a = s.heap a) ∧
        (s'.vecs this).data ≠ (s.vecs src).data) :=
  ⟨MatrixType.copyFrom_spec sz this src s hsz hsz' hne,
   VectorType.copyFrom_spec_vec sz this src s hsz hsz' hne⟩

/-- C1 witness: in the example state, copying matrix 1 (2 x 3, owning) into
the empty matrix 0 and vector 1 (size 3) into the empty vector 0. -/
theorem copyFrom_deep_copy_witness :
    (∃ s', MatrixType.copyFrom 4 0 1 demo = .ok s' ∧
      (s'.mats 0).rows = 2 ∧ (s'.mats 0).cols = 3 ∧
      MatrixType.get s' 0 1 2 = some (some 12) ∧ s'.mats 1 = demo.mats 1) ∧
    (∃ s', VectorType.copyFrom 4 0 1 demo = .ok s' ∧
      (s'.vecs 0).size = 3 ∧ VectorType.get s' 0 2 = some (some 6) ∧
      s'.vecs 1 = demo.vecs 1) := by
  have h := copyFrom_deep_copy 4 0 1 demo (by decide) (by decide) (by decide)
  obtain ⟨s1, a1, a2, a3, a4, a5, -⟩ := h.1
    (by simp [MatrixType.Allocated, State.HoldsCells, demo, INT_MAX])
    (by simp [MatrixType.CopyDest, demo])
  obtain ⟨s2, b1, b2, b3, b4, -⟩ := h.2
    (by simp [VectorType.Allocated, State.HoldsCells, demo, INT_MAX])
    (by simp [VectorType.CopyDest, demo])
  exact ⟨⟨s1, a1, a2, a3,
      (a4 1 2 (by decide) (by decide) (by decide) (by decide)).2, a5⟩,
    ⟨s2, b1, b2, (b3 2 (by decide) (by decide)).2, b4⟩⟩

/-- C1 counterexample.  First, an empty source (matrix 3, vector 3) copied
into an empty destination (matrix 0, vector 0): allocate(-1, -1) takes
sizeof(V) bytes and the memcpy then reads sizeof(V) bytes through the null
source pointer; for vectors allocate(-1) requests 2^64 - sizeof(V) bytes and
both pointers of the memcpy are null.  Second, a 65536 x 65536 view of one-byte
cells copied into an empty destination: rows * cols wraps to 0 in allocate,
and the memcpy writes 2^32 bytes to the block of 0 bytes.  None returns. -/
theorem copyFrom_deep_copy_counterexample :
    (demo.mats 3 = { rows := -1, cols := -1, data := none, mapped := false } ∧
      demo.mats 0 = { rows := -1, cols := -1, data := none, mapped := false } ∧
      MatrixType.copyFrom 4 0 3 demo = .undefined) ∧
    (demo.vecs 3 = { size := -1, data := none, mapped := false } ∧
      demo.vecs 0 = { size := -1, data := none, mapped := false } ∧
      VectorType.copyFrom 4 0 3 demo = .undefined) ∧
    (demoHuge.mats 1 = { rows := 65536, cols := 65536, data := some 0, mapped := true } ∧
      demoHuge.heap 0 = some (List.replicate 4294967296 (some 0)) ∧
      demoHuge.mats 0 = { rows := -1, cols := -1, data := none, mapped := false } ∧
      MatrixType.copyFrom 1 0 1 demoHuge = .undefined) :=
  ⟨⟨rfl, rfl, rfl⟩, ⟨rfl, rfl, rfl⟩, ⟨rfl, rfl, rfl, rfl⟩⟩

/-- C2 (the code).  moveFrom and the transfer of ownership, for a non-view
source and a destination distinct from it.  When the destination is flagged
as a view and holds a buffer, moveFrom ends in the failed assert(!mapped) of
free(): nothing is transferred.  When the destination holds no buffer, or is
not flagged as a view and owns a live block other than the source's, moveFrom
returns; afterwards the destination has the source's rows, cols and data
pointer, the block that pointer names is unchanged (so every cell reads as
the source's cell did), and the source is empty: rows = cols = -1 and data
null.  The same holds for VectorType with size. -/
theorem moveFrom_transfers_ownership {V : Type} (sz this src : Nat) (s : State V)
    (hne : this ≠ src) :
    ((s.mats src).mapped = false → (s.mats this).mapped = true →
      (s.mats this).data ≠ none → MatrixType.moveFrom sz this src s = .aborted) ∧
    ((s.mats src).mapped = false → MatrixType.MoveDest s this src →
      ∃ s', MatrixType.moveFrom sz this src s = .ok s' ∧
        (s'.mats this).rows = (s.mats src).rows ∧ (s'.mats this).cols = (s.mats src).cols ∧
        (s'.mats this).data = (s.mats src).data ∧
        (∀ a, (s.mats src).data = some a → s'.heap a = s.heap a) ∧
        (∀ i j, MatrixType.get s' this i j = MatrixType.get s src i j) ∧
        (s'.mats src).rows = -1 ∧ (s'.mats src).cols = -1 ∧ (s'.mats src).data = none) ∧
    ((s.vecs src).mapped = false → (s.vecs this).mapped = true →
      (s.vecs this).data ≠ none → VectorType.moveFrom sz this src s = .aborted) ∧
    ((s.vecs src).mapped = false → VectorType.MoveDest s this src →
      ∃ s', VectorType.moveFrom sz this src s = .ok s' ∧
        (s'.vecs this).size = (s.vecs src).size ∧
        (s'.vecs this).data = (s.vecs src).data ∧
        (∀ a, (s.vecs src).data = some a → s'.heap a = s.heap a) ∧
        (∀ idx, VectorType.get s' this idx = VectorType.get s src idx) ∧
        (s'.vecs src).size = -1 ∧ (s'.vecs src).data = none) := by
  refine ⟨?_, ?_, ?_, ?_⟩
  · intro hsrc hm hd
    unfold MatrixType.moveFrom
    rw [if_neg hne, hsrc]
    simp only [Bool.false_eq_true, if_false]
    rw [if_pos hd]
    simp only [MatrixType.free, hm, if_true, Outcome.andThen_aborted]
  · intro hsrc hdst
    obtain ⟨s', h, hthis, hs, hheap, hget⟩ := MatrixType.moveFrom_spec sz this src s hne hsrc hdst
    exact ⟨s', h, by rw [hthis], by rw [hthis], by rw [hthis], hheap, hget,
      by rw [hs], by rw [hs], by rw [hs]⟩
  · intro hsrc hm hd
    unfold VectorType.moveFrom
    rw [if_neg hne, hsrc]
    simp only [Bool.false_eq_true, if_false]
    rw [if_pos hd]
    simp only [VectorType.free, hm, if_true, Outcome.andThen_aborted]
  · intro hsrc hdst
    obtain ⟨s', h, hthis, hs, hheap, hget⟩ := VectorType.moveFrom_spec_vec sz this src s hne hsrc hdst
    exact ⟨s', h, by rw [hthis], by rw [hthis], hheap, hget, by rw [hs], by rw [hs]⟩

/-- C2 at the failing input and at an accepted one, in the example state.
Moving the owning matrix 1 into the 1 x 2 view (matrix 2), and the owning
vector 1 into the view of size 2 (vector 2), fails the assert of free().
Moving matrix 1 into the empty matrix 0, and vector 1 into the empty vector 0,
transfers the buffer and empties the source. -/
theorem moveFrom_transfers_ownership_witness :
    ((demo.mats 1).mapped = false ∧ (demo.mats 2).mapped = true ∧
      (demo.mats 2).data = some 1 ∧ MatrixType.moveFrom 4 2 1 demo = .aborted) ∧
    ((demo.vecs 1).mapped = false ∧ (demo.vecs 2).mapped = true ∧
      (demo.vecs 2).data = some 3 ∧ VectorType.moveFrom 4 2 1 demo = .aborted) ∧
    (∃ s', MatrixType.moveFrom 4 0 1 demo = .ok s' ∧
      (s'.mats 0).rows = 2 ∧ (s'.mats 0).cols = 3 ∧ (s'.mats 0).data = some 0 ∧
      MatrixType.get s' 0 1 2 = some (some 12) ∧
      (s'.mats 1).rows = -1 ∧ (s'.mats 1).cols = -1 ∧ (s'.mats 1).data = none) ∧
    (∃ s', VectorType.moveFrom 4 0 1 demo = .ok s' ∧
      (s'.vecs 0).size = 3 ∧ (s'.vecs 0).data = some 2 ∧
      VectorType.get s' 0 2 = some (some 6) ∧
      (s'.vecs 1).size = -1 ∧ (s'.vecs 1).data = none) := by
  have k := moveFrom_transfers_ownership (V := Int) 4 2 1 demo (by decide)
  have h := moveFrom_transfers_ownership (V := Int) 4 0 1 demo (by decide)
  obtain ⟨s1, a1, a2, a3, a4, -, a6, a7, a8, a9⟩ := h.2.1 rfl
    (by simp [MatrixType.MoveDest, demo])
  obtain ⟨s2, b1, b2, b3, -, b5, b6, b7⟩ := h.2.2.2 rfl
    (by simp [VectorType.MoveDest, demo])
  exact ⟨⟨rfl, rfl, rfl, k.1 rfl rfl (by simp [demo])⟩,
    ⟨rfl, rfl, rfl, k.2.2.1 rfl rfl (by simp [demo])⟩,
    ⟨s1, a1, a2, a3, a4, a6 1 2, a7, a8, a9⟩, ⟨s2, b1, b2, b3, b5 2, b6, b7⟩⟩

/-! ## Claims C3, C4 and C5 -/

/-- C3.  Copy into a view of another shape is rejected atomically.  For a
mapped destination distinct from the source whose rows or cols differ from the
source's, copyFrom throws "Unable to resize mapped matrix." in the unchanged
state (so rows, cols, data, the block contents and the mapped flag of the
destination are as before); conversely, whenever copyFrom throws, with any
message and in any state, the destination is mapped, distinct from the source
and of another shape, the message is that one and the state is the initial
one.  For VectorType the same holds with size and
"Unable to resize mapped vector.". -/
theorem copyFrom_view_rejection {V : Type} (sz this src : Nat) (s : State V) :
    (this ≠ src → (s.mats this).mapped = true →
      ((s.mats this).rows ≠ (s.mats src).rows ∨ (s.mats this).cols ≠ (s.mats src).cols) →
      MatrixType.copyFrom sz this src s = .thrown "Unable to resize mapped matrix." s) ∧
    (∀ msg s', MatrixType.copyFrom sz this src s = .thrown msg s' →
      this ≠ src ∧ (s.mats this).mapped = true ∧
      ((s.mats this).rows ≠ (s.mats src).rows ∨ (s.mats this).cols ≠ (s.mats src).cols) ∧
      msg = "Unable to resize mapped matrix." ∧ s' = s) ∧
    (this ≠ src → (s.vecs this).mapped = true → (s.vecs this).size ≠ (s.vecs src).size →
      VectorType.copyFrom sz this src s = .thrown "Unable to resize mapped vector." s) ∧
    (∀ msg s', VectorType.copyFrom sz this src s = .thrown msg s' →
      this ≠ src ∧ (s.vecs this).mapped = true ∧ (s.vecs this).size ≠ (s.vecs src).size ∧
      msg = "Unable to resize mapped vector." ∧ s' = s) :=
  ⟨MatrixType.copyFrom_throws sz this src s,
   MatrixType.copyFrom_thrown_only sz this src s,
   VectorType.copyFrom_throws_vec sz this src s,
   VectorType.copyFrom_thrown_only_vec sz this src s⟩

/-- C3 witness: in the example state the 1 x 2 view (matrix 2) rejects the 2 x 3
matrix 1, and the view of size 2 (vector 2) rejects vector 1 of size 3. -/
theorem copyFrom_view_rejection_witness :
    MatrixType.copyFrom 4 2 1 demo = .thrown "Unable to resize mapped matrix." demo ∧
    VectorType.copyFrom 4 2 1 demo = .thrown "Unable to resize mapped vector." demo :=
  ⟨(copyFrom_view_rejection 4 2 1 demo).1 (by decide) rfl (Or.inl (by decide)),
   (copyFrom_view_rejection 4 2 1 demo).2.2.1 (by decide) rfl (by decide)⟩

/-- C4.  Move degrades to copy for a view source: when the source is mapped
and distinct from the destination, moveFrom has exactly the outcome of
copyFrom (the same final state, or the same thrown failure), and in whatever
state it ends (returned or thrown) the source object has the rows, cols, data
and mapped flag it had: it is not reset.  For MatrixType and VectorType. -/
theorem moveFrom_view_source_copies {V : Type} (sz this src : Nat) (s : State V)
    (hne : this ≠ src) :
    ((s.mats src).mapped = true →
      MatrixType.moveFrom sz this src s = MatrixType.copyFrom sz this src s ∧
      ∀ s', (MatrixType.moveFrom sz this src s = .ok s' ∨
          ∃ msg, MatrixType.moveFrom sz this src s = .thrown msg s') →
        s'.mats src = s.mats src) ∧
    ((s.vecs src).mapped = true →
      VectorType.moveFrom sz this src s = VectorType.copyFrom sz this src s ∧
      ∀ s', (VectorType.moveFrom sz this src s = .ok s' ∨
          ∃ msg, VectorType.moveFrom sz this src s = .thrown msg s') →
        s'.vecs src = s.vecs src) := by
  constructor
  · intro hm
    have e : MatrixType.moveFrom sz this src s = MatrixType.copyFrom sz this src s := by
      unfold MatrixType.moveFrom
      rw [if_neg hne, if_pos hm]
    refine ⟨e, ?_⟩
    intro s' h
    rw [e] at h
    rcases h with h | ⟨msg, h⟩
    · exact (MatrixType.copyFrom_frame h).1 src (Ne.symm hne)
    · rw [(MatrixType.copyFrom_thrown_only sz this src s msg s' h).2.2.2.2]
  · intro hm
    have e : VectorType.moveFrom sz this src s = VectorType.copyFrom sz this src s := by
      unfold VectorType.moveFrom
      rw [if_neg hne, if_pos hm]
    refine ⟨e, ?_⟩
    intro s' h
    rw [e] at h
    rcases h with h | ⟨msg, h⟩
    · exact (VectorType.copyFrom_frame_vec h).1 src (Ne.symm hne)
    · rw [(VectorType.copyFrom_thrown_only_vec sz this src s msg s' h).2.2.2.2]

/-- C4 witness: in the example state, moving the 1 x 2 view (matrix 2) into
the empty matrix 0 copies it and leaves the view as it was; likewise for the
view of size 2 (vector 2) and the empty vector 0. -/
theorem moveFrom_view_source_copies_witness :
    (MatrixType.moveFrom 4 0 2 demo = MatrixType.copyFrom 4 0 2 demo ∧
      ∃ s', MatrixType.moveFrom 4 0 2 demo = .ok s' ∧ s'.mats 2 = demo.mats 2 ∧
        MatrixType.get s' 0 0 1 = some (some 8) ∧ (s'.mats 0).data = some 4) ∧
    (VectorType.moveFrom 4 0 2 demo = VectorType.copyFrom 4 0 2 demo ∧
      ∃ s', VectorType.moveFrom 4 0 2 demo = .ok s' ∧ s'.vecs 2 = demo.vecs 2 ∧
        VectorType.get s' 0 1 = some (some 9) ∧ (s'.vecs 0).data = some 4) := by
  have h := moveFrom_view_source_copies (V := Int) 4 0 2 demo (by decide)
  exact ⟨⟨(h.1 rfl).1, _, rfl, (h.1 rfl).2 _ (Or.inl rfl), rfl, rfl⟩,
    ⟨(h.2 rfl).1, _, rfl, (h.2 rfl).2 _ (Or.inl rfl), rfl, rfl⟩⟩

/-- C5.  Ownership flag after a real move: for a non-view source distinct from
the destination, whenever MatrixType moveFrom returns the destination has
mapped = true, and whenever VectorType moveFrom returns the destination has
mapped = false; and moveFrom does return on every destination it accepts (one
without buffer, or a non-view one owning a live block other than the
source's). -/
theorem moveFrom_ownership_flag {V : Type} (sz this src : Nat) (s : State V)
    (hne : this ≠ src) :
    ((s.mats src).mapped = false →
      (∀ s', MatrixType.moveFrom sz this src s = .ok s' → (s'.mats this).mapped = true) ∧
      (MatrixType.MoveDest s this src →
        ∃ s', MatrixType.moveFrom sz this src s = .ok s' ∧ (s'.mats this).mapped = true)) ∧
    ((s.vecs src).mapped = false →
      (∀ s', VectorType.moveFrom sz this src s = .ok s' → (s'.vecs this).mapped = false) ∧
      (VectorType.MoveDest s this src →
        ∃ s', VectorType.moveFrom sz this src s = .ok s' ∧ (s'.vecs this).mapped = false)) := by
  constructor
  · intro hsrc
    refine ⟨fun s' h => MatrixType.moveFrom_flag hne hsrc h, fun hdst => ?_⟩
    obtain ⟨s', h, -⟩ := MatrixType.moveFrom_spec sz this src s hne hsrc hdst
    exact ⟨s', h, MatrixType.moveFrom_flag hne hsrc h⟩
  · intro hsrc
    refine ⟨fun s' h => VectorType.moveFrom_flag_vec hne hsrc h, fun hdst => ?_⟩
    obtain ⟨s', h, -⟩ := VectorType.moveFrom_spec_vec sz this src s hne hsrc hdst
    exact ⟨s', h, VectorType.moveFrom_flag_vec hne hsrc h⟩

/-- C5 witness: in the example state, after moving matrix 1 into matrix 0 and
vector 1 into vector 0. -/
theorem moveFrom_ownership_flag_witness :
    (∃ s', MatrixType.moveFrom 4 0 1 demo = .ok s' ∧ (s'.mats 0).mapped = true) ∧
    (∃ s', VectorType.moveFrom 4 0 1 demo = .ok s' ∧ (s'.vecs 0).mapped = false) := by
  have h := moveFrom_ownership_flag (V := Int) 4 0 1 demo (by decide)
  exact ⟨(h.1 rfl).2 (by simp [MatrixType.MoveDest, demo]),
    (h.2 rfl).2 (by simp [VectorType.MoveDest, demo])⟩

/-! ## Fixtures: loops of testMat and testVec -/

theorem forRange_zero {σ : Type} (body : Nat → σ → Outcome σ) (s : σ) :
    forRange 0 body s = .ok s := rfl

theorem forRange_succ {σ : Type} (n : Nat) (body : Nat → σ → Outcome σ) (s : σ) :
    forRange (n + 1) body s = (forRange n body s).andThen (body n) := by
  unfold forRange
  rw [List.range_succ, List.foldl_append]
  rfl

/-- Invariant rule for the counting loop. -/
theorem forRange_inv {σ : Type} (Inv : Nat → σ → Prop) (n : Nat) (body : Nat → σ → Outcome σ)
    (s0 : σ) (h0 : Inv 0 s0)
    (hstep : ∀ k s, k < n → Inv k s → ∃ s', body k s = .ok s' ∧ Inv (k + 1) s') :
    ∃ s', forRange n body s0 = .ok s' ∧ Inv n s' := by
  have main : ∀ m, m ≤ n → ∃ s', forRange m body s0 = .ok s' ∧ Inv m s' := by
    intro m
    induction m with
    | zero => intro _; exact ⟨s0, rfl, h0⟩
    | succ m ih =>
      intro hm
      obtain ⟨s1, h1, hinv⟩ := ih (by omega)
      obtain ⟨s2, h2, hinv2⟩ := hstep m s1 (by omega) hinv
      exact ⟨s2, by rw [forRange_succ, h1, Outcome.andThen_ok, h2], hinv2⟩
  exact main n (le_refl n)

/-- A loop whose first iteration is undefined is undefined. -/
theorem forRange_undefined {σ : Type} (n : Nat) (body : Nat → σ → Outcome σ) (s : σ)
    (h : body 0 s = .undefined) : forRange (n + 1) body s = .undefined := by
  induction n with
  | zero => rw [forRange_succ, forRange_zero, Outcome.andThen_ok, h]
  | succ n ih => rw [forRange_succ, ih]; rfl

theorem State.store_spec {V : Type} (s : State V) (d : Nat) (cells : List (Option V))
    (off : Int) (v : V) (hd : s.heap d = some cells) (h0 : 0 ≤ off) (h1 : off < cells.length) :
    ∃ s', s.store (some d) off v = .ok s' ∧ s'.mats = s.mats ∧ s'.vecs = s.vecs ∧
      s'.brk = s.brk ∧ (∀ b, b ≠ d → s'.heap b = s.heap b) ∧
      s'.heap d = some (cells.set off.toNat (some v)) := by
  unfold State.store
  simp only [hd]
  rw [if_pos ⟨h0, h1⟩]
  refine ⟨_, rfl, rfl, rfl, rfl, ?_, ?_⟩
  · intro b hb; simp [Function.update_noteq hb]
  · simp

theorem wrapInt_natCast (k : Nat) (h : k ≤ 2147483647) : wrapInt (k : Int) = (k : Int) := by
  unfold wrapInt; omega

/-- The counting loop of testVec on a vector that holds a block of n cells. -/
theorem testVec_fill {V : Type} (f : Nat → V) (hvec d n : Nat) (s : State V)
    (hn : n ≤ 2147483647)
    (hv : s.vecs hvec = { size := (n : Int), data := some d, mapped := false })
    (cells0 : List (Option V)) (hd : s.heap d = some cells0) (hlen : cells0.length = n) :
    ∃ s', forRange n (fun idx => VectorType.put hvec (wrapInt idx) (f idx)) s = .ok s' ∧
      s'.vecs hvec = { size := (n : Int), data := some d, mapped := false } ∧
      ∃ cells, s'.heap d = some cells ∧ cells.length = n ∧
        ∀ idx, idx < n → cells[idx]? = some (some (f idx)) := by
  obtain ⟨s', h, hv', cells, hd', hlen', hc⟩ := forRange_inv
    (fun k st => st.vecs hvec = { size := (n : Int), data := some d, mapped := false } ∧
      ∃ cells, st.heap d = some cells ∧ cells.length = n ∧
        ∀ idx, idx < k → cells[idx]? = some (some (f idx)))
    n (fun idx => VectorType.put hvec (wrapInt idx) (f idx)) s
    ⟨hv, cells0, hd, hlen, fun idx h => by omega⟩
    (by
      intro k st hk ⟨hv1, cells, hd1, hlen1, hc1⟩
      obtain ⟨s', h, -, hvecs, -, -, hd'⟩ := State.store_spec st d cells (k : Int) (f k) hd1
        (by omega) (by omega)
      refine ⟨s', ?_, by rw [hvecs, hv1], cells.set k (some (f k)), by simpa using hd',
        by rw [List.length_set, hlen1], ?_⟩
      · show st.store (st.vecs hvec).data (wrapInt (k : Int)) (f k) = .ok s'
        rw [hv1, wrapInt_natCast k (by omega)]
        exact h
      · intro idx hidx
        by_cases e : idx = k
        · subst e
          exact List.getElem?_set_self (by omega)
        · rw [List.getElem?_set_ne (Ne.symm e)]
          exact hc1 idx (by omega))
  exact ⟨s', h, hv', cells, hd', hlen', hc⟩

theorem testVec_spec {V : Type} (cast : Nat → V) (sz hvec n : Nat) (s : State V)
    (hsz : 0 < sz) (hsz' : sz ≤ 4294967296) (hn : 3 * n < 4294967296) :
    ∃ s', testVec cast sz hvec n s = .ok s' ∧ (s'.vecs hvec).size = (n : Int) ∧
      ∀ idx : Nat, idx < n →
        VectorType.get s' hvec (idx : Int) = some (some (cast (idx * 3 % 17))) := by
  have hn' : n ≤ 2147483647 := by omega
  obtain ⟨s1, h1, hv1, -, -, -, -, hd1⟩ := VectorType.allocate_spec_vec sz hvec (n : Int)
    (VectorType.resetState hvec s) hsz hsz' (by simp [VectorType.resetState])
    (by omega) (by unfold INT_MAX; omega)
  rw [Int.toNat_natCast] at hd1
  obtain ⟨s', h, hv', cells, hd', hlen', hc⟩ := testVec_fill
    (fun idx => cast ((idx * 3) % 4294967296 % 17)) hvec _ n s1 hn' hv1 _ hd1
    (List.length_replicate _ _)
  refine ⟨s', ?_, by rw [hv'], ?_⟩
  · unfold testVec VectorType.ctorSize
    rw [wrapInt_natCast n hn', h1, Outcome.andThen_ok]
    exact h
  · intro idx hidx
    unfold VectorType.get State.load
    rw [hv']
    simp only [hd', Int.natCast_nonneg, if_true, Int.toNat_natCast]
    rw [hc idx hidx, Nat.mod_eq_of_lt (a := idx * 3) (by omega)]

/-- Row-major offsets of distinct cells of an R x C matrix are distinct and
inside the buffer. -/
theorem offset_lt (R C i j : Nat) (hi : i < R) (hj : j < C) : i * C + j < R * C := by
  have h : (i + 1) * C ≤ R * C := Nat.mul_le_mul_right C hi
  have e : (i + 1) * C = i * C + C := by ring
  omega

theorem offset_lt_row (C i i' j' : Nat) (hi : i' < i) (hj : j' < C) : i' * C + j' < i * C := by
  have h : (i' + 1) * C ≤ i * C := Nat.mul_le_mul_right C hi
  have e : (i' + 1) * C = i' * C + C := by ring
  omega

/-- The inner loop of testMat: row i of a matrix that holds a block of R * C cells. -/
theorem testMat_row {V : Type} (f : Nat → Nat → V) (hmat d R C i : Nat) (s : State V)
    (hRC : R * C ≤ 2147483647) (hi : i < R)
    (hm : s.mats hmat = { rows := (R : Int), cols := (C : Int), data := some d, mapped := false })
    (cells0 : List (Option V)) (hd : s.heap d = some cells0) (hlen : cells0.length = R * C)
    (hprev : ∀ i' j', i' < i → j' < C → cells0[i' * C + j']? = some (some (f i' j'))) :
    ∃ s', forRange C (fun iCol =>
        MatrixType.put hmat (wrapInt i) (wrapInt iCol) (f i iCol)) s = .ok s' ∧
      s'.mats hmat = { rows := (R : Int), cols := (C : Int), data := some d, mapped := false } ∧
      ∃ cells, s'.heap d = some cells ∧ cells.length = R * C ∧
        ∀ i' j', i' < i + 1 → j' < C → cells[i' * C + j']? = some (some (f i' j')) := by
  obtain ⟨s', h, hm', cells, hd', hlen', hp, hc⟩ := forRange_inv
    (fun k st =>
      st.mats hmat = { rows := (R : Int), cols := (C : Int), data := some d, mapped := false } ∧
      ∃ cells, st.heap d = some cells ∧ cells.length = R * C ∧
        (∀ i' j', i' < i → j' < C → cells[i' * C + j']? = some (some (f i' j'))) ∧
        ∀ j', j' < k → cells[i * C + j']? = some (some (f i j')))
    C (fun iCol => MatrixType.put hmat (wrapInt i) (wrapInt iCol) (f i iCol)) s
    ⟨hm, cells0, hd, hlen, hprev, fun j' h => by omega⟩
    (by
      intro k st hk ⟨hm1, cells, hd1, hlen1, hp1, hc1⟩
      have hoff : i * C + k < R * C := offset_lt R C i k hi hk
      have hRle : R ≤ R * C := Nat.le_mul_of_pos_right R (by omega)
      have hCle : C ≤ R * C := Nat.le_mul_of_pos_left C (by omega)
      have hidx : (st.mats hmat).index (wrapInt (i : Int)) (wrapInt (k : Int))
          = ((i * C + k : Nat) : Int) := by
        rw [wrapInt_natCast i (by omega), wrapInt_natCast k (by omega)]
        rw [MatrixType.index_eq (st.mats hmat) i k (by omega)
          (by rw [hm1]; show (i : Int) < (R : Int); exact_mod_cast hi)
          (by omega) (by rw [hm1]; show (k : Int) < (C : Int); exact_mod_cast hk)
          (by rw [hm1]; show (R : Int) * (C : Int) ≤ 2147483647; exact_mod_cast hRC), hm1]
        push_cast
        ring
      obtain ⟨s', h, hmats, -, -, -, hd'⟩ := State.store_spec st d cells
        ((i * C + k : Nat) : Int) (f i k) hd1 (by omega) (by omega)
      rw [Int.toNat_natCast] at hd'
      refine ⟨s', ?_, by rw [hmats, hm1], cells.set (i * C + k) (some (f i k)), hd',
        by rw [List.length_set, hlen1], ?_, ?_⟩
      · show st.store (st.mats hmat).data
          ((st.mats hmat).index (wrapInt (i : Int)) (wrapInt (k : Int))) (f i k) = .ok s'
        rw [hidx, hm1]
        exact h
      · intro i' j' hi' hj'
        have := offset_lt_row C i i' j' hi' hj'
        rw [List.getElem?_set_ne (by omega)]
        exact hp1 i' j' hi' hj'
      · intro j' hj'
        by_cases e : j' = k
        · subst e
          exact List.getElem?_set_self (by omega)
        · rw [List.getElem?_set_ne (by omega)]
          exact hc1 j' (by omega))
  refine ⟨s', h, hm', cells, hd', hlen', ?_⟩
  intro i' j' hi' hj'
  by_cases e : i' = i
  · subst e; exact hc j' hj'
  · exact hp i' j' (by omega) hj'

/-- The two loops of testMat on a matrix that holds a block of R * C cells. -/
theorem testMat_fill {V : Type} (f : Nat → Nat → V) (hmat d R C : Nat) (s : State V)
    (hRC : R * C ≤ 2147483647)
    (hm : s.mats hmat = { rows := (R : Int), cols := (C : Int), data := some d, mapped := false })
    (cells0 : List (Option V)) (hd : s.heap d = some cells0) (hlen : cells0.length = R * C) :
    ∃ s', forRange R (fun iRow => forRange C fun iCol =>
        MatrixType.put hmat (wrapInt iRow) (wrapInt iCol) (f iRow iCol)) s = .ok s' ∧
      s'.mats hmat = { rows := (R : Int), cols := (C : Int), data := some d, mapped := false } ∧
      ∃ cells, s'.heap d = some cells ∧ cells.length = R * C ∧
        ∀ i j, i < R → j < C → cells[i * C + j]? = some (some (f i j)) := by
  exact forRange_inv
    (fun k st =>
      st.mats hmat = { rows := (R : Int), cols := (C : Int), data := some d, mapped := false } ∧
      ∃ cells, st.heap d = some cells ∧ cells.length = R * C ∧
        ∀ i j, i < k → j < C → cells[i * C + j]? = some (some (f i j)))
    R _ s ⟨hm, cells0, hd, hlen, fun i j h _ => by omega⟩
    (by
      intro k st hk ⟨hm1, cells, hd1, hlen1, hp1⟩
      exact testMat_row f hmat d R C k st hRC hk hm1 cells hd1 hlen1 hp1)

theorem testMat_spec {V : Type} (cast : Nat → V) (sz hmat : Nat) (dim : Dim) (s : State V)
    (hsz : 0 < sz) (hsz' : sz ≤ 4294967296) (hr : 0 ≤ dim.rows) (hc : 0 ≤ dim.cols)
    (hv : dim.rows * 10 + dim.cols < 4294967296) (hrc : dim.rows * dim.cols ≤ INT_MAX) :
    ∃ s', testMat cast sz hmat dim s = .ok s' ∧
      (s'.mats hmat).rows = dim.rows ∧ (s'.mats hmat).cols = dim.cols ∧
      ∀ i j : Nat, (i : Int) < dim.rows → (j : Int) < dim.cols →
        MatrixType.get s' hmat (i : Int) (j : Int) = some (some (cast (i * 10 + j))) := by
  obtain ⟨rows, cols⟩ := dim
  simp only at hr hc hv hrc ⊢
  obtain ⟨R, rfl⟩ := Int.eq_ofNat_of_zero_le hr
  obtain ⟨C, rfl⟩ := Int.eq_ofNat_of_zero_le hc
  have hRC : R * C ≤ 2147483647 := by unfold INT_MAX at hrc; exact_mod_cast hrc
  have hv' : R * 10 + C < 4294967296 := by exact_mod_cast hv
  obtain ⟨s1, h1, hm1, -, -, -, -, hd1⟩ := MatrixType.allocate_spec sz hmat (R : Int) (C : Int)
    (MatrixType.resetState hmat s) hsz hsz' (by simp [MatrixType.resetState]) hr hc hrc
  have e : ((R : Int) * (C : Int)).toNat = R * C := by
    rw [← Int.natCast_mul]; exact Int.toNat_natCast _
  rw [e] at hd1
  obtain ⟨s', h, hm', cells, hd', hlen', hcells⟩ := testMat_fill
    (fun i j => cast ((i * 10 + j) % 4294967296)) hmat _ R C s1 hRC hm1 _ hd1
    (List.length_replicate _ _)
  refine ⟨s', ?_, by rw [hm'], by rw [hm'], ?_⟩
  · unfold testMat MatrixType.ctorDim
    have eR : toSizeType (R : Int) = R := by unfold toSizeType; omega
    have eC : toSizeType (C : Int) = C := by unfold toSizeType; omega
    simp only [eR, eC, h1, Outcome.andThen_ok]
    exact h
  · intro i j hi hj
    have hi' : i < R := by exact_mod_cast hi
    have hj' : j < C := by exact_mod_cast hj
    have hidx : (s'.mats hmat).index (i : Int) (j : Int) = ((i * C + j : Nat) : Int) := by
      rw [MatrixType.index_eq (s'.mats hmat) i j (by omega) (by rw [hm']; exact hi)
        (by omega) (by rw [hm']; exact hj) (by rw [hm']; exact hrc), hm']
      push_cast
      ring
    unfold MatrixType.get State.load
    rw [hidx, hm']
    simp only [hd', Int.natCast_nonneg, if_true, Int.toNat_natCast]
    rw [hcells i j hi' hj', Nat.mod_eq_of_lt (a := i * 10 + j) (by omega)]

/-! ## Claims C6, C7 and C8 -/

/-- C6 (amended).  Shape and offset.  For a matrix of shape (r, c) with
r * c ≤ INT_MAX and every (i, j) with 0 ≤ i < r and 0 ≤ j < c, operator()
computes the offset i * c + j, which lies in the range from 0 to r * c - 1, so
reading and writing M(i, j) is reading and writing data[i * c + j]; and the
buffer allocate(r, c) takes for such a shape (r, c ≥ 0) has exactly r * c
cells, all of which M(i, j) reaches.  For a vector, V(idx) is data[idx], and
the buffer allocate(n) takes for 0 ≤ n ≤ INT_MAX has exactly n cells. -/
theorem element_offset {V : Type} (sz this : Nat) (s : State V) :
    (∀ i j : Int, 0 ≤ i → i < (s.mats this).rows → 0 ≤ j → j < (s.mats this).cols →
      (s.mats this).rows * (s.mats this).cols ≤ INT_MAX →
      (s.mats this).index i j = i * (s.mats this).cols + j ∧
      0 ≤ i * (s.mats this).cols + j ∧
      i * (s.mats this).cols + j < (s.mats this).rows * (s.mats this).cols ∧
      MatrixType.get s this i j = s.load (s.mats this).data (i * (s.mats this).cols + j) ∧
      ∀ v, MatrixType.put this i j v s
        = s.store (s.mats this).data (i * (s.mats this).cols + j) v) ∧
    (∀ r c : Int, 0 < sz → sz ≤ 4294967296 → (s.mats this).mapped = false →
      0 ≤ r → 0 ≤ c → r * c ≤ INT_MAX →
      ∃ s' d, MatrixType.allocate sz this r c s = .ok s' ∧
        (s'.mats this).rows = r ∧ (s'.mats this).cols = c ∧ (s'.mats this).data = some d ∧
        s'.heap d = some (List.replicate (r * c).toNat none) ∧
        ∀ i j : Int, 0 ≤ i → i < r → 0 ≤ j → j < c → MatrixType.get s' this i j = some none) ∧
    (∀ idx : Int, VectorType.get s this idx = s.load (s.vecs this).data idx ∧
      ∀ v, VectorType.put this idx v s = s.store (s.vecs this).data idx v) ∧
    (∀ n : Int, 0 < sz → sz ≤ 4294967296 → (s.vecs this).mapped = false →
      0 ≤ n → n ≤ INT_MAX →
      ∃ s' d, VectorType.allocate sz this n s = .ok s' ∧
        (s'.vecs this).size = n ∧ (s'.vecs this).data = some d ∧
        s'.heap d = some (List.replicate n.toNat none) ∧
        ∀ idx : Int, 0 ≤ idx → idx < n → VectorType.get s' this idx = some none) := by
  refine ⟨?_, ?_, ?_, ?_⟩
  · intro i j hi hi' hj hj' hrc
    have e := MatrixType.index_eq (s.mats this) i j hi hi' hj hj' hrc
    obtain ⟨-, h2, h3⟩ := index_in_range _ _ i j hi hi' hj hj'
    refine ⟨e, h2, h3, ?_, ?_⟩
    · unfold MatrixType.get; rw [e]
    · intro v; unfold MatrixType.put; rw [e]
  · intro r c hsz hsz' hm hr hc hrc
    obtain ⟨s', h, hthis, -, -, -, -, hnew⟩ :=
      MatrixType.allocate_spec sz this r c s hsz hsz' hm hr hc hrc
    refine ⟨s', s.brk, h, by rw [hthis], by rw [hthis], by rw [hthis], hnew, ?_⟩
    intro i j hi hi' hj hj'
    have e := MatrixType.index_eq (s'.mats this) i j hi (by rw [hthis]; exact hi') hj
      (by rw [hthis]; exact hj') (by rw [hthis]; exact hrc)
    obtain ⟨-, h2, h3⟩ := index_in_range r c i j hi hi' hj hj'
    unfold MatrixType.get State.load
    rw [e, hthis]
    simp only [hnew, if_pos h2]
    rw [List.getElem?_replicate, if_pos (by omega)]
  · intro idx
    exact ⟨rfl, fun v => rfl⟩
  · intro n hsz hsz' hm h0 h1
    obtain ⟨s', h, hthis, -, -, -, -, hnew⟩ :=
      VectorType.allocate_spec_vec sz this n s hsz hsz' hm h0 h1
    refine ⟨s', s.brk, h, by rw [hthis], by rw [hthis], hnew, ?_⟩
    intro idx hi hi'
    unfold VectorType.get State.load
    rw [hthis]
    simp only [hnew, if_pos hi]
    rw [List.getElem?_replicate, if_pos (by omega)]

/-- C6 witness: in the example state, cell (1, 2) of the 2 x 3 matrix 1 is
data[5], and cell 2 of vector 1 is data[2]. -/
theorem element_offset_witness :
    ((demo.mats 1).index 1 2 = 5 ∧
      MatrixType.get demo 1 1 2 = demo.load (some 0) 5 ∧
      MatrixType.get demo 1 1 2 = some (some 12)) ∧
    (VectorType.get demo 1 2 = demo.load (some 2) 2 ∧
      VectorType.get demo 1 2 = some (some 6)) := by
  have h := element_offset (V := Int) 4 1 demo
  obtain ⟨a1, -, -, a4, -⟩ := h.1 1 2 (by decide) (by decide) (by decide) (by decide)
    (by decide)
  exact ⟨⟨a1, a4, rfl⟩, ⟨(h.2.2.1 2).1, rfl⟩⟩

/-- C6 counterexample: a shape whose element count does not fit an int.  For
the 65536 x 65536 view of a block of 2^32 cells, operator() at (65535, 65535)
computes the offset -1, not 65535 * 65536 + 65535, and the access is outside
the block; and the buffer the constructor takes for the shape (65536, 65536)
has no cell at all, rows * cols being 0 as an int. -/
theorem element_offset_counterexample :
    ((demoHuge.mats 1).rows = 65536 ∧ (demoHuge.mats 1).cols = 65536 ∧
      (demoHuge.mats 1).index 65535 65535 = -1 ∧
      MatrixType.get demoHuge 1 65535 65535 = none) ∧
    (∃ s', MatrixType.ctorShape 1 0 65536 65536 demoHuge = .ok s' ∧
      (s'.mats 0).rows = 65536 ∧ (s'.mats 0).cols = 65536 ∧ (s'.mats 0).data = some 1 ∧
      s'.heap 1 = some [] ∧ MatrixType.get s' 0 0 0 = none) :=
  ⟨⟨rfl, rfl, rfl, rfl⟩, ⟨_, rfl, rfl, rfl, rfl, rfl, rfl⟩⟩

/-- C7 (the code on a resize to the current shape).  For a non-view matrix
of shape (r, c), with r, c ≥ 0 and r * c ≤ INT_MAX, resize(r, c) returns with
data pointing to a new block of r * c uninitialised cells, every other block of
the heap being as before: the old buffer is neither kept as the buffer nor
released.  Likewise for a non-view vector and resize(size). -/
theorem resize_same_shape_reallocates {V : Type} (sz this : Nat) (s : State V)
    (hsz : 0 < sz) (hsz' : sz ≤ 4294967296) :
    ((s.mats this).mapped = false → 0 ≤ (s.mats this).rows → 0 ≤ (s.mats this).cols →
      (s.mats this).rows * (s.mats this).cols ≤ INT_MAX →
      ∃ s', MatrixType.resize sz this (s.mats this).rows (s.mats this).cols s = .ok s' ∧
        s'.mats this = { rows := (s.mats this).rows, cols := (s.mats this).cols,
                         data := some s.brk, mapped := false } ∧
        s'.heap s.brk = some (List.replicate
          ((s.mats this).rows * (s.mats this).cols).toNat none) ∧
        ∀ b, b ≠ s.brk → s'.heap b = s.heap b) ∧
    ((s.vecs this).mapped = false → 0 ≤ (s.vecs this).size → (s.vecs this).size ≤ INT_MAX →
      ∃ s', VectorType.resize sz this (s.vecs this).size s = .ok s' ∧
        s'.vecs this = { size := (s.vecs this).size, data := some s.brk, mapped := false } ∧
        s'.heap s.brk = some (List.replicate (s.vecs this).size.toNat none) ∧
        ∀ b, b ≠ s.brk → s'.heap b = s.heap b) := by
  constructor
  · intro hm hr hc hrc
    obtain ⟨s', h, hthis, -, -, -, hheap, hnew⟩ := MatrixType.allocate_spec sz this
      (s.mats this).rows (s.mats this).cols s hsz hsz' hm hr hc hrc
    refine ⟨s', ?_, hthis, hnew, hheap⟩
    unfold MatrixType.resize
    rw [hm]
    simp only [Bool.false_eq_true, if_false, ne_eq, not_true_eq_false, or_self,
      Outcome.andThen_ok]
    exact h
  · intro hm h0 h1
    obtain ⟨s', h, hthis, -, -, -, hheap, hnew⟩ := VectorType.allocate_spec_vec sz this
      (s.vecs this).size s hsz hsz' hm h0 h1
    refine ⟨s', ?_, hthis, hnew, hheap⟩
    unfold VectorType.resize
    rw [hm]
    simp only [Bool.false_eq_true, if_false, ne_eq, not_true_eq_false, Outcome.andThen_ok]
    exact h

/-- C7 at the failing input: in the example state, resize(2, 3) on the 2 x 3
matrix 1 (buffer block 0) and resize(3) on vector 1 of size 3 (buffer block
2).  The container ends with the new block 4, whose cells are uninitialised,
and the old block stays live with its contents, owned by nobody. -/
theorem resize_same_shape_reallocates_witness :
    ((demo.mats 1).data = some 0 ∧ MatrixType.get demo 1 0 1 = some (some 1) ∧
      ∃ s', MatrixType.resize 4 1 2 3 demo = .ok s' ∧ (s'.mats 1).data = some 4 ∧
        MatrixType.get s' 1 0 1 = some none ∧ s'.heap 0 = demo.heap 0) ∧
    ((demo.vecs 1).data = some 2 ∧ VectorType.get demo 1 1 = some (some 3) ∧
      ∃ s', VectorType.resize 4 1 3 demo = .ok s' ∧ (s'.vecs 1).data = some 4 ∧
        VectorType.get s' 1 1 = some none ∧ s'.heap 2 = demo.heap 2) := by
  have h := resize_same_shape_reallocates (V := Int) 4 1 demo (by decide) (by decide)
  obtain ⟨s1, a1, a2, a3, a4⟩ := h.1 rfl (by decide) (by decide) (by decide)
  obtain ⟨s2, b1, b2, b3, b4⟩ := h.2 rfl (by decide) (by decide)
  refine ⟨⟨rfl, rfl, s1, a1, by rw [a2]; rfl, ?_, a4 0 (by decide)⟩,
    ⟨rfl, rfl, s2, b1, by rw [b2]; rfl, ?_, b4 2 (by decide)⟩⟩
  · unfold MatrixType.get State.load
    rw [a2]
    simp only [a3]
    rfl
  · unfold VectorType.get State.load
    rw [b2]
    simp only [b3]
    rfl

/-- C8 (the code at the failing input): copy construction from an empty
container.  For matrices, copyFrom calls allocate(-1, -1), which leaves the
new object with rows = cols = -1 and a buffer of one cell (block 4), and the
memcpy then reads through the null source pointer: the constructor does not
return.  For vectors, allocate(-1) requests 2^64 - sizeof(V) bytes, gets the
null pointer, and the memcpy of 2^64 - sizeof(V) bytes runs on null pointers. -/
theorem copy_of_empty_breaks_invariant :
    (demo.mats 3 = { rows := -1, cols := -1, data := none, mapped := false } ∧
      (∃ s1, MatrixType.allocate 4 0 (-1) (-1) (MatrixType.resetState 0 demo) = .ok s1 ∧
        s1.mats 0 = { rows := -1, cols := -1, data := some 4, mapped := false } ∧
        s1.heap 4 = some [none]) ∧
      MatrixType.ctorCopy 4 0 3 demo = .undefined) ∧
    (demo.vecs 3 = { size := -1, data := none, mapped := false } ∧
      (∃ s1, VectorType.allocate 4 0 (-1) (VectorType.resetState 0 demo) = .ok s1 ∧
        s1.vecs 0 = { size := -1, data := none, mapped := false }) ∧
      mulSizeT 4 (toSizeT (-1)) = 18446744073709551612 ∧
      VectorType.ctorCopy 4 0 3 demo = .undefined) :=
  ⟨⟨rfl, ⟨_, rfl, rfl, rfl⟩, rfl⟩, ⟨rfl, ⟨_, rfl, rfl⟩, rfl, rfl⟩⟩

/-! ## Claims C9 and C10 -/

/-- testMat is undefined as soon as its first assignment is. -/
theorem testMat_first_write {V : Type} (cast : Nat → V) (sz hmat : Nat) (dim : Dim)
    (s s1 : State V) (R C : Nat) (h1 : MatrixType.ctorDim sz hmat dim s = .ok s1)
    (hR : toSizeType dim.rows = R + 1) (hC : toSizeType dim.cols = C + 1)
    (hput : MatrixType.put hmat (wrapInt (0 : Nat)) (wrapInt (0 : Nat))
      (cast ((0 * 10 + 0) % 4294967296)) s1 = .undefined) :
    testMat cast sz hmat dim s = .undefined := by
  unfold testMat
  rw [h1, hR, hC, Outcome.andThen_ok]
  exact forRange_undefined _ _ _ (forRange_undefined _ _ _ hput)

/-- C9 (amended).  testMat formula: for every Dim with rows ≥ 0, cols ≥ 0,
rows * 10 + cols below 2^32 and rows * cols ≤ INT_MAX, testMat(dim) returns a
matrix of shape (rows, cols) whose cell (i, j) is i * 10 + j (converted to the
cell type) for all 0 ≤ i < rows and 0 ≤ j < cols. -/
theorem testMat_formula {V : Type} (cast : Nat → V) (sz hmat : Nat) (dim : Dim) (s : State V)
    (hsz : 0 < sz) (hsz' : sz ≤ 4294967296) (hr : 0 ≤ dim.rows) (hc : 0 ≤ dim.cols)
    (hv : dim.rows * 10 + dim.cols < 4294967296) (hrc : dim.rows * dim.cols ≤ INT_MAX) :
    ∃ s', testMat cast sz hmat dim s = .ok s' ∧
      (s'.mats hmat).rows = dim.rows ∧ (s'.mats hmat).cols = dim.cols ∧
      ∀ i j : Nat, (i : Int) < dim.rows → (j : Int) < dim.cols →
        MatrixType.get s' hmat (i : Int) (j : Int) = some (some (cast (i * 10 + j))) :=
  testMat_spec cast sz hmat dim s hsz hsz' hr hc hv hrc

/-- C9 witness: testMat of Dim(3, 4) on int cells is 0,1,2,3 / 10,11,12,13 /
20,21,22,23 in row-major order. -/
theorem testMat_formula_witness :
    (∃ s', testMat (fun n => (n : Int)) 4 0 ⟨3, 4⟩ demo = .ok s' ∧
      (s'.mats 0).rows = 3 ∧ (s'.mats 0).cols = 4 ∧
      MatrixType.get s' 0 2 3 = some (some 23)) ∧
    (∃ s', testMat (fun n => (n : Int)) 4 0 ⟨3, 4⟩ demo = .ok s' ∧
      (s'.mats 0).data = some 4 ∧
      s'.heap 4 = some [some 0, some 1, some 2, some 3, some 10, some 11, some 12, some 13,
        some 20, some 21, some 22, some 23]) := by
  obtain ⟨s', h, h1, h2, h3⟩ := testMat_formula (fun n => (n : Int)) 4 0 ⟨3, 4⟩ demo
    (by decide) (by decide) (by decide) (by decide) (by decide) (by decide)
  exact ⟨⟨s', h, h1, h2, h3 2 3 (by decide) (by decide)⟩, ⟨_, rfl, rfl, rfl⟩⟩

/-- C9 counterexample: Dim(65536, 65536) on one-byte cells.  rows * 10 + cols
is 720896, below 2^32, but rows * cols is 0 as an int: the constructor takes
a buffer of 0 bytes and the first assignment, to cell (0, 0), is outside it. -/
theorem testMat_formula_counterexample :
    (65536 : Int) * 10 + 65536 < 4294967296 ∧
    (∃ s1, MatrixType.ctorDim 1 0 ⟨65536, 65536⟩ demo = .ok s1 ∧
      (s1.mats 0).data = some 4 ∧ s1.heap 4 = some [] ∧
      MatrixType.put 0 (wrapInt (0 : Nat)) (wrapInt (0 : Nat)) (0 : Int) s1 = .undefined) ∧
    testMat (fun n => (n : Int)) 1 0 ⟨65536, 65536⟩ demo = .undefined :=
  ⟨by decide, ⟨_, rfl, rfl, rfl, rfl⟩,
    testMat_first_write (fun n => (n : Int)) 1 0 ⟨65536, 65536⟩ demo _ 65535 65535 rfl
      (by decide) (by decide) rfl⟩

/-- C10.  testVec formula: for every size n with 3 * n below 2^32, testVec(n)
returns a vector of size n whose cell idx is (idx * 3) mod 17 (converted to
the cell type) for all 0 ≤ idx < n, a value between 0 and 16. -/
theorem testVec_formula {V : Type} (cast : Nat → V) (sz hvec n : Nat) (s : State V)
    (hsz : 0 < sz) (hsz' : sz ≤ 4294967296) (hn : 3 * n < 4294967296) :
    ∃ s', testVec cast sz hvec n s = .ok s' ∧ (s'.vecs hvec).size = (n : Int) ∧
      ∀ idx : Nat, idx < n →
        VectorType.get s' hvec (idx : Int) = some (some (cast (idx * 3 % 17))) ∧
        idx * 3 % 17 ≤ 16 := by
  obtain ⟨s', h, h1, h2⟩ := testVec_spec cast sz hvec n s hsz hsz' hn
  exact ⟨s', h, h1, fun idx hidx => ⟨h2 idx hidx, by omega⟩⟩

/-- C10 witness: testVec(5) on int cells is 0, 3, 6, 9, 12. -/
theorem testVec_formula_witness :
    (∃ s', testVec (fun n => (n : Int)) 4 0 5 demo = .ok s' ∧ (s'.vecs 0).size = 5 ∧
      VectorType.get s' 0 4 = some (some 12)) ∧
    (∃ s', testVec (fun n => (n : Int)) 4 0 5 demo = .ok s' ∧ (s'.vecs 0).data = some 4 ∧
      s'.heap 4 = some [some 0, some 3, some 6, some 9, some 12]) := by
  obtain ⟨s', h, h1, h2⟩ := testVec_formula (fun n => (n : Int)) 4 0 5 demo
    (by decide) (by decide) (by decide)
  exact ⟨⟨s', h, h1, (h2 4 (by decide)).1⟩, ⟨_, rfl, rfl, rfl⟩⟩

/-! ## moveFrom and the assert of free -/

theorem State.cfree_not_aborted {V : Type} (s : State V) (p : Option Nat) :
    s.cfree p ≠ .aborted := by
  unfold State.cfree
  intro h
  split at h
  · cases h
  · split at h <;> cases h

/-- With a non-view source, MatrixType moveFrom fails an assert exactly when
the destination is flagged as mapped and holds a buffer. -/
theorem MatrixType.moveFrom_aborted_iff {V : Type} (sz this src : Nat) (s : State V)
    (hne : this ≠ src) (hsrc : (s.mats src).mapped = false) :
    MatrixType.moveFrom sz this src s = .aborted ↔
      (s.mats this).mapped = true ∧ (s.mats this).data ≠ none := by
  unfold MatrixType.moveFrom
  rw [if_neg hne, hsrc]
  simp only [Bool.false_eq_true, if_false]
  cases hd : (s.mats this).data with
  | none =>
    simp only [ne_eq, not_true_eq_false, if_false, Outcome.andThen_ok, and_false, iff_false]
    intro h; cases h
  | some d =>
    simp only [ne_eq, reduceCtorEq, not_false_eq_true, if_true, and_true]
    cases hm : (s.mats this).mapped with
    | true =>
      simp only [MatrixType.free, hm, if_true, Outcome.andThen_aborted]
    | false =>
      simp only [MatrixType.free, hm, Bool.false_eq_true, if_false, iff_false]
      intro h
      cases hc : s.cfree (s.mats this).data with
      | ok s1 => rw [hc] at h; cases h
      | thrown m s1 => rw [hc] at h; cases h
      | aborted => exact State.cfree_not_aborted _ _ hc
      | undefined => rw [hc] at h; cases h

/-- With a non-view source, VectorType moveFrom fails an assert exactly when
the destination is flagged as mapped and holds a buffer. -/
theorem VectorType.moveFrom_aborted_iff_vec {V : Type} (sz this src : Nat) (s : State V)
    (hne : this ≠ src) (hsrc : (s.vecs src).mapped = false) :
    VectorType.moveFrom sz this src s = .aborted ↔
      (s.vecs this).mapped = true ∧ (s.vecs this).data ≠ none := by
  unfold VectorType.moveFrom
  rw [if_neg hne, hsrc]
  simp only [Bool.false_eq_true, if_false]
  cases hd : (s.vecs this).data with
  | none =>
    simp only [ne_eq, not_true_eq_false, if_false, Outcome.andThen_ok, and_false, iff_false]
    intro h; cases h
  | some d =>
    simp only [ne_eq, reduceCtorEq, not_false_eq_true, if_true, and_true]
    cases hm : (s.vecs this).mapped with
    | true =>
      simp only [VectorType.free, hm, if_true, Outcome.andThen_aborted]
    | false =>
      simp only [VectorType.free, hm, Bool.false_eq_true, if_false, iff_false]
      intro h
      cases hc : s.cfree (s.vecs this).data with
      | ok s1 => rw [hc] at h; cases h
      | thrown m s1 => rw [hc] at h; cases h
      | aborted => exact State.cfree_not_aborted _ _ hc
      | undefined => rw [hc] at h; cases h

/-- A move that returns changes no matrix object other than its two operands. -/
theorem MatrixType.moveFrom_frame {V : Type} {sz this src : Nat} {s s' : State V}
    (hne : this ≠ src) (hsrc : (s.mats src).mapped = false)
    (h : MatrixType.moveFrom sz this src s = .ok s') :
    ∀ u, u ≠ this → u ≠ src → s'.mats u = s.mats u := by
  unfold MatrixType.moveFrom at h
  rw [if_neg hne, hsrc] at h
  simp only [Bool.false_eq_true, if_false] at h
  obtain ⟨s1, h1, h2⟩ := Outcome.andThen_eq_ok h
  cases h2
  intro u hu hu'
  rw [State.setMat_mats_other _ _ _ _ hu', State.setMat_mats_other _ _ _ _ hu]
  split at h1
  · exact (MatrixType.free_frame h1).1 u hu
  · cases h1; rfl

/-! ## Claims C17 and C18 -/

/-- The fields of the destination after a MatrixType move that returns. -/
theorem MatrixType.moveFrom_fields {V : Type} {sz this src : Nat} {s s' : State V}
    (hne : this ≠ src) (hsrc : (s.mats src).mapped = false)
    (h : MatrixType.moveFrom sz this src s = .ok s') :
    s'.mats this = { rows := (s.mats src).rows, cols := (s.mats src).cols,
                     data := (s.mats src).data, mapped := true } := by
  unfold MatrixType.moveFrom at h
  rw [if_neg hne, hsrc] at h
  simp only [Bool.false_eq_true, if_false] at h
  obtain ⟨s1, h1, h2⟩ := Outcome.andThen_eq_ok h
  cases h2
  have e : s1.mats src = s.mats src := by
    split at h1
    · exact (MatrixType.free_frame h1).1 src (Ne.symm hne)
    · cases h1; rfl
  rw [State.setMat_mats_other _ _ _ _ hne, State.setMat_mats_same, e]

/-- C17 (the code).  moveFrom and the assert of free().  For a non-view source
distinct from the destination, moveFrom of MatrixType, and of VectorType, ends
in the failed assert(!mapped) of free() exactly when the destination is
flagged as mapped and holds a buffer; and a matrix that received a buffer
through a moveFrom that returned is flagged as mapped, so that every further
moveFrom into it, from any non-view source, ends in that failed assert. -/
theorem moveFrom_release_assert {V : Type} (sz this src : Nat) (s : State V)
    (hne : this ≠ src) :
    ((s.mats src).mapped = false →
      (MatrixType.moveFrom sz this src s = .aborted ↔
        (s.mats this).mapped = true ∧ (s.mats this).data ≠ none)) ∧
    ((s.vecs src).mapped = false →
      (VectorType.moveFrom sz this src s = .aborted ↔
        (s.vecs this).mapped = true ∧ (s.vecs this).data ≠ none)) ∧
    ((s.mats src).mapped = false → (s.mats src).data ≠ none →
      ∀ s1, MatrixType.moveFrom sz this src s = .ok s1 →
        ∀ src2, src2 ≠ this → (s1.mats src2).mapped = false →
          MatrixType.moveFrom sz this src2 s1 = .aborted) := by
  refine ⟨MatrixType.moveFrom_aborted_iff sz this src s hne,
    VectorType.moveFrom_aborted_iff_vec sz this src s hne, ?_⟩
  intro hsrc hdata s1 h1 src2 hne2 hsrc2
  have hf := MatrixType.moveFrom_fields hne hsrc h1
  exact (MatrixType.moveFrom_aborted_iff sz this src2 s1 (Ne.symm hne2) hsrc2).2
    ⟨by rw [hf], by rw [hf]; exact hdata⟩

/-- C17 at the failing inputs, in the example state.  Moving the owning matrix
1 into the 1 x 2 view (matrix 2), and the owning vector 1 into the view of size
2 (vector 2), fails the assert.  Moving matrix 1 into the empty matrix 0
returns, and then moving a new 1 x 2 matrix (matrix 5) into matrix 0 fails the
assert, although matrix 0 was never made a view. -/
theorem moveFrom_release_assert_witness :
    (MatrixType.moveFrom 4 2 1 demo = .aborted ∧ VectorType.moveFrom 4 2 1 demo = .aborted) ∧
    (∃ s1 s2, MatrixType.moveFrom 4 0 1 demo = .ok s1 ∧
      MatrixType.ctorShape 4 5 1 2 s1 = .ok s2 ∧
      (s2.mats 5).mapped = false ∧ MatrixType.moveFrom 4 0 5 s2 = .aborted) := by
  have h := moveFrom_release_assert (V := Int) 4 2 1 demo (by decide)
  exact ⟨⟨(h.1 rfl).2 ⟨rfl, by simp [demo]⟩, (h.2.1 rfl).2 ⟨rfl, by simp [demo]⟩⟩,
    ⟨_, _, rfl, rfl, rfl, rfl⟩⟩

/-- C18 (the code).  Copy after a move.  After a MatrixType moveFrom from a
non-view source into a destination it accepts (one without buffer, or a
non-view one owning a live block), the destination is flagged as mapped, and
copyFrom from any third matrix whose shape differs from the shape just
received throws "Unable to resize mapped matrix." and changes nothing. -/
theorem copy_after_move_throws {V : Type} (sz this src other : Nat) (s : State V)
    (hne : this ≠ src) (hsrc : (s.mats src).mapped = false)
    (hdst : MatrixType.MoveDest s this src) (ho : other ≠ this) (ho' : other ≠ src)
    (hshape : (s.mats src).rows ≠ (s.mats other).rows ∨
      (s.mats src).cols ≠ (s.mats other).cols) :
    ∃ s1, MatrixType.moveFrom sz this src s = .ok s1 ∧ (s1.mats this).mapped = true ∧
      MatrixType.copyFrom sz this other s1 = .thrown "Unable to resize mapped matrix." s1 := by
  obtain ⟨s1, h1, hthis, -⟩ := MatrixType.moveFrom_spec sz this src s hne hsrc hdst
  have hoth := MatrixType.moveFrom_frame hne hsrc h1 other ho ho'
  refine ⟨s1, h1, by rw [hthis], ?_⟩
  refine MatrixType.copyFrom_throws sz this other s1 (Ne.symm ho) (by rw [hthis]) ?_
  rw [hthis, hoth]
  exact hshape

/-- C18 at the failing input, in the example state: the empty matrix 0
receives the 2 x 3 matrix 1 by moveFrom; copying the 1 x 2 matrix 2 into it
then throws.  The same steps on vectors (sizes 3 and 2) reallocate and copy. -/
theorem copy_after_move_throws_witness :
    (∃ s1, MatrixType.moveFrom 4 0 1 demo = .ok s1 ∧ (s1.mats 0).mapped = true ∧
      MatrixType.copyFrom 4 0 2 s1 = .thrown "Unable to resize mapped matrix." s1) ∧
    (∃ s1 s2, VectorType.moveFrom 4 0 1 demo = .ok s1 ∧ (s1.vecs 0).mapped = false ∧
      VectorType.copyFrom 4 0 2 s1 = .ok s2 ∧ (s2.vecs 0).size = 2 ∧
      VectorType.get s2 0 1 = some (some 9)) :=
  ⟨copy_after_move_throws (V := Int) 4 0 1 2 demo (by decide) rfl
      (by simp [MatrixType.MoveDest, demo]) (by decide) (by decide) (Or.inl (by decide)),
    ⟨_, _, rfl, rfl, rfl, rfl, rfl⟩⟩

/-! ## Claim C20 -/

/-- Row-major offsets of cells with columns in range determine the cell. -/
theorem offset_injective (c i j i2 j2 : Int) (hj : 0 ≤ j) (hj' : j < c) (hj2 : 0 ≤ j2)
    (hj2' : j2 < c) (h : i * c + j = i2 * c + j2) : i = i2 ∧ j = j2 := by
  have hc : 0 ≤ c := by omega
  have key : i = i2 := by
    rcases lt_trichotomy i i2 with hlt | heq | hgt
    · exfalso
      have h1 : (i + 1) * c ≤ i2 * c := Int.mul_le_mul_of_nonneg_right (by omega) hc
      have h2 : (i + 1) * c = i * c + c := by ring
      omega
    · exact heq
    · exfalso
      have h1 : (i2 + 1) * c ≤ i * c := Int.mul_le_mul_of_nonneg_right (by omega) hc
      have h2 : (i2 + 1) * c = i2 * c + c := by ring
      omega
  subst key
  exact ⟨rfl, by omega⟩

theorem MatrixType.put_spec {V : Type} (this : Nat) (s : State V) (i j : Int) (x : V)
    (hA : MatrixType.Allocated s this) (hi : 0 ≤ i) (hi' : i < (s.mats this).rows)
    (hj : 0 ≤ j) (hj' : j < (s.mats this).cols) :
    ∃ s', MatrixType.put this i j x s = .ok s' ∧
      MatrixType.get s' this i j = some (some x) ∧
      (∀ i2 j2 : Int, 0 ≤ i2 → i2 < (s.mats this).rows → 0 ≤ j2 → j2 < (s.mats this).cols →
        (i2, j2) ≠ (i, j) → MatrixType.get s' this i2 j2 = MatrixType.get s this i2 j2) ∧
      s'.mats = s.mats ∧ s'.vecs = s.vecs := by
  obtain ⟨hr, hc, hrc, hh⟩ := hA
  obtain ⟨d, cells, hdata, -, hd, hlen⟩ := hh.elim
  have e := MatrixType.index_eq (s.mats this) i j hi hi' hj hj' hrc
  obtain ⟨-, h2, h3⟩ := index_in_range _ _ i j hi hi' hj hj'
  obtain ⟨s', h, hmats, hvecs, -, -, hd'⟩ := State.store_spec s d cells
    (i * (s.mats this).cols + j) x hd h2 (by omega)
  refine ⟨s', ?_, ?_, ?_, hmats, hvecs⟩
  · unfold MatrixType.put
    rw [e, hdata]
    exact h
  · unfold MatrixType.get State.load
    rw [hmats, e, hdata]
    simp only [hd', if_pos h2]
    exact List.getElem?_set_self (by omega)
  · intro i2 j2 hi2 hi2' hj2 hj2' hne
    have e2 := MatrixType.index_eq (s.mats this) i2 j2 hi2 hi2' hj2 hj2' hrc
    obtain ⟨-, k2, k3⟩ := index_in_range _ _ i2 j2 hi2 hi2' hj2 hj2'
    have hoff : i * (s.mats this).cols + j ≠ i2 * (s.mats this).cols + j2 := by
      intro heq
      obtain ⟨a, b⟩ := offset_injective _ i j i2 j2 hj hj' hj2 hj2' heq
      exact hne (by rw [a, b])
    unfold MatrixType.get State.load
    rw [hmats, e2, hdata]
    simp only [hd', hd, if_pos k2]
    exact List.getElem?_set_ne (by omega)

/-- C20 (amended).  Element writes do not alias other cells.  The offsets
i * c + j and i2 * c + j2 of two index pairs with columns in range are equal
only if the pairs are equal; and for a matrix that holds a buffer for its
shape (r, c), with r * c ≤ INT_MAX, writing x to a valid cell (i, j) returns,
makes M(i, j) read x, and leaves every other valid cell, every matrix object
(so the shape and the mapped flag) and every vector object unchanged. -/
theorem element_write_frame {V : Type} (this : Nat) (s : State V) (i j : Int) (x : V) :
    (∀ c i2 j2 : Int, 0 ≤ j → j < c → 0 ≤ j2 → j2 < c → i * c + j = i2 * c + j2 →
      i = i2 ∧ j = j2) ∧
    (MatrixType.Allocated s this → 0 ≤ i → i < (s.mats this).rows →
      0 ≤ j → j < (s.mats this).cols →
      ∃ s', MatrixType.put this i j x s = .ok s' ∧
        MatrixType.get s' this i j = some (some x) ∧
        (∀ i2 j2 : Int, 0 ≤ i2 → i2 < (s.mats this).rows → 0 ≤ j2 →
          j2 < (s.mats this).cols → (i2, j2) ≠ (i, j) →
          MatrixType.get s' this i2 j2 = MatrixType.get s this i2 j2) ∧
        s'.mats = s.mats ∧ s'.vecs = s.vecs) :=
  ⟨fun c i2 j2 hj hj' hj2 hj2' h => offset_injective c i j i2 j2 hj hj' hj2 hj2' h,
   MatrixType.put_spec this s i j x⟩

/-- C20 witness: in the example state, writing 99 to cell (1, 0) of the 2 x 3
matrix 1 makes it read 99 and leaves cell (0, 2) as it was. -/
theorem element_write_frame_witness :
    ∃ s', MatrixType.put 1 1 0 (99 : Int) demo = .ok s' ∧
      MatrixType.get s' 1 1 0 = some (some 99) ∧
      MatrixType.get s' 1 0 2 = some (some 2) ∧ s'.mats 1 = demo.mats 1 := by
  obtain ⟨s', h, h1, h2, h3, -⟩ := (element_write_frame 1 demo 1 0 (99 : Int)).2
    (by simp [MatrixType.Allocated, State.HoldsCells, demo, INT_MAX])
    (by decide) (by decide) (by decide) (by decide)
  exact ⟨s', h, h1,
    (h2 0 2 (by decide) (by decide) (by decide) (by decide) (by decide)).trans rfl,
    by rw [h3]⟩

/-- In a 65537 x 65536 view, writing cell (65536, 0) writes cell (0, 0). -/
theorem wide_view_alias {V : Type} (s : State V) (cells : List (Option V)) (x0 x : V)
    (hm : s.mats 1 = { rows := 65537, cols := 65536, data := some 0, mapped := true })
    (hd : s.heap 0 = some cells) (hlen : 0 < cells.length) (h0 : cells[0]? = some (some x0)) :
    MatrixType.get s 1 0 0 = some (some x0) ∧
    ∃ s', MatrixType.put 1 65536 0 x s = .ok s' ∧ MatrixType.get s' 1 0 0 = some (some x) := by
  have i1 : (s.mats 1).index 0 0 = 0 := by rw [hm]; rfl
  have i2 : (s.mats 1).index 65536 0 = 0 := by rw [hm]; rfl
  obtain ⟨s', h, hmats, -, -, -, hd'⟩ := State.store_spec s 0 cells 0 x hd (le_refl 0)
    (by omega)
  refine ⟨?_, s', ?_, ?_⟩
  · unfold MatrixType.get State.load
    rw [i1, hm]
    simp only [hd, le_refl, if_true]
    exact h0
  · unfold MatrixType.put
    rw [i2, hm]
    exact h
  · unfold MatrixType.get State.load
    rw [hmats, i1, hm]
    simp only [hd', le_refl, if_true]
    exact List.getElem?_set_self hlen

/-- C20 counterexample: shapes whose element count does not fit an int.  In
the 65537 x 65536 view of a block of 65537 * 65536 cells, the offset of cell
(65536, 0) is 0 as an int: writing 7 to that cell returns and changes cell
(0, 0), which read 0, to 7.  In the 65536 x 65536 view of a block of 2^32
cells, the offset of cell (32768, 0) is -2^31: the write is outside the block. -/
theorem element_write_frame_counterexample :
    ((demoWide.mats 1).rows = 65537 ∧ (demoWide.mats 1).cols = 65536 ∧
      (demoWide.mats 1).index 65536 0 = 0 ∧
      MatrixType.get demoWide 1 0 0 = some (some 0) ∧
      ∃ s', MatrixType.put 1 65536 0 (7 : Int) demoWide = .ok s' ∧
        MatrixType.get s' 1 0 0 = some (some 7)) ∧
    ((demoHuge.mats 1).index 32768 0 = -2147483648 ∧
      MatrixType.put 1 32768 0 (7 : Int) demoHuge = .undefined) :=
  have h := wide_view_alias demoWide (List.replicate 4295032832 (some (0 : Int))) 0 7 rfl rfl
    (by rw [List.length_replicate]; decide) (by rw [List.getElem?_replicate]; rfl)
  ⟨⟨rfl, rfl, rfl, h.1, h.2⟩, ⟨rfl, rfl⟩⟩

/-! ## Claim C19 -/

/-- C19 (the code on an empty row or column).  For a matrix of shape 1 x 0 or
0 x 1, which passes the assert and has 0 elements, the view constructor sets
size = 1 over the matrix's buffer, and the copying constructor allocates one
element and copies sizeof(V) bytes from the matrix's buffer: with that buffer
null, or a live block of 0 cells, the memcpy is undefined. -/
theorem vector_from_empty_matrix {V : Type} (sz this : Nat) (matrix : EigenMatrix)
    (s : State V) (hsz : 0 < sz) (hsz' : sz ≤ 4294967296)
    (hshape : (matrix.rows = 1 ∧ matrix.cols = 0) ∨ (matrix.rows = 0 ∧ matrix.cols = 1)) :
    matrix.rows * matrix.cols = 0 ∧
    (∃ s', VectorType.ctorEigen this matrix s = .ok s' ∧
      (s'.vecs this).size = 1 ∧ (s'.vecs this).data = matrix.data ∧
      (s'.vecs this).mapped = true ∧ s'.heap = s.heap) ∧
    ((matrix.data = none ∨ ∃ a, matrix.data = some a ∧ a < s.brk ∧ s.heap a = some []) →
      VectorType.ctorEigenConst sz this matrix s = .undefined) := by
  have hmax : wrapInt (max matrix.rows matrix.cols) = 1 := by
    rcases hshape with ⟨h1, h2⟩ | ⟨h1, h2⟩ <;> rw [h1, h2] <;> rfl
  have hcond : matrix.rows = 1 ∨ matrix.cols = 1 := by
    rcases hshape with ⟨h1, _⟩ | ⟨_, h2⟩
    · exact Or.inl h1
    · exact Or.inr h2
  refine ⟨?_, ?_, ?_⟩
  · rcases hshape with ⟨h1, h2⟩ | ⟨h1, h2⟩ <;> rw [h1, h2] <;> rfl
  · unfold VectorType.ctorEigen
    rw [if_pos hcond, hmax]
    exact ⟨_, rfl, by simp, by simp, by simp, rfl⟩
  · intro hdata
    obtain ⟨s1, h1, hthis, -, -, -, hheap, hnew⟩ := VectorType.allocate_spec_vec sz this 1
      (VectorType.resetState this s) hsz hsz' (by simp [VectorType.resetState])
      (by decide) (by decide)
    have hbytes : mulSizeT sz (toSizeT 1) = sz := by
      have := (vecBytes_size sz 1 hsz' (by decide) (by decide)).2.1
      simpa using this
    unfold VectorType.ctorEigenConst
    rw [if_pos hcond, hmax, h1, Outcome.andThen_ok, hthis]
    simp only [hbytes]
    unfold State.memcpy
    rw [if_neg (by omega)]
    rcases hdata with hnone | ⟨a, ha, hlt, hcells⟩
    · rw [hnone]
    · have hbrk : (VectorType.resetState this s).brk = s.brk := rfl
      have hne : a ≠ (VectorType.resetState this s).brk := by omega
      have ha1 : s1.heap a = some [] := by
        rw [hheap a hne]; exact hcells
      rw [ha]
      simp only [hnew, ha1, List.length_nil, Nat.mul_zero]
      rw [if_neg (by omega)]

/-- C19 at the failing input: a 1 x 0 matrix whose buffer is the empty live
block 4 (the example state after malloc(0)), or null.  The view has size 1 and
its cell 0 is outside the buffer; the copying constructor does not return. -/
theorem vector_from_empty_matrix_witness :
    (∃ s', VectorType.ctorEigen 0 ⟨1, 0, some 4⟩ (demo.malloc 4 0).1 = .ok s' ∧
      (s'.vecs 0).size = 1 ∧ s'.heap 4 = some [] ∧ VectorType.get s' 0 0 = none) ∧
    VectorType.ctorEigenConst 4 0 ⟨1, 0, some 4⟩ (demo.malloc 4 0).1 = .undefined ∧
    VectorType.ctorEigenConst 4 0 ⟨1, 0, none⟩ demo = .undefined := by
  have h := vector_from_empty_matrix (V := Int) 4 0 ⟨1, 0, some 4⟩ (demo.malloc 4 0).1
    (by decide) (by decide) (Or.inl ⟨rfl, rfl⟩)
  have h' := vector_from_empty_matrix (V := Int) 4 0 ⟨1, 0, none⟩ demo
    (by decide) (by decide) (Or.inl ⟨rfl, rfl⟩)
  exact ⟨⟨_, rfl, rfl, rfl, rfl⟩, h.2.2 (Or.inr ⟨4, rfl, by decide, rfl⟩),
    h'.2.2 (Or.inl rfl)⟩

/-! ## Fixtures with a local variable: the balanced vector -/

@[simp] theorem Outcome.withLocal_ok {σ τ : Type} (s : σ) (x : τ) :
    (Outcome.ok s).withLocal x = .ok (s, x) := rfl

@[simp] theorem Outcome.dropLocal_ok {σ τ : Type} (s : σ × τ) :
    (Outcome.ok s).dropLocal = .ok s.1 := rfl

theorem iterate_step {L : Type} (next : L → L) (k : Nat) (l0 : L) :
    next^[k + 1] l0 = next (next^[k] l0) :=
  Function.iterate_succ_apply' next k l0

theorem balancedNext_iterate (k : Nat) : balancedNext^[k] (-2) = ((k % 5 : Nat) : Int) - 2 := by
  induction k with
  | zero => rfl
  | succ k ih =>
    rw [iterate_step, ih]
    unfold balancedNext wrapInt
    split <;> omega

/-- A counting loop that stores val of the local in cell idx and advances the
local by next, on a vector that holds a block of n cells. -/
theorem fillVec_spec {V L : Type} (val : L → V) (next : L → L) (hvec d n : Nat)
    (s : State V) (l0 : L) (hn : n ≤ 2147483647)
    (hv : s.vecs hvec = { size := (n : Int), data := some d, mapped := false })
    (cells0 : List (Option V)) (hd : s.heap d = some cells0) (hlen : cells0.length = n) :
    ∃ s', forRange n (fun idx (st : State V × L) =>
        (VectorType.put hvec (wrapInt idx) (val st.2) st.1).withLocal (next st.2)) (s, l0)
        = .ok (s', next^[n] l0) ∧
      s'.vecs hvec = { size := (n : Int), data := some d, mapped := false } ∧
      ∃ cells, s'.heap d = some cells ∧ cells.length = n ∧
        ∀ idx, idx < n → cells[idx]? = some (some (val (next^[idx] l0))) := by
  obtain ⟨st', h, hl, hv', cells, hd', hlen', hc⟩ := forRange_inv
    (fun k (st : State V × L) => st.2 = next^[k] l0 ∧
      st.1.vecs hvec = { size := (n : Int), data := some d, mapped := false } ∧
      ∃ cells, st.1.heap d = some cells ∧ cells.length = n ∧
        ∀ idx, idx < k → cells[idx]? = some (some (val (next^[idx] l0))))
    n (fun idx (st : State V × L) =>
        (VectorType.put hvec (wrapInt idx) (val st.2) st.1).withLocal (next st.2)) (s, l0)
    ⟨rfl, hv, cells0, hd, hlen, fun idx h => by omega⟩
    (by
      rintro k ⟨st, l⟩ hk ⟨hl1, hv1, cells, hd1, hlen1, hc1⟩
      simp only at hl1 hv1 hd1
      obtain ⟨s', h, -, hvecs, -, -, hd'⟩ := State.store_spec st d cells (k : Int) (val l) hd1
        (by omega) (by omega)
      refine ⟨(s', next l), ?_, by rw [iterate_step, ← hl1], by rw [hvecs, hv1],
        cells.set k (some (val l)), by simpa using hd', by rw [List.length_set, hlen1], ?_⟩
      · show (st.store (st.vecs hvec).data (wrapInt (k : Int)) (val l)).withLocal (next l) = _
        rw [hv1, wrapInt_natCast k (by omega), h]
        rfl
      · intro idx hidx
        by_cases e : idx = k
        · subst e
          rw [← hl1]
          exact List.getElem?_set_self (by omega)
        · rw [List.getElem?_set_ne (Ne.symm e)]
          exact hc1 idx (by omega))
  obtain ⟨s', l'⟩ := st'
  simp only at hl hv' hd'
  subst hl
  exact ⟨s', h, hv', cells, hd', hlen', hc⟩

theorem testVecBalanced_spec {V : Type} (cast : Int → V) (sz hvec n : Nat) (s : State V)
    (hsz : 0 < sz) (hsz' : sz ≤ 4294967296) (hn : (n : Int) ≤ INT_MAX) :
    ∃ s', testVecBalancedRun cast sz hvec n s = .ok (s', ((n % 5 : Nat) : Int) - 2) ∧
      (s'.vecs hvec).size = (n : Int) ∧
      ∀ idx : Nat, idx < n →
        VectorType.get s' hvec (idx : Int) = some (some (cast (((idx % 5 : Nat) : Int) - 2))) := by
  have hn' : n ≤ 2147483647 := by unfold INT_MAX at hn; omega
  obtain ⟨s1, h1, hv1, -, -, -, -, hd1⟩ := VectorType.allocate_spec_vec sz hvec (n : Int)
    (VectorType.resetState hvec s) hsz hsz' (by simp [VectorType.resetState])
    (by omega) hn
  rw [Int.toNat_natCast] at hd1
  obtain ⟨s', h, hv', cells, hd', hlen', hc⟩ := fillVec_spec cast balancedNext hvec _ n s1
    (-2 : Int) hn' hv1 _ hd1 (List.length_replicate _ _)
  refine ⟨s', ?_, by rw [hv'], ?_⟩
  · unfold testVecBalancedRun VectorType.ctorSize
    rw [wrapInt_natCast n hn', h1, Outcome.withLocal_ok, Outcome.andThen_ok,
      ← balancedNext_iterate]
    exact h
  · intro idx hidx
    unfold VectorType.get State.load
    rw [hv']
    simp only [hd', Int.natCast_nonneg, if_true, Int.toNat_natCast]
    rw [hc idx hidx, balancedNext_iterate]

/-! ## Claim C11 -/

/-- testVecBalanced is undefined as soon as its first assignment is. -/
theorem testVecBalanced_first_write {V : Type} (cast : Int → V) (sz hvec size : Nat)
    (s s1 : State V) (n : Nat) (h1 : VectorType.ctorSize sz hvec (wrapInt size) s = .ok s1)
    (hn : size = n + 1)
    (hput : VectorType.put hvec (wrapInt (0 : Nat)) (cast (-2)) s1 = .undefined) :
    testVecBalanced cast sz hvec size s = .undefined := by
  unfold testVecBalanced testVecBalancedRun
  rw [h1, hn, Outcome.withLocal_ok, Outcome.andThen_ok]
  rw [forRange_undefined n _ _ (by show (VectorType.put hvec (wrapInt (0 : Nat)) (cast (-2)) s1).withLocal _ = _; rw [hput]; rfl)]
  rfl

/-- C11 (amended).  Balanced-cycle vector fixture: for every size n ≤ INT_MAX,
testVecBalanced(n) returns a vector of size n whose cell idx is
(idx mod 5) - 2 (converted to the cell type) for all 0 ≤ idx < n: the
repeating cycle -2, -1, 0, 1, 2. -/
theorem testVecBalanced_cycle {V : Type} (cast : Int → V) (sz hvec n : Nat) (s : State V)
    (hsz : 0 < sz) (hsz' : sz ≤ 4294967296) (hn : (n : Int) ≤ INT_MAX) :
    ∃ s', testVecBalanced cast sz hvec n s = .ok s' ∧ (s'.vecs hvec).size = (n : Int) ∧
      ∀ idx : Nat, idx < n →
        VectorType.get s' hvec (idx : Int)
          = some (some (cast (((idx % 5 : Nat) : Int) - 2))) := by
  obtain ⟨s', h, h1, h2⟩ := testVecBalanced_spec cast sz hvec n s hsz hsz' hn
  exact ⟨s', by unfold testVecBalanced; rw [h]; rfl, h1, h2⟩

/-- C11 witness: testVecBalanced(7) on int cells is -2, -1, 0, 1, 2, -2, -1. -/
theorem testVecBalanced_cycle_witness :
    (∃ s', testVecBalanced (fun v => v) 4 0 7 demo = .ok s' ∧ (s'.vecs 0).size = 7 ∧
      VectorType.get s' 0 5 = some (some (-2))) ∧
    (∃ s', testVecBalanced (fun v => v) 4 0 7 demo = .ok s' ∧ (s'.vecs 0).data = some 4 ∧
      s'.heap 4 = some [some (-2), some (-1), some 0, some 1, some 2, some (-2), some (-1)]) := by
  obtain ⟨s', h, h1, h2⟩ := testVecBalanced_cycle (fun v : Int => v) 4 0 7 demo
    (by decide) (by decide) (by decide)
  exact ⟨⟨s', h, h1, h2 5 (by decide)⟩, ⟨_, rfl, rfl, rfl⟩⟩

/-- C11 counterexample: the size 2^31 on int cells.  The constructor takes the
size converted to int, -2^31: the vector has that size and, malloc having
failed, a null buffer, and the first assignment goes through the null
pointer. -/
theorem testVecBalanced_cycle_counterexample :
    (∃ s1, VectorType.ctorSize 4 0 (wrapInt (2147483648 : Nat)) demo = .ok s1 ∧
      (s1.vecs 0).size = -2147483648 ∧ (s1.vecs 0).data = none) ∧
    testVecBalanced (fun v : Int => v) 4 0 2147483648 demo = .undefined :=
  ⟨⟨_, rfl, rfl, rfl⟩,
    testVecBalanced_first_write (fun v : Int => v) 4 0 2147483648 demo _ 2147483647 rfl
      (by decide) rfl⟩

/-! ## Row-major fills with a local variable -/

/-- A loop whose iterations leave the state as it is. -/
theorem forRange_skip {σ : Type} (n : Nat) (body : Nat → σ → Outcome σ) (s : σ)
    (h : ∀ k s', body k s' = .ok s') : forRange n body s = .ok s := by
  obtain ⟨s', h1, h2⟩ := forRange_inv (fun _ st => st = s) n body s rfl
    (fun k st _ hst => ⟨st, h k st, hst⟩)
  rw [h1, h2]

/-- One row of a row-major fill with a local: the inner loop stores val of
the local in cell (i, iCol) and advances the local by next. -/
theorem fillMat_row {V L : Type} (val : L → V) (next : L → L) (g : Nat → Nat → V)
    (hmat d R C i : Nat) (s : State V) (l : L)
    (hRC : R * C ≤ 2147483647) (hi : i < R)
    (hm : s.mats hmat = { rows := (R : Int), cols := (C : Int), data := some d, mapped := false })
    (cells0 : List (Option V)) (hd : s.heap d = some cells0) (hlen : cells0.length = R * C)
    (hprev : ∀ i' j', i' < i → j' < C → cells0[i' * C + j']? = some (some (g i' j'))) :
    ∃ s', forRange C (fun iCol (st : State V × L) =>
        (MatrixType.put hmat (wrapInt i) (wrapInt iCol) (val st.2) st.1).withLocal
          (next st.2)) (s, l) = .ok (s', next^[C] l) ∧
      s'.mats hmat = { rows := (R : Int), cols := (C : Int), data := some d, mapped := false } ∧
      ∃ cells, s'.heap d = some cells ∧ cells.length = R * C ∧
        (∀ i' j', i' < i → j' < C → cells[i' * C + j']? = some (some (g i' j'))) ∧
        ∀ j', j' < C → cells[i * C + j']? = some (some (val (next^[j'] l))) := by
  obtain ⟨st', h, hl, hm', cells, hd', hlen', hp, hc⟩ := forRange_inv
    (fun k (st : State V × L) => st.2 = next^[k] l ∧
      st.1.mats hmat
        = { rows := (R : Int), cols := (C : Int), data := some d, mapped := false } ∧
      ∃ cells, st.1.heap d = some cells ∧ cells.length = R * C ∧
        (∀ i' j', i' < i → j' < C → cells[i' * C + j']? = some (some (g i' j'))) ∧
        ∀ j', j' < k → cells[i * C + j']? = some (some (val (next^[j'] l))))
    C (fun iCol (st : State V × L) =>
        (MatrixType.put hmat (wrapInt i) (wrapInt iCol) (val st.2) st.1).withLocal
          (next st.2)) (s, l)
    ⟨rfl, hm, cells0, hd, hlen, hprev, fun j' h => by omega⟩
    (by
      rintro k ⟨st, lk⟩ hk ⟨hl1, hm1, cells, hd1, hlen1, hp1, hc1⟩
      simp only at hl1 hm1 hd1
      have hoff : i * C + k < R * C := offset_lt R C i k hi hk
      have hRle : R ≤ R * C := Nat.le_mul_of_pos_right R (by omega)
      have hCle : C ≤ R * C := Nat.le_mul_of_pos_left C (by omega)
      have hidx : (st.mats hmat).index (wrapInt (i : Int)) (wrapInt (k : Int))
          = ((i * C + k : Nat) : Int) := by
        rw [wrapInt_natCast i (by omega), wrapInt_natCast k (by omega)]
        rw [MatrixType.index_eq (st.mats hmat) i k (by omega)
          (by rw [hm1]; show (i : Int) < (R : Int); exact_mod_cast hi)
          (by omega) (by rw [hm1]; show (k : Int) < (C : Int); exact_mod_cast hk)
          (by rw [hm1]; show (R : Int) * (C : Int) ≤ 2147483647; exact_mod_cast hRC), hm1]
        push_cast
        ring
      obtain ⟨s', h, hmats, -, -, -, hd'⟩ := State.store_spec st d cells
        ((i * C + k : Nat) : Int) (val lk) hd1 (by omega) (by omega)
      rw [Int.toNat_natCast] at hd'
      refine ⟨(s', next lk), ?_, by rw [iterate_step, ← hl1], by rw [hmats, hm1],
        cells.set (i * C + k) (some (val lk)), hd', by rw [List.length_set, hlen1], ?_, ?_⟩
      · show (st.store (st.mats hmat).data
          ((st.mats hmat).index (wrapInt (i : Int)) (wrapInt (k : Int))) (val lk)).withLocal
            (next lk) = _
        rw [hidx, hm1, h]
        rfl
      · intro i' j' hi' hj'
        have := offset_lt_row C i i' j' hi' hj'
        rw [List.getElem?_set_ne (by omega)]
        exact hp1 i' j' hi' hj'
      · intro j' hj'
        by_cases e : j' = k
        · subst e
          rw [← hl1]
          exact List.getElem?_set_self (by omega)
        · rw [List.getElem?_set_ne (by omega)]
          exact hc1 j' (by omega))
  obtain ⟨s', l'⟩ := st'
  simp only at hl hm' hd'
  subst hl
  exact ⟨s', h, hm', cells, hd', hlen', hp, hc⟩

/-- A row-major fill with a local, on a matrix that holds a block of R * C
cells: cell (i, j) receives val of the local after i * C + j steps. -/
theorem fillMat_spec {V L : Type} (val : L → V) (next : L → L) (hmat d R C : Nat)
    (s : State V) (l0 : L) (hRC : R * C ≤ 2147483647)
    (hm : s.mats hmat = { rows := (R : Int), cols := (C : Int), data := some d, mapped := false })
    (cells0 : List (Option V)) (hd : s.heap d = some cells0) (hlen : cells0.length = R * C) :
    ∃ s', forRange R (fun iRow => forRange C fun iCol (st : State V × L) =>
        (MatrixType.put hmat (wrapInt iRow) (wrapInt iCol) (val st.2) st.1).withLocal
          (next st.2)) (s, l0) = .ok (s', next^[R * C] l0) ∧
      s'.mats hmat = { rows := (R : Int), cols := (C : Int), data := some d, mapped := false } ∧
      ∃ cells, s'.heap d = some cells ∧ cells.length = R * C ∧
        ∀ i j, i < R → j < C → cells[i * C + j]? = some (some (val (next^[i * C + j] l0))) := by
  obtain ⟨st', h, hl, hm', cells, hd', hlen', hc⟩ := forRange_inv
    (fun k (st : State V × L) => st.2 = next^[k * C] l0 ∧
      st.1.mats hmat
        = { rows := (R : Int), cols := (C : Int), data := some d, mapped := false } ∧
      ∃ cells, st.1.heap d = some cells ∧ cells.length = R * C ∧
        ∀ i j, i < k → j < C → cells[i * C + j]? = some (some (val (next^[i * C + j] l0))))
    R (fun iRow => forRange C fun iCol (st : State V × L) =>
        (MatrixType.put hmat (wrapInt iRow) (wrapInt iCol) (val st.2) st.1).withLocal
          (next st.2)) (s, l0)
    ⟨by simp, hm, cells0, hd, hlen, fun i j h _ => by omega⟩
    (by
      rintro k ⟨st, lk⟩ hk ⟨hl1, hm1, cells, hd1, hlen1, hp1⟩
      simp only at hl1 hm1 hd1
      obtain ⟨s', h, hm2, cells', hd2, hlen2, hp2, hc2⟩ := fillMat_row val next
        (fun i j => val (next^[i * C + j] l0)) hmat d R C k st lk hRC hk hm1 cells hd1 hlen1 hp1
      refine ⟨(s', next^[C] lk), h, ?_, hm2, cells', hd2, hlen2, ?_⟩
      · show next^[C] lk = next^[(k + 1) * C] l0
        rw [hl1, ← Function.iterate_add_apply]
        have e : C + k * C = (k + 1) * C := by ring
        rw [e]
      · intro i j hi hj
        by_cases e : i = k
        · subst e
          rw [hc2 j hj, hl1, ← Function.iterate_add_apply]
          have e : j + i * C = i * C + j := by ring
          rw [e]
        · exact hp2 i j (by omega) hj)
  obtain ⟨s', l'⟩ := st'
  simp only at hl hm' hd'
  subst hl
  exact ⟨s', h, hm', cells, hd', hlen', hc⟩

/-- Construction by Dim followed by a row-major fill with a local, for a
shape whose element count fits an int. -/
theorem fillMatDim_spec {V L : Type} (val : L → V) (next : L → L) (sz hmat : Nat) (dim : Dim)
    (s : State V) (l0 : L) (hsz : 0 < sz) (hsz' : sz ≤ 4294967296)
    (hr : 0 ≤ dim.rows) (hc : 0 ≤ dim.cols) (hrc : dim.rows * dim.cols ≤ INT_MAX) :
    ∃ s', ((MatrixType.ctorDim sz hmat dim s).withLocal l0).andThen
        (forRange (toSizeType dim.rows) fun iRow =>
          forRange (toSizeType dim.cols) fun iCol (st : State V × L) =>
            (MatrixType.put hmat (wrapInt iRow) (wrapInt iCol) (val st.2) st.1).withLocal
              (next st.2))
        = .ok (s', next^[(dim.rows * dim.cols).toNat] l0) ∧
      (s'.mats hmat).rows = dim.rows ∧ (s'.mats hmat).cols = dim.cols ∧
      ∀ i j : Nat, (i : Int) < dim.rows → (j : Int) < dim.cols →
        MatrixType.get s' hmat (i : Int) (j : Int)
          = some (some (val (next^[i * dim.cols.toNat + j] l0))) := by
  obtain ⟨rows, cols⟩ := dim
  simp only at hr hc hrc ⊢
  obtain ⟨R, rfl⟩ := Int.eq_ofNat_of_zero_le hr
  obtain ⟨C, rfl⟩ := Int.eq_ofNat_of_zero_le hc
  have hRC : R * C ≤ 2147483647 := by unfold INT_MAX at hrc; exact_mod_cast hrc
  obtain ⟨s1, h1, hm1, -, -, -, -, hd1⟩ := MatrixType.allocate_spec sz hmat (R : Int) (C : Int)
    (MatrixType.resetState hmat s) hsz hsz' (by simp [MatrixType.resetState]) hr hc hrc
  have e : ((R : Int) * (C : Int)).toNat = R * C := by
    rw [← Int.natCast_mul]; exact Int.toNat_natCast _
  rw [e] at hd1
  have hctor : MatrixType.ctorDim sz hmat ⟨(R : Int), (C : Int)⟩ s = .ok s1 := h1
  rw [hctor, Outcome.withLocal_ok, Outcome.andThen_ok, e, Int.toNat_natCast]
  rcases Nat.eq_zero_or_pos R with hR0 | hRpos
  · subst hR0
    have z : toSizeType ((0 : Nat) : Int) = 0 := by decide
    rw [z, forRange_zero]
    refine ⟨s1, by simp, by rw [hm1], by rw [hm1], ?_⟩
    intro i j hi _
    omega
  rcases Nat.eq_zero_or_pos C with hC0 | hCpos
  · subst hC0
    have z : toSizeType ((0 : Nat) : Int) = 0 := by decide
    rw [z, forRange_skip _ _ _ (fun k st => forRange_zero _ st)]
    refine ⟨s1, by simp, by rw [hm1], by rw [hm1], ?_⟩
    intro i j _ hj
    omega
  have hRle : R ≤ R * C := Nat.le_mul_of_pos_right R hCpos
  have hCle : C ≤ R * C := Nat.le_mul_of_pos_left C hRpos
  have eR : toSizeType (R : Int) = R := by unfold toSizeType; omega
  have eC : toSizeType (C : Int) = C := by unfold toSizeType; omega
  rw [eR, eC]
  obtain ⟨s', h, hm', cells, hd', hlen', hcells⟩ := fillMat_spec val next hmat _ R C s1 l0
    hRC hm1 _ hd1 (List.length_replicate _ _)
  refine ⟨s', h, by rw [hm'], by rw [hm'], ?_⟩
  intro i j hi hj
  have hi' : i < R := by exact_mod_cast hi
  have hj' : j < C := by exact_mod_cast hj
  have hidx : (s'.mats hmat).index (i : Int) (j : Int) = ((i * C + j : Nat) : Int) := by
    rw [MatrixType.index_eq (s'.mats hmat) i j (by omega) (by rw [hm']; exact hi)
      (by omega) (by rw [hm']; exact hj) (by rw [hm']; exact hrc), hm']
    push_cast
    ring
  unfold MatrixType.get State.load
  rw [hidx, hm']
  simp only [hd', Int.natCast_nonneg, if_true, Int.toNat_natCast]
  exact hcells i j hi' hj'

/-- Construction by size followed by a counting fill with a local, for a
size that fits an int. -/
theorem fillVecSize_spec {V L : Type} (val : L → V) (next : L → L) (sz hvec n : Nat)
    (s : State V) (l0 : L) (hsz : 0 < sz) (hsz' : sz ≤ 4294967296) (hn : (n : Int) ≤ INT_MAX) :
    ∃ s', ((VectorType.ctorSize sz hvec (wrapInt n) s).withLocal l0).andThen
        (forRange n fun idx (st : State V × L) =>
          (VectorType.put hvec (wrapInt idx) (val st.2) st.1).withLocal (next st.2))
        = .ok (s', next^[n] l0) ∧
      (s'.vecs hvec).size = (n : Int) ∧
      ∀ idx : Nat, idx < n →
        VectorType.get s' hvec (idx : Int) = some (some (val (next^[idx] l0))) := by
  have hn' : n ≤ 2147483647 := by unfold INT_MAX at hn; omega
  obtain ⟨s1, h1, hv1, -, -, -, -, hd1⟩ := VectorType.allocate_spec_vec sz hvec (n : Int)
    (VectorType.resetState hvec s) hsz hsz' (by simp [VectorType.resetState])
    (by omega) hn
  rw [Int.toNat_natCast] at hd1
  obtain ⟨s', h, hv', cells, hd', hlen', hc⟩ := fillVec_spec val next hvec _ n s1
    l0 hn' hv1 _ hd1 (List.length_replicate _ _)
  refine ⟨s', ?_, by rw [hv'], ?_⟩
  · unfold VectorType.ctorSize
    rw [wrapInt_natCast n hn', h1, Outcome.withLocal_ok, Outcome.andThen_ok]
    exact h
  · intro idx hidx
    unfold VectorType.get State.load
    rw [hv']
    simp only [hd', Int.natCast_nonneg, if_true, Int.toNat_natCast]
    exact hc idx hidx

/-! ## Claim C12 -/

@[simp] theorem Outcome.withLocal_undefined {σ τ : Type} (x : τ) :
    (Outcome.undefined : Outcome σ).withLocal x = .undefined := rfl

@[simp] theorem Outcome.dropLocal_undefined {σ τ : Type} :
    (Outcome.undefined : Outcome (σ × τ)).dropLocal = .undefined := rfl

/-- testMatBalanced is undefined as soon as its first assignment is. -/
theorem testMatBalanced_first_write {V : Type} (cast : Int → V) (sz hmat : Nat) (dim : Dim)
    (s s1 : State V) (R C : Nat) (h1 : MatrixType.ctorDim sz hmat dim s = .ok s1)
    (hR : toSizeType dim.rows = R + 1) (hC : toSizeType dim.cols = C + 1)
    (hput : MatrixType.put hmat (wrapInt (0 : Nat)) (wrapInt (0 : Nat)) (cast (-2)) s1
      = .undefined) :
    testMatBalanced cast sz hmat dim s = .undefined := by
  unfold testMatBalanced testMatBalancedRun
  rw [h1, hR, hC, Outcome.withLocal_ok, Outcome.andThen_ok]
  rw [forRange_undefined R _ _ (forRange_undefined C _ _ (by
    show (MatrixType.put hmat (wrapInt (0 : Nat)) (wrapInt (0 : Nat)) (cast (-2)) s1).withLocal _
      = _
    rw [hput, Outcome.withLocal_undefined]))]
  rfl

/-- C12 (amended).  Balanced-cycle matrix fixture: for every Dim with rows ≥ 0,
cols ≥ 0 and rows * cols ≤ INT_MAX, testMatBalanced(dim) returns a matrix of
shape (rows, cols) whose cell (i, j) is ((i * cols + j) mod 5) - 2 (converted
to the cell type) for all 0 ≤ i < rows, 0 ≤ j < cols, and testVecBalanced(rows
* cols) returns a vector whose cell i * cols + j is that cell of the matrix:
the row-major reading of the matrix is the cycle -2, -1, 0, 1, 2. -/
theorem testMatBalanced_cycle {V : Type} (cast : Int → V) (sz hmat hvec : Nat) (dim : Dim)
    (s t : State V) (hsz : 0 < sz) (hsz' : sz ≤ 4294967296)
    (hr : 0 ≤ dim.rows) (hc : 0 ≤ dim.cols) (hrc : dim.rows * dim.cols ≤ INT_MAX) :
    ∃ s' t', testMatBalanced cast sz hmat dim s = .ok s' ∧
      testVecBalanced cast sz hvec (dim.rows * dim.cols).toNat t = .ok t' ∧
      (s'.mats hmat).rows = dim.rows ∧ (s'.mats hmat).cols = dim.cols ∧
      (t'.vecs hvec).size = dim.rows * dim.cols ∧
      ∀ i j : Nat, (i : Int) < dim.rows → (j : Int) < dim.cols →
        MatrixType.get s' hmat (i : Int) (j : Int)
          = some (some (cast (((i : Int) * dim.cols + (j : Int)) % 5 - 2))) ∧
        MatrixType.get s' hmat (i : Int) (j : Int)
          = VectorType.get t' hvec ((i : Int) * dim.cols + (j : Int)) := by
  have h0 : 0 ≤ dim.rows * dim.cols := Int.mul_nonneg hr hc
  obtain ⟨s', h, h1, h2, h3⟩ := fillMatDim_spec cast balancedNext sz hmat dim s (-2 : Int)
    hsz hsz' hr hc hrc
  obtain ⟨t', k, k1, k2⟩ := testVecBalanced_spec cast sz hvec (dim.rows * dim.cols).toNat t
    hsz hsz' (by rw [Int.toNat_of_nonneg h0]; exact hrc)
  refine ⟨s', t', ?_, ?_, h1, h2, by rw [k1, Int.toNat_of_nonneg h0], ?_⟩
  · unfold testMatBalanced testMatBalancedRun
    rw [h]; rfl
  · unfold testVecBalanced
    rw [k]; rfl
  · intro i j hi hj
    obtain ⟨C, hC⟩ := Int.eq_ofNat_of_zero_le hc
    obtain ⟨R, hR⟩ := Int.eq_ofNat_of_zero_le hr
    have hi' : i < R := by rw [hR] at hi; exact_mod_cast hi
    have hj' : j < C := by rw [hC] at hj; exact_mod_cast hj
    have hlt : i * C + j < (dim.rows * dim.cols).toNat := by
      have := offset_lt R C i j hi' hj'
      rw [hR, hC, ← Int.natCast_mul, Int.toNat_natCast]
      exact this
    have ec : dim.cols.toNat = C := by rw [hC]; exact Int.toNat_natCast C
    have key := h3 i j hi hj
    rw [ec, balancedNext_iterate] at key
    have ecast : (i : Int) * dim.cols + (j : Int) = ((i * C + j : Nat) : Int) := by
      rw [hC]; push_cast; ring
    have emod : (((i * C + j) % 5 : Nat) : Int) = ((i * C + j : Nat) : Int) % 5 :=
      Int.natCast_mod _ _
    refine ⟨by rw [key, ecast, emod], ?_⟩
    rw [key, ecast, k2 (i * C + j) hlt]

/-- C12 witness: testMatBalanced of Dim(2, 3) on int cells is -2, -1, 0 /
1, 2, -2 in row-major order, as testVecBalanced(6). -/
theorem testMatBalanced_cycle_witness :
    (∃ s' t', testMatBalanced (fun v => v) 4 0 ⟨2, 3⟩ demo = .ok s' ∧
      testVecBalanced (fun v => v) 4 0 6 demo = .ok t' ∧
      MatrixType.get s' 0 1 2 = some (some (-2)) ∧
      MatrixType.get s' 0 1 2 = VectorType.get t' 0 5) ∧
    (∃ s', testMatBalanced (fun v => v) 4 0 ⟨2, 3⟩ demo = .ok s' ∧
      (s'.mats 0).data = some 4 ∧
      s'.heap 4 = some [some (-2), some (-1), some 0, some 1, some 2, some (-2)]) := by
  obtain ⟨s', t', h, k, -, -, -, hc⟩ := testMatBalanced_cycle (fun v : Int => v) 4 0 0 ⟨2, 3⟩
    demo demo (by decide) (by decide) (by decide) (by decide) (by decide)
  exact ⟨⟨s', t', h, k, (hc 1 2 (by decide) (by decide)).1, (hc 1 2 (by decide) (by decide)).2⟩,
    ⟨_, rfl, rfl, rfl⟩⟩

/-- C12 counterexample: Dim(65536, 65536) on one-byte cells.  rows * cols is 0
as an int: the constructor takes a buffer of 0 bytes and the first assignment,
to cell (0, 0), is outside it. -/
theorem testMatBalanced_cycle_counterexample :
    (∃ s1, MatrixType.ctorDim 1 0 ⟨65536, 65536⟩ demo = .ok s1 ∧
      (s1.mats 0).data = some 4 ∧ s1.heap 4 = some []) ∧
    testMatBalanced (fun v : Int => v) 1 0 ⟨65536, 65536⟩ demo = .undefined :=
  ⟨⟨_, rfl, rfl, rfl⟩,
    testMatBalanced_first_write (fun v : Int => v) 1 0 ⟨65536, 65536⟩ demo _ 65535 65535 rfl
      (by decide) (by decide) rfl⟩

/-! ## Symmetric fills with a local variable -/

theorem tri_le (n i : Nat) (hi : i ≤ n) : i * (i - 1) / 2 ≤ i * n := by
  have h1 : i * (i - 1) / 2 ≤ i * (i - 1) := Nat.div_le_self _ _
  have h2 : i * (i - 1) ≤ i * n := Nat.mul_le_mul_left i (by omega)
  omega

theorem triIndex_row_end (n i : Nat) (hi : i < n) :
    triIndex n i (i + (n - i)) = triIndex n (i + 1) (i + 1) := by
  unfold triIndex
  have h1 := tri_le n i (by omega)
  have h2 := Nat.triangle_succ i
  have h3 : (i + 1) * n = i * n + n := by ring
  omega

theorem triIndex_total (n : Nat) : triIndex n n n = n * (n + 1) / 2 := by
  unfold triIndex
  have h2 := Nat.triangle_succ n
  have h4 : (n + 1) * (n + 1 - 1) = n * (n + 1) := by
    rw [Nat.add_sub_cancel]; ring
  rw [h4] at h2
  have h5 : 2 * (n * (n - 1) / 2) = n * (n - 1) :=
    Nat.two_mul_div_two_of_even (Nat.even_mul_pred_self n)
  have h6 : n * n = n * (n - 1) + n := by
    cases n with
    | zero => rfl
    | succ k => simp; ring
  omega

theorem offset_inj_nat (n p q i j : Nat) (hq : q < n) (hj : j < n)
    (h : p * n + q = i * n + j) : p = i ∧ q = j := by
  have := offset_injective (n : Int) (p : Int) (q : Int) (i : Int) (j : Int)
    (by omega) (by omega) (by omega) (by omega) (by exact_mod_cast h)
  omega

theorem forFromTo_eq {σ : Type} (lo hi : Nat) (body : Nat → σ → Outcome σ) (s : σ) :
    forFromTo lo hi body s = forRange (hi - lo) (fun k => body (lo + k)) s := rfl

/-- One assignment of the symmetric fills on an n x n matrix that holds a
block of n * n cells: cell (i, j), then cell (j, i), receive x. -/
theorem put_pair_spec {V : Type} (mat d n i j : Nat) (x : V) (s : State V)
    (hnn : n * n ≤ 2147483647) (hi : i < n) (hj : j < n)
    (hm : s.mats mat = { rows := (n : Int), cols := (n : Int), data := some d, mapped := false })
    (cells : List (Option V)) (hd : s.heap d = some cells) (hlen : cells.length = n * n) :
    ∃ s', (MatrixType.put mat (wrapInt i) (wrapInt j) x s).andThen
        (MatrixType.put mat (wrapInt j) (wrapInt i) x) = .ok s' ∧
      s'.mats mat
        = { rows := (n : Int), cols := (n : Int), data := some d, mapped := false } ∧
      s'.heap d = some ((cells.set (i * n + j) (some x)).set (j * n + i) (some x)) := by
  have hnle : n ≤ n * n := Nat.le_mul_of_pos_right n (by omega)
  have idx : ∀ (st : State V) (a b : Nat), a < n → b < n →
      st.mats mat = { rows := (n : Int), cols := (n : Int), data := some d, mapped := false } →
      (st.mats mat).index (wrapInt (a : Int)) (wrapInt (b : Int)) = ((a * n + b : Nat) : Int) := by
    intro st a b ha hb hst
    rw [wrapInt_natCast a (by omega), wrapInt_natCast b (by omega)]
    rw [MatrixType.index_eq (st.mats mat) a b (by omega)
      (by rw [hst]; show (a : Int) < (n : Int); exact_mod_cast ha)
      (by omega) (by rw [hst]; show (b : Int) < (n : Int); exact_mod_cast hb)
      (by rw [hst]; show (n : Int) * (n : Int) ≤ 2147483647; exact_mod_cast hnn), hst]
    push_cast
    ring
  have o1 : i * n + j < n * n := offset_lt n n i j hi hj
  have o2 : j * n + i < n * n := offset_lt n n j i hj hi
  obtain ⟨s1, h1, hmats1, -, -, -, hd1⟩ := State.store_spec s d cells
    ((i * n + j : Nat) : Int) x hd (by omega) (by omega)
  rw [Int.toNat_natCast] at hd1
  obtain ⟨s2, h2, hmats2, -, -, -, hd2⟩ := State.store_spec s1 d
    (cells.set (i * n + j) (some x)) ((j * n + i : Nat) : Int) x hd1 (by omega)
    (by rw [List.length_set]; omega)
  rw [Int.toNat_natCast] at hd2
  have hm1 : s1.mats mat
      = { rows := (n : Int), cols := (n : Int), data := some d, mapped := false } := by
    rw [hmats1, hm]
  refine ⟨s2, ?_, by rw [hmats2, hm1], hd2⟩
  have e1 : MatrixType.put mat (wrapInt (i : Int)) (wrapInt (j : Int)) x s = .ok s1 := by
    show s.store (s.mats mat).data ((s.mats mat).index (wrapInt (i : Int)) (wrapInt (j : Int))) x
      = .ok s1
    rw [idx s i j hi hj hm, hm]
    exact h1
  have e2 : MatrixType.put mat (wrapInt (j : Int)) (wrapInt (i : Int)) x s1 = .ok s2 := by
    show s1.store (s1.mats mat).data
      ((s1.mats mat).index (wrapInt (j : Int)) (wrapInt (i : Int))) x = .ok s2
    rw [idx s1 j i hj hi hm1, hm1]
    exact h2
  rw [e1, Outcome.andThen_ok, e2]

/-- Reading a list after the two writes of one symmetric assignment. -/
theorem getElem?_set_pair {α : Type} (cells : List α) (o1 o2 k : Nat) (x : α)
    (h1 : o1 < cells.length) (h2 : o2 < cells.length) :
    ((cells.set o1 x).set o2 x)[k]? = if k = o1 ∨ k = o2 then some x else cells[k]? := by
  by_cases e2 : k = o2
  · subst e2
    rw [List.getElem?_set_self (by rw [List.length_set]; exact h2)]
    simp
  · rw [List.getElem?_set_ne (Ne.symm e2)]
    by_cases e1 : k = o1
    · subst e1
      rw [List.getElem?_set_self h1]
      simp
    · rw [List.getElem?_set_ne (Ne.symm e1)]
      simp [e1, e2]

/-- One row of a symmetric fill with a local: the inner loop, from the
diagonal to the last column. -/
theorem fillSym_row {V L : Type} (val : L → V) (next : L → L) (mat d n i : Nat)
    (s : State V) (l0 : L) (hnn : n * n ≤ 2147483647) (hi : i < n)
    (hm : s.mats mat = { rows := (n : Int), cols := (n : Int), data := some d, mapped := false })
    (cells0 : List (Option V)) (hd : s.heap d = some cells0) (hlen : cells0.length = n * n)
    (hprev : ∀ p q, p < n → q < n → min p q < i →
      cells0[p * n + q]? = some (some (val (next^[triIndex n (min p q) (max p q)] l0)))) :
    ∃ s', forFromTo i n (fun icol (st : State V × L) =>
        ((MatrixType.put mat (wrapInt i) (wrapInt icol) (val st.2) st.1).andThen
          (MatrixType.put mat (wrapInt icol) (wrapInt i) (val st.2))).withLocal (next st.2))
        (s, next^[triIndex n i i] l0) = .ok (s', next^[triIndex n (i + 1) (i + 1)] l0) ∧
      s'.mats mat
        = { rows := (n : Int), cols := (n : Int), data := some d, mapped := false } ∧
      ∃ cells, s'.heap d = some cells ∧ cells.length = n * n ∧
        ∀ p q, p < n → q < n → min p q < i + 1 →
          cells[p * n + q]? = some (some (val (next^[triIndex n (min p q) (max p q)] l0))) := by
  rw [forFromTo_eq]
  obtain ⟨st', h, hl, hm', cells, hd', hlen', hc⟩ := forRange_inv
    (fun m (st : State V × L) => st.2 = next^[triIndex n i (i + m)] l0 ∧
      st.1.mats mat
        = { rows := (n : Int), cols := (n : Int), data := some d, mapped := false } ∧
      ∃ cells, st.1.heap d = some cells ∧ cells.length = n * n ∧
        ∀ p q, p < n → q < n → (min p q < i ∨ (min p q = i ∧ max p q < i + m)) →
          cells[p * n + q]? = some (some (val (next^[triIndex n (min p q) (max p q)] l0))))
    (n - i) (fun k (st : State V × L) =>
        ((MatrixType.put mat (wrapInt i) (wrapInt ((i + k : Nat) : Int)) (val st.2) st.1).andThen
          (MatrixType.put mat (wrapInt ((i + k : Nat) : Int)) (wrapInt i) (val st.2))).withLocal
            (next st.2))
    (s, next^[triIndex n i i] l0)
    ⟨rfl, hm, cells0, hd, hlen, fun p q hp hq hdone => hprev p q hp hq (by omega)⟩
    (by
      rintro m ⟨st, lm⟩ hmlt ⟨hl1, hm1, cells, hd1, hlen1, hc1⟩
      simp only at hl1 hm1 hd1
      have hj : i + m < n := by omega
      have o1 : i * n + (i + m) < n * n := offset_lt n n i (i + m) hi hj
      have o2 : (i + m) * n + i < n * n := offset_lt n n (i + m) i hj hi
      obtain ⟨s', h, hm2, hd2⟩ := put_pair_spec mat d n i (i + m) (val lm) st hnn hi hj hm1
        cells hd1 hlen1
      refine ⟨(s', next lm), ?_, ?_, hm2, _, hd2, by rw [List.length_set, List.length_set, hlen1],
        ?_⟩
      · show ((MatrixType.put mat (wrapInt i) (wrapInt ((i + m : Nat) : Int)) (val lm) st).andThen
          (MatrixType.put mat (wrapInt ((i + m : Nat) : Int)) (wrapInt i) (val lm))).withLocal
            (next lm) = _
        rw [h]
        rfl
      · show next lm = next^[triIndex n i (i + (m + 1))] l0
        have e : triIndex n i (i + (m + 1)) = triIndex n i (i + m) + 1 := by
          unfold triIndex; omega
        rw [e, iterate_step, ← hl1]
      · intro p q hp hq hdone
        rw [getElem?_set_pair cells _ _ _ _ (by omega) (by omega)]
        by_cases hoff : p * n + q = i * n + (i + m) ∨ p * n + q = (i + m) * n + i
        · rw [if_pos hoff]
          have hmm : min p q = i ∧ max p q = i + m := by
            rcases hoff with e | e
            · obtain ⟨a, b⟩ := offset_inj_nat n p q i (i + m) hq hj e
              omega
            · obtain ⟨a, b⟩ := offset_inj_nat n p q (i + m) i hq hi e
              omega
          rw [hmm.1, hmm.2, ← hl1]
        · rw [if_neg hoff]
          refine hc1 p q hp hq ?_
          rcases hdone with hlt | ⟨hmin, hmax⟩
          · exact Or.inl hlt
          · right
            refine ⟨hmin, ?_⟩
            by_contra hge
            apply hoff
            have hmaxeq : max p q = i + m := by omega
            rcases Nat.le_total p q with hpq | hpq
            · left
              have hp' : p = i := by omega
              have hq' : q = i + m := by omega
              rw [hp', hq']
            · right
              have hq' : q = i := by omega
              have hp' : p = i + m := by omega
              rw [hp', hq'])
  obtain ⟨s', l'⟩ := st'
  simp only at hl hm' hd'
  have hend : i + (n - i) = n := by omega
  rw [triIndex_row_end n i hi] at hl
  subst hl
  refine ⟨s', h, hm', cells, hd', hlen', ?_⟩
  intro p q hp hq hmin
  refine hc p q hp hq ?_
  by_cases e : min p q < i
  · exact Or.inl e
  · exact Or.inr ⟨by omega, by omega⟩

/-- A symmetric fill with a local, on an n x n matrix that holds a block of
n * n cells: cells (p, q) and (q, p) receive val of the local after as many
steps as the position of the pair in the upper-triangular traversal. -/
theorem fillSym_spec {V L : Type} (val : L → V) (next : L → L) (mat d n : Nat)
    (s : State V) (l0 : L) (hnn : n * n ≤ 2147483647)
    (hm : s.mats mat = { rows := (n : Int), cols := (n : Int), data := some d, mapped := false })
    (cells0 : List (Option V)) (hd : s.heap d = some cells0) (hlen : cells0.length = n * n) :
    ∃ s', forRange n (fun irow => forFromTo irow n fun icol (st : State V × L) =>
        ((MatrixType.put mat (wrapInt irow) (wrapInt icol) (val st.2) st.1).andThen
          (MatrixType.put mat (wrapInt icol) (wrapInt irow) (val st.2))).withLocal (next st.2))
        (s, l0) = .ok (s', next^[n * (n + 1) / 2] l0) ∧
      s'.mats mat
        = { rows := (n : Int), cols := (n : Int), data := some d, mapped := false } ∧
      ∃ cells, s'.heap d = some cells ∧ cells.length = n * n ∧
        ∀ p q, p < n → q < n →
          cells[p * n + q]? = some (some (val (next^[triIndex n (min p q) (max p q)] l0))) := by
  obtain ⟨st', h, hl, hm', cells, hd', hlen', hc⟩ := forRange_inv
    (fun i (st : State V × L) => st.2 = next^[triIndex n i i] l0 ∧
      st.1.mats mat
        = { rows := (n : Int), cols := (n : Int), data := some d, mapped := false } ∧
      ∃ cells, st.1.heap d = some cells ∧ cells.length = n * n ∧
        ∀ p q, p < n → q < n → min p q < i →
          cells[p * n + q]? = some (some (val (next^[triIndex n (min p q) (max p q)] l0))))
    n (fun irow => forFromTo irow n fun icol (st : State V × L) =>
        ((MatrixType.put mat (wrapInt irow) (wrapInt icol) (val st.2) st.1).andThen
          (MatrixType.put mat (wrapInt icol) (wrapInt irow) (val st.2))).withLocal (next st.2))
    (s, l0)
    ⟨by simp [triIndex], hm, cells0, hd, hlen, fun p q _ _ h => by omega⟩
    (by
      rintro i ⟨st, li⟩ hi ⟨hl1, hm1, cells, hd1, hlen1, hc1⟩
      simp only at hl1 hm1 hd1
      subst hl1
      obtain ⟨s', h, hm2, cells', hd2, hlen2, hc2⟩ := fillSym_row val next mat d n i st l0
        hnn hi hm1 cells hd1 hlen1 hc1
      exact ⟨(s', next^[triIndex n (i + 1) (i + 1)] l0), h, rfl, hm2, cells', hd2, hlen2, hc2⟩)
  obtain ⟨s', l'⟩ := st'
  simp only at hl hm' hd'
  rw [triIndex_total] at hl
  subst hl
  exact ⟨s', h, hm', cells, hd', hlen', fun p q hp hq => hc p q hp hq (by omega)⟩

/-- Construction of an n x n matrix followed by a symmetric fill with a
local, for n * n ≤ INT_MAX. -/
theorem fillSymShape_spec {V L : Type} (val : L → V) (next : L → L) (sz mat n : Nat)
    (s : State V) (l0 : L) (hsz : 0 < sz) (hsz' : sz ≤ 4294967296)
    (hnn : (n : Int) * (n : Int) ≤ INT_MAX) :
    ∃ s', ((MatrixType.ctorShape sz mat (wrapInt n) (wrapInt n) s).withLocal l0).andThen
        (forRange n fun irow => forFromTo irow n fun icol (st : State V × L) =>
          ((MatrixType.put mat (wrapInt irow) (wrapInt icol) (val st.2) st.1).andThen
            (MatrixType.put mat (wrapInt icol) (wrapInt irow) (val st.2))).withLocal
              (next st.2))
        = .ok (s', next^[n * (n + 1) / 2] l0) ∧
      (s'.mats mat).rows = (n : Int) ∧ (s'.mats mat).cols = (n : Int) ∧
      ∀ i j : Nat, i < n → j < n →
        MatrixType.get s' mat (i : Int) (j : Int)
          = some (some (val (next^[triIndex n (min i j) (max i j)] l0))) := by
  have hnn' : n * n ≤ 2147483647 := by unfold INT_MAX at hnn; exact_mod_cast hnn
  have hnle : n ≤ n * n := Nat.le_mul_self n
  obtain ⟨s1, h1, hm1, -, -, -, -, hd1⟩ := MatrixType.allocate_spec sz mat (n : Int) (n : Int)
    (MatrixType.resetState mat s) hsz hsz' (by simp [MatrixType.resetState])
    (by omega) (by omega) hnn
  have e : ((n : Int) * (n : Int)).toNat = n * n := by
    rw [← Int.natCast_mul]; exact Int.toNat_natCast _
  rw [e] at hd1
  obtain ⟨s', h, hm', cells, hd', hlen', hcells⟩ := fillSym_spec val next mat _ n s1 l0
    hnn' hm1 _ hd1 (List.length_replicate _ _)
  refine ⟨s', ?_, by rw [hm'], by rw [hm'], ?_⟩
  · unfold MatrixType.ctorShape
    rw [wrapInt_natCast n (by omega), h1, Outcome.withLocal_ok, Outcome.andThen_ok]
    exact h
  · intro i j hi hj
    have hidx : (s'.mats mat).index (i : Int) (j : Int) = ((i * n + j : Nat) : Int) := by
      rw [MatrixType.index_eq (s'.mats mat) i j (by omega)
        (by rw [hm']; show (i : Int) < (n : Int); exact_mod_cast hi)
        (by omega) (by rw [hm']; show (j : Int) < (n : Int); exact_mod_cast hj)
        (by rw [hm']; exact hnn), hm']
      push_cast
      ring
    unfold MatrixType.get State.load
    rw [hidx, hm']
    simp only [hd', Int.natCast_nonneg, if_true, Int.toNat_natCast]
    exact hcells i j hi hj

/-! ## Claims C13 and C14 -/

/-- The first assignment of a symmetric fill being undefined, the fill is. -/
theorem fillSymShape_first_write {V L : Type} (val : L → V) (next : L → L) (sz mat dim : Nat)
    (s s1 : State V) (l0 : L) (n : Nat)
    (h1 : MatrixType.ctorShape sz mat (wrapInt dim) (wrapInt dim) s = .ok s1)
    (hn : dim = n + 1)
    (hput : MatrixType.put mat (wrapInt (0 : Nat)) (wrapInt (0 : Nat)) (val l0) s1
      = .undefined) :
    ((MatrixType.ctorShape sz mat (wrapInt dim) (wrapInt dim) s).withLocal l0).andThen
        (forRange dim fun irow => forFromTo irow dim fun icol (st : State V × L) =>
          ((MatrixType.put mat (wrapInt irow) (wrapInt icol) (val st.2) st.1).andThen
            (MatrixType.put mat (wrapInt icol) (wrapInt irow) (val st.2))).withLocal
              (next st.2))
      = .undefined := by
  rw [h1, Outcome.withLocal_ok, Outcome.andThen_ok]
  subst hn
  refine forRange_undefined n _ _ ?_
  show forRange (n + 1 - 0) _ (s1, l0) = .undefined
  refine forRange_undefined n _ _ ?_
  show ((MatrixType.put mat (wrapInt (0 : Nat)) (wrapInt ((0 + 0 : Nat) : Int)) (val l0) s1).andThen
    _).withLocal _ = .undefined
  rw [show ((0 + 0 : Nat) : Int) = ((0 : Nat) : Int) from rfl, hput]
  rfl

theorem triIndex_diag_le (n a : Nat) (ha : a ≤ n) : triIndex n a a ≤ triIndex n n n := by
  have main : ∀ m, a ≤ m → m ≤ n → triIndex n a a ≤ triIndex n m m := by
    intro m hm
    induction m, hm using Nat.le_induction with
    | base => intro _; exact le_refl _
    | succ m hm ih =>
      intro hmn
      have h1 := ih (by omega)
      have h2 := triIndex_row_end n m (by omega)
      have h3 : triIndex n m m ≤ triIndex n m (m + (n - m)) := by
        unfold triIndex; omega
      omega
  exact main n ha (le_refl n)

/-- Positions in the upper-triangular traversal are below n * (n + 1) / 2. -/
theorem triIndex_lt (n i j : Nat) (hij : i ≤ j) (hj : j < n) :
    triIndex n i j < n * (n + 1) / 2 := by
  have h1 := triIndex_row_end n i (by omega)
  have h2 := triIndex_diag_le n (i + 1) (by omega)
  have h3 := triIndex_total n
  have h4 : triIndex n i j < triIndex n i (i + (n - i)) := by
    unfold triIndex; omega
  omega

theorem testMatSymmetric_spec {V : Type} (cast : Int → V) (sz mat n : Nat) (s : State V)
    (hsz : 0 < sz) (hsz' : sz ≤ 4294967296) (hnn : (n : Int) * (n : Int) ≤ INT_MAX) :
    ∃ s', testMatSymmetric cast sz mat n s = .ok s' ∧
      (s'.mats mat).rows = (n : Int) ∧ (s'.mats mat).cols = (n : Int) ∧
      ∀ i j : Nat, i < n → j < n →
        MatrixType.get s' mat (i : Int) (j : Int)
          = some (some (cast (((triIndex n (min i j) (max i j) % 5 : Nat) : Int) - 2))) := by
  obtain ⟨s', h, h1, h2, h3⟩ := fillSymShape_spec cast balancedNext sz mat n s (-2 : Int)
    hsz hsz' hnn
  refine ⟨s', ?_, h1, h2, ?_⟩
  · unfold testMatSymmetric testMatSymmetricRun
    rw [h]; rfl
  · intro i j hi hj
    rw [h3 i j hi hj, balancedNext_iterate]

/-- C13 (amended).  Symmetric fixture: for every n with n * n ≤ INT_MAX,
testMatSymmetric(n) returns an n-by-n matrix in which every cell (i, j) with
0 ≤ i, j < n holds an assigned value, the same as cell (j, i). -/
theorem testMatSymmetric_symmetric {V : Type} (cast : Int → V) (sz mat n : Nat)
    (s : State V) (hsz : 0 < sz) (hsz' : sz ≤ 4294967296)
    (hnn : (n : Int) * (n : Int) ≤ INT_MAX) :
    ∃ s', testMatSymmetric cast sz mat n s = .ok s' ∧
      (s'.mats mat).rows = (n : Int) ∧ (s'.mats mat).cols = (n : Int) ∧
      ∀ i j : Nat, i < n → j < n →
        ∃ x, MatrixType.get s' mat (i : Int) (j : Int) = some (some x) ∧
          MatrixType.get s' mat (j : Int) (i : Int) = some (some x) := by
  obtain ⟨s', h, h1, h2, h3⟩ := testMatSymmetric_spec cast sz mat n s hsz hsz' hnn
  refine ⟨s', h, h1, h2, ?_⟩
  intro i j hi hj
  refine ⟨_, h3 i j hi hj, ?_⟩
  rw [h3 j i hj hi, Nat.min_comm, Nat.max_comm]

/-- C13 witness: testMatSymmetric(3) on int cells is -2, -1, 0 / -1, 1, 2 /
0, 2, -2. -/
theorem testMatSymmetric_symmetric_witness :
    (∃ s', testMatSymmetric (fun v => v) 4 0 3 demo = .ok s' ∧
      (s'.mats 0).rows = 3 ∧ (s'.mats 0).cols = 3 ∧
      ∃ x, MatrixType.get s' 0 2 1 = some (some x) ∧
        MatrixType.get s' 0 1 2 = some (some x)) ∧
    (∃ s', testMatSymmetric (fun v => v) 4 0 3 demo = .ok s' ∧
      (s'.mats 0).data = some 4 ∧
      s'.heap 4 = some [some (-2), some (-1), some 0, some (-1), some 1, some 2,
        some 0, some 2, some (-2)]) := by
  obtain ⟨s', h, h1, h2, hc⟩ := testMatSymmetric_symmetric (fun v : Int => v) 4 0 3
    demo (by decide) (by decide) (by decide)
  exact ⟨⟨s', h, h1, h2, hc 2 1 (by decide) (by decide)⟩, ⟨_, rfl, rfl, rfl⟩⟩

/-- C13 counterexample: n = 65536 on one-byte cells.  n * n is 0 as an int:
the constructor takes a buffer of 0 bytes and the first assignment, to cell
(0, 0), is outside it. -/
theorem testMatSymmetric_symmetric_counterexample :
    (∃ s1, MatrixType.ctorShape 1 0 65536 65536 demo = .ok s1 ∧
      (s1.mats 0).data = some 4 ∧ s1.heap 4 = some []) ∧
    testMatSymmetric (fun v : Int => v) 1 0 65536 demo = .undefined :=
  ⟨⟨_, rfl, rfl, rfl⟩, by
    unfold testMatSymmetric testMatSymmetricRun
    rw [fillSymShape_first_write (fun v : Int => v) balancedNext 1 0 65536 demo _ (-2) 65535
      rfl (by decide) rfl]
    rfl⟩

/-- C14 (amended).  Symmetric fixture on the upper triangle: for every n with
n * n ≤ INT_MAX and all 0 ≤ i ≤ j < n, cell (i, j) of testMatSymmetric(n) is
(k mod 5) - 2 (converted to the cell type) with k = i * n - i * (i - 1) / 2 +
(j - i), the position of (i, j) in the upper-triangular traversal, and
testVecBalanced(n * (n + 1) / 2) returns a vector whose cell k is that cell
of the matrix. -/
theorem testMatSymmetric_cycle {V : Type} (cast : Int → V) (sz mat hvec n : Nat)
    (s t : State V) (hsz : 0 < sz) (hsz' : sz ≤ 4294967296)
    (hnn : (n : Int) * (n : Int) ≤ INT_MAX) :
    ∃ s' t', testMatSymmetric cast sz mat n s = .ok s' ∧
      testVecBalanced cast sz hvec (n * (n + 1) / 2) t = .ok t' ∧
      (t'.vecs hvec).size = ((n * (n + 1) / 2 : Nat) : Int) ∧
      ∀ i j : Nat, i ≤ j → j < n →
        MatrixType.get s' mat (i : Int) (j : Int)
          = some (some (cast
              ((((i * n - i * (i - 1) / 2 + (j - i)) % 5 : Nat) : Int) - 2))) ∧
        MatrixType.get s' mat (i : Int) (j : Int)
          = VectorType.get t' hvec ((i * n - i * (i - 1) / 2 + (j - i) : Nat) : Int) := by
  obtain ⟨s', h, -, -, h3⟩ := testMatSymmetric_spec cast sz mat n s hsz hsz' hnn
  have hle : n * (n + 1) / 2 ≤ n * n := by
    apply Nat.div_le_of_le_mul
    nlinarith [Nat.zero_le n, Nat.mul_self_le_mul_self (Nat.zero_le n),
      Nat.le_mul_self n]
  obtain ⟨t', k, k1, k2⟩ := testVecBalanced_spec cast sz hvec (n * (n + 1) / 2) t hsz hsz'
    (by
      have : ((n * (n + 1) / 2 : Nat) : Int) ≤ ((n * n : Nat) : Int) := by exact_mod_cast hle
      push_cast at this ⊢
      omega)
  refine ⟨s', t', h, ?_, k1, ?_⟩
  · unfold testVecBalanced
    rw [k]; rfl
  · intro i j hij hj
    have key := h3 i j (by omega) hj
    rw [Nat.min_eq_left hij, Nat.max_eq_right hij] at key
    have hlt := triIndex_lt n i j hij hj
    unfold triIndex at key hlt
    exact ⟨key, by rw [key, k2 _ hlt]⟩

/-- C14 witness: in testMatSymmetric(3) on int cells, cell (1, 2) is at
position 4 of the traversal and holds 2, as cell 4 of testVecBalanced(6). -/
theorem testMatSymmetric_cycle_witness :
    ∃ s' t', testMatSymmetric (fun v => v) 4 0 3 demo = .ok s' ∧
      testVecBalanced (fun v => v) 4 0 6 demo = .ok t' ∧
      MatrixType.get s' 0 1 2 = some (some 2) ∧
      MatrixType.get s' 0 1 2 = VectorType.get t' 0 4 := by
  obtain ⟨s', t', h, k, -, hc⟩ := testMatSymmetric_cycle (fun v : Int => v) 4 0 0 3
    demo demo (by decide) (by decide) (by decide)
  exact ⟨s', t', h, k, (hc 1 2 (by decide) (by decide)).1, (hc 1 2 (by decide) (by decide)).2⟩

/-- C14 counterexample: n = 46341 on int cells.  n * n is negative as an int:
malloc fails, the matrix has a null buffer and the first assignment, to cell
(0, 0), goes through the null pointer. -/
theorem testMatSymmetric_cycle_counterexample :
    (∃ s1, MatrixType.ctorShape 4 0 46341 46341 demo = .ok s1 ∧
      (s1.mats 0).rows = 46341 ∧ (s1.mats 0).cols = 46341 ∧ (s1.mats 0).data = none) ∧
    testMatSymmetric (fun v : Int => v) 4 0 46341 demo = .undefined :=
  ⟨⟨_, rfl, rfl, rfl, rfl⟩, by
    unfold testMatSymmetric testMatSymmetricRun
    rw [fillSymShape_first_write (fun v : Int => v) balancedNext 4 0 46341 demo _ (-2) 46340
      rfl (by decide) rfl]
    rfl⟩

/-! ## Claims C15 and C16 -/

/-- The first assignment of a vector fill being undefined, the fill is. -/
theorem fillVecSize_first_write {V L : Type} (val : L → V) (next : L → L) (sz hvec size : Nat)
    (s s1 : State V) (l0 : L) (n : Nat)
    (h1 : VectorType.ctorSize sz hvec (wrapInt size) s = .ok s1) (hn : size = n + 1)
    (hput : VectorType.put hvec (wrapInt (0 : Nat)) (val l0) s1 = .undefined) :
    ((VectorType.ctorSize sz hvec (wrapInt size) s).withLocal l0).andThen
        (forRange size fun idx (st : State V × L) =>
          (VectorType.put hvec (wrapInt idx) (val st.2) st.1).withLocal (next st.2))
      = .undefined := by
  rw [h1, hn, Outcome.withLocal_ok, Outcome.andThen_ok]
  refine forRange_undefined n _ _ ?_
  show (VectorType.put hvec (wrapInt (0 : Nat)) (val l0) s1).withLocal _ = _
  rw [hput]; rfl

/-- The first assignment of a row-major fill being undefined, the fill is. -/
theorem fillMatDim_first_write {V L : Type} (val : L → V) (next : L → L) (sz hmat : Nat)
    (dim : Dim) (s s1 : State V) (l0 : L) (R C : Nat)
    (h1 : MatrixType.ctorDim sz hmat dim s = .ok s1)
    (hR : toSizeType dim.rows = R + 1) (hC : toSizeType dim.cols = C + 1)
    (hput : MatrixType.put hmat (wrapInt (0 : Nat)) (wrapInt (0 : Nat)) (val l0) s1
      = .undefined) :
    ((MatrixType.ctorDim sz hmat dim s).withLocal l0).andThen
        (forRange (toSizeType dim.rows) fun iRow =>
          forRange (toSizeType dim.cols) fun iCol (st : State V × L) =>
            (MatrixType.put hmat (wrapInt iRow) (wrapInt iCol) (val st.2) st.1).withLocal
              (next st.2))
      = .undefined := by
  rw [h1, hR, hC, Outcome.withLocal_ok, Outcome.andThen_ok]
  refine forRange_undefined R _ _ (forRange_undefined C _ _ ?_)
  show (MatrixType.put hmat (wrapInt (0 : Nat)) (wrapInt (0 : Nat)) (val l0) s1).withLocal _ = _
  rw [hput, Outcome.withLocal_undefined]

/-- C15 (amended).  Random symmetric fixture, whatever the generator returns:
for every generator and every n with n * n ≤ INT_MAX,
createRandomSymmetricMatrix(n) returns an n-by-n matrix, its generator having
made exactly n * (n + 1) / 2 draws from the state seed(1), and for all
0 ≤ i ≤ j < n the cells (i, j) and (j, i) both hold draw number
k = i * n - i * (i - 1) / 2 + (j - i), the position of (i, j) in the
upper-triangular traversal. -/
theorem createRandomSymmetricMatrix_symmetric {G V : Type} (random : CPURandom G V)
    (sz mat n : Nat) (s : State V) (hsz : 0 < sz) (hsz' : sz ≤ 4294967296)
    (hnn : (n : Int) * (n : Int) ≤ INT_MAX) :
    ∃ s', createRandomSymmetricMatrix random sz mat n s = .ok s' ∧
      createRandomSymmetricMatrixRun random sz mat n s
        = .ok (s', (fun g => (random.random g).2)^[n * (n + 1) / 2] (random.seed 1)) ∧
      (s'.mats mat).rows = (n : Int) ∧ (s'.mats mat).cols = (n : Int) ∧
      ∀ i j : Nat, i ≤ j → j < n →
        MatrixType.get s' mat (i : Int) (j : Int)
          = some (some (random.random ((fun g => (random.random g).2)^[
              i * n - i * (i - 1) / 2 + (j - i)] (random.seed 1))).1) ∧
        MatrixType.get s' mat (j : Int) (i : Int)
          = MatrixType.get s' mat (i : Int) (j : Int) := by
  obtain ⟨s', h, h1, h2, h3⟩ := fillSymShape_spec (fun g => (random.random g).1)
    (fun g => (random.random g).2) sz mat n s (random.seed 1) hsz hsz' hnn
  have hrun : createRandomSymmetricMatrixRun random sz mat n s
      = .ok (s', (fun g => (random.random g).2)^[n * (n + 1) / 2] (random.seed 1)) := by
    unfold createRandomSymmetricMatrixRun
    exact h
  refine ⟨s', ?_, hrun, h1, h2, ?_⟩
  · unfold createRandomSymmetricMatrix
    rw [hrun]; rfl
  · intro i j hij hj
    have key := h3 i j (by omega) hj
    have key' := h3 j i hj (by omega)
    rw [Nat.min_eq_left hij, Nat.max_eq_right hij] at key
    rw [Nat.min_eq_right hij, Nat.max_eq_left hij] at key'
    unfold triIndex at key key'
    exact ⟨key, by rw [key, key']⟩

/-- C15 witness: with the generator that counts from its seed,
createRandomSymmetricMatrix(3) is 1, 2, 3 / 2, 4, 5 / 3, 5, 6, and the
generator ends in state 7, six draws after the seed 1. -/
theorem createRandomSymmetricMatrix_symmetric_witness :
    (∃ s', createRandomSymmetricMatrixRun demoRandom 4 0 3 demo
        = .ok (s', (fun g => (demoRandom.random g).2)^[6] (demoRandom.seed 1)) ∧
      MatrixType.get s' 0 1 2 = some (some (demoRandom.random
        ((fun g => (demoRandom.random g).2)^[4] (demoRandom.seed 1))).1) ∧
      MatrixType.get s' 0 2 1 = MatrixType.get s' 0 1 2) ∧
    (∃ s', createRandomSymmetricMatrixRun demoRandom 4 0 3 demo = .ok (s', 7) ∧
      (s'.mats 0).data = some 4 ∧
      s'.heap 4 = some [some 1, some 2, some 3, some 2, some 4, some 5,
        some 3, some 5, some 6]) := by
  obtain ⟨s', -, h, -, -, hc⟩ := createRandomSymmetricMatrix_symmetric demoRandom 4 0 3
    demo (by decide) (by decide) (by decide)
  exact ⟨⟨s', h, (hc 1 2 (by decide) (by decide)).1, (hc 1 2 (by decide) (by decide)).2⟩,
    ⟨_, rfl, rfl, rfl⟩⟩

/-- C15 counterexample: n = 65536 on one-byte cells, with the generator that
counts from its seed.  n * n is 0 as an int: the constructor takes a buffer
of 0 bytes and the first assignment, to cell (0, 0), is outside it. -/
theorem createRandomSymmetricMatrix_symmetric_counterexample :
    (∃ s1, MatrixType.ctorShape 1 0 65536 65536 demo = .ok s1 ∧
      (s1.mats 0).rows = 65536 ∧ (s1.mats 0).cols = 65536 ∧
      (s1.mats 0).data = some 4 ∧ s1.heap 4 = some []) ∧
    createRandomSymmetricMatrix demoRandom 1 0 65536 demo = .undefined :=
  ⟨⟨_, rfl, rfl, rfl, rfl, rfl⟩, by
    unfold createRandomSymmetricMatrix createRandomSymmetricMatrixRun
    rw [fillSymShape_first_write (fun g => (demoRandom.random g).1)
      (fun g => (demoRandom.random g).2) 1 0 65536 demo _ (demoRandom.seed 1) 65535
      rfl (by decide) rfl]
    rfl⟩

/-- C16 (amended).  Random fixture reproducibility, the generator being a
function of its seed: from any two states and into any two objects, two
invocations of randomizeBits(size) with size ≤ INT_MAX return vectors of the
same size with the same assigned value in every cell; two invocations of
randomizeBits(dim) with rows ≥ 0, cols ≥ 0 and rows * cols ≤ INT_MAX return
matrices of the same shape with the same assigned value in every cell; and
two invocations of createRandomSymmetricMatrix(n) with n * n ≤ INT_MAX return
matrices of the same shape with the same assigned value in every cell. -/
theorem random_fixtures_reproducible {G V : Type} (random : CPURandom G V) (cast : Int → V)
    (sz vec vec2 mat mat2 size n : Nat) (dim : Dim) (s t : State V)
    (hsz : 0 < sz) (hsz' : sz ≤ 4294967296) (hsize : (size : Int) ≤ INT_MAX)
    (hr : 0 ≤ dim.rows) (hc : 0 ≤ dim.cols) (hrc : dim.rows * dim.cols ≤ INT_MAX)
    (hnn : (n : Int) * (n : Int) ≤ INT_MAX) :
    (∃ s' t', randomizeBits random cast sz vec size s = .ok s' ∧
      randomizeBits random cast sz vec2 size t = .ok t' ∧
      (s'.vecs vec).size = (size : Int) ∧ (t'.vecs vec2).size = (size : Int) ∧
      ∀ idx : Nat, idx < size →
        ∃ x, VectorType.get s' vec (idx : Int) = some (some x) ∧
          VectorType.get t' vec2 (idx : Int) = some (some x)) ∧
    (∃ s' t', randomizeBitsDim random cast sz mat dim s = .ok s' ∧
      randomizeBitsDim random cast sz mat2 dim t = .ok t' ∧
      (s'.mats mat).rows = dim.rows ∧ (s'.mats mat).cols = dim.cols ∧
      (t'.mats mat2).rows = dim.rows ∧ (t'.mats mat2).cols = dim.cols ∧
      ∀ i j : Nat, (i : Int) < dim.rows → (j : Int) < dim.cols →
        ∃ x, MatrixType.get s' mat (i : Int) (j : Int) = some (some x) ∧
          MatrixType.get t' mat2 (i : Int) (j : Int) = some (some x)) ∧
    (∃ s' t', createRandomSymmetricMatrix random sz mat n s = .ok s' ∧
      createRandomSymmetricMatrix random sz mat2 n t = .ok t' ∧
      (s'.mats mat).rows = (n : Int) ∧ (s'.mats mat).cols = (n : Int) ∧
      (t'.mats mat2).rows = (n : Int) ∧ (t'.mats mat2).cols = (n : Int) ∧
      ∀ i j : Nat, i < n → j < n →
        ∃ x, MatrixType.get s' mat (i : Int) (j : Int) = some (some x) ∧
          MatrixType.get t' mat2 (i : Int) (j : Int) = some (some x)) := by
  refine ⟨?_, ?_, ?_⟩
  · obtain ⟨s', h, h1, h2⟩ := fillVecSize_spec (fun g => cast (random.randInt g 2).1)
      (fun g => (random.randInt g 2).2) sz vec size s (random.seed 2) hsz hsz' hsize
    obtain ⟨t', k, k1, k2⟩ := fillVecSize_spec (fun g => cast (random.randInt g 2).1)
      (fun g => (random.randInt g 2).2) sz vec2 size t (random.seed 2) hsz hsz' hsize
    refine ⟨s', t', ?_, ?_, h1, k1, fun idx hidx => ⟨_, h2 idx hidx, k2 idx hidx⟩⟩
    · unfold randomizeBits randomizeBitsRun
      rw [h]; rfl
    · unfold randomizeBits randomizeBitsRun
      rw [k]; rfl
  · obtain ⟨s', h, h1, h2, h3⟩ := fillMatDim_spec (fun g => cast (random.randInt g 2).1)
      (fun g => (random.randInt g 2).2) sz mat dim s (random.seed 2) hsz hsz' hr hc hrc
    obtain ⟨t', k, k1, k2, k3⟩ := fillMatDim_spec (fun g => cast (random.randInt g 2).1)
      (fun g => (random.randInt g 2).2) sz mat2 dim t (random.seed 2) hsz hsz' hr hc hrc
    refine ⟨s', t', ?_, ?_, h1, h2, k1, k2, fun i j hi hj => ⟨_, h3 i j hi hj, k3 i j hi hj⟩⟩
    · unfold randomizeBitsDim randomizeBitsDimRun
      rw [h]; rfl
    · unfold randomizeBitsDim randomizeBitsDimRun
      rw [k]; rfl
  · obtain ⟨s', h, h1, h2, h3⟩ := fillSymShape_spec (fun g => (random.random g).1)
      (fun g => (random.random g).2) sz mat n s (random.seed 1) hsz hsz' hnn
    obtain ⟨t', k, k1, k2, k3⟩ := fillSymShape_spec (fun g => (random.random g).1)
      (fun g => (random.random g).2) sz mat2 n t (random.seed 1) hsz hsz' hnn
    refine ⟨s', t', ?_, ?_, h1, h2, k1, k2, fun i j hi hj => ⟨_, h3 i j hi hj, k3 i j hi hj⟩⟩
    · unfold createRandomSymmetricMatrix createRandomSymmetricMatrixRun
      rw [h]; rfl
    · unfold createRandomSymmetricMatrix createRandomSymmetricMatrixRun
      rw [k]; rfl

/-- C16 witness: with the generator that counts from its seed, randomizeBits(3)
is 0, 1, 0, randomizeBits(Dim(2, 2)) is 0, 1 / 0, 1 and
createRandomSymmetricMatrix(2) is 1, 2 / 2, 3, from a state holding no block
as from a state holding one. -/
theorem random_fixtures_reproducible_witness :
    (∃ s' t', randomizeBits demoRandom (fun v => v) 4 0 3 demo = .ok s' ∧
      randomizeBits demoRandom (fun v => v) 4 1 3 (demo.malloc 4 8).1 = .ok t' ∧
      ∃ x, VectorType.get s' 0 1 = some (some x) ∧
        VectorType.get t' 1 1 = some (some x)) ∧
    (∃ s', randomizeBits demoRandom (fun v => v) 4 0 3 demo = .ok s' ∧
      (s'.vecs 0).data = some 4 ∧ s'.heap 4 = some [some 0, some 1, some 0]) ∧
    (∃ t', randomizeBits demoRandom (fun v => v) 4 1 3 (demo.malloc 4 8).1 = .ok t' ∧
      (t'.vecs 1).data = some 5 ∧ t'.heap 5 = some [some 0, some 1, some 0]) ∧
    (∃ s', randomizeBitsDim demoRandom (fun v => v) 4 0 ⟨2, 2⟩ demo = .ok s' ∧
      (s'.mats 0).data = some 4 ∧ s'.heap 4 = some [some 0, some 1, some 0, some 1]) ∧
    (∃ s', createRandomSymmetricMatrix demoRandom 4 0 2 demo = .ok s' ∧
      (s'.mats 0).data = some 4 ∧ s'.heap 4 = some [some 1, some 2, some 2, some 3]) := by
  obtain ⟨⟨s', t', h, k, -, -, hc⟩, -, -⟩ := random_fixtures_reproducible demoRandom
    (fun v : Int => v) 4 0 1 0 1 3 2 ⟨2, 2⟩ demo (demo.malloc 4 8).1 (by decide) (by decide)
    (by decide) (by decide) (by decide) (by decide) (by decide)
  exact ⟨⟨s', t', h, k, hc 1 (by decide)⟩, ⟨_, rfl, rfl, rfl⟩, ⟨_, rfl, rfl, rfl⟩,
    ⟨_, rfl, rfl, rfl⟩, ⟨_, rfl, rfl, rfl⟩⟩

/-- C16 counterexample, with the generator that counts from its seed: none of
randomizeBits(2^31) on int cells, randomizeBits(Dim(65536, 65536)) on one-byte
cells and createRandomSymmetricMatrix(46341) on int cells returns a result;
each is undefined at its first assignment, the constructor having been given
a size that is not the number of cells as an int. -/
theorem random_fixtures_reproducible_counterexample :
    randomizeBits demoRandom (fun v => v) 4 0 2147483648 demo = .undefined ∧
    randomizeBitsDim demoRandom (fun v => v) 1 0 ⟨65536, 65536⟩ demo = .undefined ∧
    createRandomSymmetricMatrix demoRandom 4 0 46341 demo = .undefined := by
  refine ⟨?_, ?_, ?_⟩
  · unfold randomizeBits randomizeBitsRun
    rw [fillVecSize_first_write (fun g => (demoRandom.randInt g 2).1)
      (fun g => (demoRandom.randInt g 2).2) 4 0 2147483648 demo _ (demoRandom.seed 2)
      2147483647 rfl (by decide) rfl]
    rfl
  · unfold randomizeBitsDim randomizeBitsDimRun
    rw [fillMatDim_first_write (fun g => (demoRandom.randInt g 2).1)
      (fun g => (demoRandom.randInt g 2).2) 1 0 ⟨65536, 65536⟩ demo _ (demoRandom.seed 2)
      65535 65535 rfl (by decide) (by decide) rfl]
    rfl
  · unfold createRandomSymmetricMatrix createRandomSymmetricMatrixRun
    rw [fillSymShape_first_write (fun g => (demoRandom.random g).1)
      (fun g => (demoRandom.random g).2) 4 0 46341 demo _ (demoRandom.seed 1) 46340
      rfl (by decide) rfl]
    rfl

end sqaod
